import Mathlib

set_option maxRecDepth 10000

/-!
Shallow embedding of the ARM Trusted Firmware translation-table library
version 2 (`xlat_tables_internal.c`, dynamic-regions configuration), together
with proofs about its region-list management, its recursive table builder and
unmapper, and its attribute-mutation walk.

Machine integers are modelled as `Nat`. Bit masking with a low-bits mask
`2^k - 1` is written with `% 2^k`, and clearing the low `k` bits is written
with `/ 2^k * 2^k`; these agree with the C `&` / `& ~` expressions on the
64-bit values involved. State held behind pointers (the translation-table
pool, the region array) is made explicit: a sub-table is identified by its
index in the pool, and the region array (terminated by its zero-size
sentinel) is a `List`.
-/

/-! ## Architectural constants (from `xlat_tables_defs.h`) -/

def PAGE_SIZE : Nat := 4096

def XLAT_TABLE_ENTRIES : Nat := 512

def XLAT_TABLE_LEVEL_MAX : Nat := 3

/-- Minimum level at which block descriptors are allowed (AArch64, 4 KiB
granule). -/
def MIN_LVL_BLOCK_DESC : Nat := 1

def XLAT_ADDR_SHIFT (level : Nat) : Nat := 12 + 9 * (XLAT_TABLE_LEVEL_MAX - level)

def XLAT_BLOCK_SIZE (level : Nat) : Nat := 2 ^ XLAT_ADDR_SHIFT level

def INVALID_DESC : Nat := 0
def BLOCK_DESC : Nat := 1
def TABLE_DESC : Nat := 3
def PAGE_DESC : Nat := 3

/-- C: `desc & DESC_MASK` with `DESC_MASK = 0x3`. -/
def desc_type (desc : Nat) : Nat := desc % 4

/-! ## Memory-mapping attributes (from `xlat_tables_v2.h`) -/

def MT_DEVICE : Nat := 0
def MT_NON_CACHEABLE : Nat := 1
def MT_MEMORY : Nat := 2
def MT_PERM_SHIFT : Nat := 3
def MT_SEC_SHIFT : Nat := 4
def MT_EXECUTE_SHIFT : Nat := 5

def MT_RO : Nat := 0
def MT_RW : Nat := 2 ^ MT_PERM_SHIFT
def MT_SECURE : Nat := 0
def MT_NS : Nat := 2 ^ MT_SEC_SHIFT
def MT_EXECUTE : Nat := 0
def MT_EXECUTE_NEVER : Nat := 2 ^ MT_EXECUTE_SHIFT

/-- Modelled from the spec (`xlat_tables_private.h` is not part of the given
sources): the dynamic-region flag, an attribute bit set by the engine itself
and outside the user-settable attribute space. -/
def MT_DYNAMIC : Nat := 2 ^ 30

/-- C: `MT_TYPE(attr) = attr & MT_TYPE_MASK` with `MT_TYPE_MASK = 0x7`. -/
def MT_TYPE (attr : Nat) : Nat := attr % 8

/-- Test a single-bit attribute mask: C `(attr & mask) != 0` where `mask` is
a power of two. -/
def attr_bit (attr mask : Nat) : Bool := attr / mask % 2 = 1

/-! ## Region records -/

/-- C struct `mmap_region_t`. -/
structure mmap_region where
  base_pa : Nat
  base_va : Nat
  size : Nat
  attr : Nat
  granularity : Nat
deriving Repr, DecidableEq

/-- The all-zero region record: the sentinel value of the C region array. -/
def mmap_sentinel : mmap_region := ⟨0, 0, 0, 0, 0⟩

/-! ## The action decision of the builder -/

inductive action_t where
  | ACTION_NONE
  | ACTION_WRITE_BLOCK_ENTRY
  | ACTION_CREATE_NEW_TABLE
  | ACTION_RECURSE_INTO_TABLE
deriving Repr, DecidableEq

open action_t

/-- C function `xlat_tables_map_region_action`.  `desc_ty` is the low two
bits of the current descriptor (`desc & DESC_MASK` at the call site). -/
def xlat_tables_map_region_action (mm : mmap_region) (desc_ty : Nat)
    (dest_pa : Nat) (table_entry_base_va : Nat) (level : Nat) : action_t :=
  let mm_end_va := mm.base_va + mm.size - 1
  let table_entry_end_va := table_entry_base_va + XLAT_BLOCK_SIZE level - 1
  if mm.base_va ≤ table_entry_base_va ∧ mm_end_va ≥ table_entry_end_va then
    -- table entry is covered by the region
    if level = 3 then
      if desc_ty = PAGE_DESC then ACTION_NONE
      else ACTION_WRITE_BLOCK_ENTRY
    else
      if desc_ty = TABLE_DESC then ACTION_RECURSE_INTO_TABLE
      else if desc_ty = INVALID_DESC then
        if dest_pa % XLAT_BLOCK_SIZE level ≠ 0 ∨ level < MIN_LVL_BLOCK_DESC ∨
            mm.granularity < XLAT_BLOCK_SIZE level then
          ACTION_CREATE_NEW_TABLE
        else
          ACTION_WRITE_BLOCK_ENTRY
      else ACTION_NONE
  else if mm.base_va ≤ table_entry_end_va ∨ mm_end_va ≥ table_entry_base_va then
    -- region partially covers the table entry
    if desc_ty = INVALID_DESC then ACTION_CREATE_NEW_TABLE
    else ACTION_RECURSE_INTO_TABLE
  else
    ACTION_NONE

/-- Reference variant of `xlat_tables_map_region_action`, following the
spec's words for the partial-overlap test: the entry's VA interval
intersects the region's VA interval but is not contained in it (the
containment case has already been consumed by the first branch).  Only the
condition of the `else if` differs from the source function. -/
def xlat_tables_map_region_action_ref (mm : mmap_region) (desc_ty : Nat)
    (dest_pa : Nat) (table_entry_base_va : Nat) (level : Nat) : action_t :=
  let mm_end_va := mm.base_va + mm.size - 1
  let table_entry_end_va := table_entry_base_va + XLAT_BLOCK_SIZE level - 1
  if mm.base_va ≤ table_entry_base_va ∧ mm_end_va ≥ table_entry_end_va then
    if level = 3 then
      if desc_ty = PAGE_DESC then ACTION_NONE
      else ACTION_WRITE_BLOCK_ENTRY
    else
      if desc_ty = TABLE_DESC then ACTION_RECURSE_INTO_TABLE
      else if desc_ty = INVALID_DESC then
        if dest_pa % XLAT_BLOCK_SIZE level ≠ 0 ∨ level < MIN_LVL_BLOCK_DESC ∨
            mm.granularity < XLAT_BLOCK_SIZE level then
          ACTION_CREATE_NEW_TABLE
        else
          ACTION_WRITE_BLOCK_ENTRY
      else ACTION_NONE
  else if mm.base_va ≤ table_entry_end_va ∧ mm_end_va ≥ table_entry_base_va then
    if desc_ty = INVALID_DESC then ACTION_CREATE_NEW_TABLE
    else ACTION_RECURSE_INTO_TABLE
  else
    ACTION_NONE

/-! ## Translation-table state

The C context accesses its translation tables through three fields:
`base_table` (the single table at the initial lookup level), `tables` (the
pool of sub-tables, each with `XLAT_TABLE_ENTRIES` slots) and
`tables_mapped_regions` (one reference count per pool table, dynamic mode).
A table pointer is modelled as `Option Nat`: `none` is the base table,
`some t` is pool table `t`.  The number of pool tables (`ctx->tables_num`)
is `tables.size`. -/

structure tt_state where
  base_table : Array Nat
  tables : Array (Array Nat)
  tables_mapped_regions : Array Nat
deriving Repr, DecidableEq

/-- C: `table_base[table_idx]` for a table pointer. -/
def tt_read (s : tt_state) (r : Option Nat) (i : Nat) : Nat :=
  match r with
  | none => s.base_table.getD i 0
  | some t => (s.tables.getD t #[]).getD i 0

/-- C: `table_base[table_idx] = v` for a table pointer. -/
def tt_write (s : tt_state) (r : Option Nat) (i : Nat) (v : Nat) : tt_state :=
  match r with
  | none => { s with base_table := s.base_table.setD i v }
  | some t => { s with tables := s.tables.modify t (fun tbl => tbl.setD i v) }

/-- C function `xlat_table_get_empty`: first pool table whose
mapped-regions count is zero. -/
def xlat_table_get_empty (s : tt_state) : Option Nat :=
  (List.range s.tables.size).find? (fun i => s.tables_mapped_regions.getD i 0 == 0)

/-- C function `xlat_table_inc_regions_count` (the C version recovers the
pool index from the table pointer by linear scan; the model carries the
index directly). -/
def xlat_table_inc_regions_count (s : tt_state) (t : Nat) : tt_state :=
  { s with tables_mapped_regions := s.tables_mapped_regions.modify t (· + 1) }

/-- C function `xlat_table_dec_regions_count`. -/
def xlat_table_dec_regions_count (s : tt_state) (t : Nat) : tt_state :=
  { s with tables_mapped_regions := s.tables_mapped_regions.modify t (· - 1) }

/-- C function `xlat_table_is_empty`. -/
def xlat_table_is_empty (s : tt_state) (t : Nat) : Bool :=
  s.tables_mapped_regions.getD t 0 == 0

/-- Model of the address of pool sub-table `t`: the C code stores the
sub-table's pointer inside table descriptors; pool table `t` is given the
page-aligned nonzero address `(t + 1) * PAGE_SIZE`. -/
def xlat_table_addr (t : Nat) : Nat := (t + 1) * PAGE_SIZE

/-- C: `TABLE_DESC | (unsigned long)subtable` (the two fields are
disjoint: the address is page-aligned). -/
def table_desc_for (t : Nat) : Nat := TABLE_DESC + xlat_table_addr t

/-- C: `desc & TABLE_ADDR_MASK` (mask selecting bits 47:12, written
arithmetically) composed with the model's address-to-pool-index
correspondence. -/
def table_of_desc (desc : Nat) : Nat := desc % 2 ^ 48 / PAGE_SIZE - 1

/-! ## Descriptor encoding (`xlat_desc`)

The descriptor field constants come from `xlat_tables_defs.h`, which is not
among the given sources; they are modelled from the spec's description of
the ARMv8 long-descriptor format (attribute index, NS, AP, shareability,
access flag in the lower attributes; XN in the upper attributes). -/

def LOWER_ATTRS (x : Nat) : Nat := x % 4096 * 4
def NS : Nat := 2 ^ 3
def AP_RO : Nat := 2 ^ 5
def AP_RW : Nat := 0
def ACCESS_FLAG : Nat := 2 ^ 8
def OSH : Nat := 2 * 2 ^ 6
def ISH : Nat := 3 * 2 ^ 6
def ATTR_DEVICE_INDEX : Nat := 1
def ATTR_IWBWA_OWBWA_NTR_INDEX : Nat := 0
def ATTR_NON_CACHEABLE_INDEX : Nat := 2
def AP2_SHIFT : Nat := 7
def AP2_RO : Nat := 1
def AP2_RW : Nat := 0
def XN_SHIFT : Nat := 54

/-- C function `xlat_desc`: block/page descriptor for the given attributes,
output address and level.  The C `|=` operations combine pairwise-disjoint
bit fields of an address asserted to be block-aligned, so they are written
as `+`. -/
def xlat_desc (attr : Nat) (addr_pa : Nat) (level : Nat)
    (execute_never_mask : Nat) : Nat :=
  let desc := addr_pa + (if level = XLAT_TABLE_LEVEL_MAX then PAGE_DESC else BLOCK_DESC)
  let desc := desc + (if attr_bit attr MT_NS then LOWER_ATTRS NS else 0)
  let desc := desc + (if attr_bit attr MT_RW then LOWER_ATTRS AP_RW else LOWER_ATTRS AP_RO)
  let desc := desc + LOWER_ATTRS ACCESS_FLAG
  let mem_type := MT_TYPE attr
  if mem_type = MT_DEVICE then
    desc + LOWER_ATTRS (ATTR_DEVICE_INDEX + OSH) + execute_never_mask
  else
    let desc := desc +
      (if attr_bit attr MT_RW ∨ attr_bit attr MT_EXECUTE_NEVER then execute_never_mask else 0)
    if mem_type = MT_MEMORY then
      desc + LOWER_ATTRS (ATTR_IWBWA_OWBWA_NTR_INDEX + ISH)
    else
      desc + LOWER_ATTRS (ATTR_NON_CACHEABLE_INDEX + OSH)

/-! ## The recursive builder (`xlat_tables_map_region`)

The C recursion carries the context for three purposes: reading and writing
tables, the pool operations, and the two constants `base_level` and
`execute_never_mask`; the model passes the table state and the two
constants explicitly.  The `while` loop over table entries is the
`xlat_tables_map_loop` helper; the `assert(level <= XLAT_TABLE_LEVEL_MAX)`
at function entry becomes the guard that dominates both. -/

mutual

/-- C function `xlat_tables_map_region`.  Returns the updated table state
and the C return value (VA of the last byte mapped on success, VA of the
entry where mapping stopped on failure). -/
def xlat_tables_map_region (s : tt_state) (mm : mmap_region)
    (table_base_va : Nat) (table : Option Nat) (table_entries : Nat)
    (level : Nat) (base_level : Nat) (execute_never_mask : Nat) : tt_state × Nat :=
  if _hlvl : level ≤ XLAT_TABLE_LEVEL_MAX then
    let start :=
      if mm.base_va > table_base_va then
        let table_idx_va := mm.base_va / XLAT_BLOCK_SIZE level * XLAT_BLOCK_SIZE level
        ((table_idx_va - table_base_va) / XLAT_BLOCK_SIZE level, table_idx_va)
      else (0, table_base_va)
    let s :=
      if base_level < level then
        match table with
        | some t => xlat_table_inc_regions_count s t
        | none => s
      else s
    xlat_tables_map_loop s mm table_base_va table table_entries level
      base_level execute_never_mask start.1 start.2
  else (s, 0)
termination_by ((XLAT_TABLE_LEVEL_MAX + 1) - level, table_entries + 1)

/-- The entry loop of `xlat_tables_map_region`. -/
def xlat_tables_map_loop (s : tt_state) (mm : mmap_region)
    (table_base_va : Nat) (table : Option Nat) (table_entries : Nat)
    (level : Nat) (base_level : Nat) (execute_never_mask : Nat)
    (table_idx : Nat) (table_idx_va : Nat) : tt_state × Nat :=
  if _hlvl : level ≤ XLAT_TABLE_LEVEL_MAX then
    if _hidx : table_idx < table_entries then
      let mm_end_va := mm.base_va + mm.size - 1
      let desc := tt_read s table table_idx
      let table_idx_pa := mm.base_pa + table_idx_va - mm.base_va
      let action := xlat_tables_map_region_action mm (desc_type desc)
        table_idx_pa table_idx_va level
      match action with
      | ACTION_WRITE_BLOCK_ENTRY =>
        let s := tt_write s table table_idx
          (xlat_desc mm.attr table_idx_pa level execute_never_mask)
        let table_idx_va' := table_idx_va + XLAT_BLOCK_SIZE level
        if mm_end_va ≤ table_idx_va' then (s, table_idx_va' - 1)
        else xlat_tables_map_loop s mm table_base_va table table_entries level
          base_level execute_never_mask (table_idx + 1) table_idx_va'
      | ACTION_CREATE_NEW_TABLE =>
        match xlat_table_get_empty s with
        | none => (s, table_idx_va)
        | some subtable =>
          let s := tt_write s table table_idx (table_desc_for subtable)
          let r := xlat_tables_map_region s mm table_idx_va (some subtable)
            XLAT_TABLE_ENTRIES (level + 1) base_level execute_never_mask
          if r.2 ≠ table_idx_va + XLAT_BLOCK_SIZE level - 1 then r
          else
            let table_idx_va' := table_idx_va + XLAT_BLOCK_SIZE level
            if mm_end_va ≤ table_idx_va' then (r.1, table_idx_va' - 1)
            else xlat_tables_map_loop r.1 mm table_base_va table table_entries
              level base_level execute_never_mask (table_idx + 1) table_idx_va'
      | ACTION_RECURSE_INTO_TABLE =>
        let subtable := table_of_desc desc
        let r := xlat_tables_map_region s mm table_idx_va (some subtable)
          XLAT_TABLE_ENTRIES (level + 1) base_level execute_never_mask
        if r.2 ≠ table_idx_va + XLAT_BLOCK_SIZE level - 1 then r
        else
          let table_idx_va' := table_idx_va + XLAT_BLOCK_SIZE level
          if mm_end_va ≤ table_idx_va' then (r.1, table_idx_va' - 1)
          else xlat_tables_map_loop r.1 mm table_base_va table table_entries
            level base_level execute_never_mask (table_idx + 1) table_idx_va'
      | ACTION_NONE =>
        let table_idx_va' := table_idx_va + XLAT_BLOCK_SIZE level
        if mm_end_va ≤ table_idx_va' then (s, table_idx_va' - 1)
        else xlat_tables_map_loop s mm table_base_va table table_entries level
          base_level execute_never_mask (table_idx + 1) table_idx_va'
    else (s, table_idx_va - 1)
  else (s, 0)
termination_by ((XLAT_TABLE_LEVEL_MAX + 1) - level, table_entries - table_idx)

end

/-! ## The recursive unmapper (`xlat_tables_unmap_region`) -/

mutual

/-- C function `xlat_tables_unmap_region` (returns the updated table
state; the C function returns `void`). -/
def xlat_tables_unmap_region (s : tt_state) (mm : mmap_region)
    (table_base_va : Nat) (table : Option Nat) (table_entries : Nat)
    (level : Nat) (base_level : Nat) : tt_state :=
  if _hlvl : level ≤ XLAT_TABLE_LEVEL_MAX then
    let start :=
      if mm.base_va > table_base_va then
        let table_idx_va := mm.base_va / XLAT_BLOCK_SIZE level * XLAT_BLOCK_SIZE level
        ((table_idx_va - table_base_va) / XLAT_BLOCK_SIZE level, table_idx_va)
      else (0, table_base_va)
    let s := xlat_tables_unmap_loop s mm table_base_va table table_entries
      level base_level start.1 start.2
    if base_level < level then
      match table with
      | some t => xlat_table_dec_regions_count s t
      | none => s
    else s
  else s
termination_by ((XLAT_TABLE_LEVEL_MAX + 1) - level, table_entries + 1)

/-- The entry loop of `xlat_tables_unmap_region`. -/
def xlat_tables_unmap_loop (s : tt_state) (mm : mmap_region)
    (table_base_va : Nat) (table : Option Nat) (table_entries : Nat)
    (level : Nat) (base_level : Nat)
    (table_idx : Nat) (table_idx_va : Nat) : tt_state :=
  if _hlvl : level ≤ XLAT_TABLE_LEVEL_MAX then
    if _hidx : table_idx < table_entries then
      let region_end_va := mm.base_va + mm.size - 1
      let table_idx_end_va := table_idx_va + XLAT_BLOCK_SIZE level - 1
      let desc := tt_read s table table_idx
      let s' :=
        if mm.base_va ≤ table_idx_va ∧ region_end_va ≥ table_idx_end_va then
          -- region covers all of the entry
          if level = 3 then
            -- only page descriptors here (asserted); erase
            tt_write s table table_idx INVALID_DESC
          else if desc_type desc = TABLE_DESC then
            let subtable := table_of_desc desc
            let s1 := xlat_tables_unmap_region s mm table_idx_va
              (some subtable) XLAT_TABLE_ENTRIES (level + 1) base_level
            if xlat_table_is_empty s1 subtable then
              tt_write s1 table table_idx INVALID_DESC
            else s1
          else
            -- a block descriptor (asserted); erase
            tt_write s table table_idx INVALID_DESC
        else if mm.base_va ≤ table_idx_end_va ∨ region_end_va ≥ table_idx_va then
          -- region partially covers the entry: a table descriptor (asserted)
          let subtable := table_of_desc desc
          let s1 := xlat_tables_unmap_region s mm table_idx_va
            (some subtable) XLAT_TABLE_ENTRIES (level + 1) base_level
          if xlat_table_is_empty s1 subtable then
            tt_write s1 table table_idx INVALID_DESC
          else s1
        else s
      let table_idx_va' := table_idx_va + XLAT_BLOCK_SIZE level
      if region_end_va ≤ table_idx_va' then s'
      else xlat_tables_unmap_loop s' mm table_base_va table table_entries
        level base_level (table_idx + 1) table_idx_va'
    else s
  else s
termination_by ((XLAT_TABLE_LEVEL_MAX + 1) - level, table_entries - table_idx)

end

/-! ## Reference builder for claim C4

Identical to `xlat_tables_map_region` except that the action is decided by
`xlat_tables_map_region_action_ref`. -/

mutual

def xlat_tables_map_region_ref (s : tt_state) (mm : mmap_region)
    (table_base_va : Nat) (table : Option Nat) (table_entries : Nat)
    (level : Nat) (base_level : Nat) (execute_never_mask : Nat) : tt_state × Nat :=
  if _hlvl : level ≤ XLAT_TABLE_LEVEL_MAX then
    let start :=
      if mm.base_va > table_base_va then
        let table_idx_va := mm.base_va / XLAT_BLOCK_SIZE level * XLAT_BLOCK_SIZE level
        ((table_idx_va - table_base_va) / XLAT_BLOCK_SIZE level, table_idx_va)
      else (0, table_base_va)
    let s :=
      if base_level < level then
        match table with
        | some t => xlat_table_inc_regions_count s t
        | none => s
      else s
    xlat_tables_map_loop_ref s mm table_base_va table table_entries level
      base_level execute_never_mask start.1 start.2
  else (s, 0)
termination_by ((XLAT_TABLE_LEVEL_MAX + 1) - level, table_entries + 1)

def xlat_tables_map_loop_ref (s : tt_state) (mm : mmap_region)
    (table_base_va : Nat) (table : Option Nat) (table_entries : Nat)
    (level : Nat) (base_level : Nat) (execute_never_mask : Nat)
    (table_idx : Nat) (table_idx_va : Nat) : tt_state × Nat :=
  if _hlvl : level ≤ XLAT_TABLE_LEVEL_MAX then
    if _hidx : table_idx < table_entries then
      let mm_end_va := mm.base_va + mm.size - 1
      let desc := tt_read s table table_idx
      let table_idx_pa := mm.base_pa + table_idx_va - mm.base_va
      let action := xlat_tables_map_region_action_ref mm (desc_type desc)
        table_idx_pa table_idx_va level
      match action with
      | ACTION_WRITE_BLOCK_ENTRY =>
        let s := tt_write s table table_idx
          (xlat_desc mm.attr table_idx_pa level execute_never_mask)
        let table_idx_va' := table_idx_va + XLAT_BLOCK_SIZE level
        if mm_end_va ≤ table_idx_va' then (s, table_idx_va' - 1)
        else xlat_tables_map_loop_ref s mm table_base_va table table_entries
          level base_level execute_never_mask (table_idx + 1) table_idx_va'
      | ACTION_CREATE_NEW_TABLE =>
        match xlat_table_get_empty s with
        | none => (s, table_idx_va)
        | some subtable =>
          let s := tt_write s table table_idx (table_desc_for subtable)
          let r := xlat_tables_map_region_ref s mm table_idx_va (some subtable)
            XLAT_TABLE_ENTRIES (level + 1) base_level execute_never_mask
          if r.2 ≠ table_idx_va + XLAT_BLOCK_SIZE level - 1 then r
          else
            let table_idx_va' := table_idx_va + XLAT_BLOCK_SIZE level
            if mm_end_va ≤ table_idx_va' then (r.1, table_idx_va' - 1)
            else xlat_tables_map_loop_ref r.1 mm table_base_va table
              table_entries level base_level execute_never_mask (table_idx + 1)
              table_idx_va'
      | ACTION_RECURSE_INTO_TABLE =>
        let subtable := table_of_desc desc
        let r := xlat_tables_map_region_ref s mm table_idx_va (some subtable)
          XLAT_TABLE_ENTRIES (level + 1) base_level execute_never_mask
        if r.2 ≠ table_idx_va + XLAT_BLOCK_SIZE level - 1 then r
        else
          let table_idx_va' := table_idx_va + XLAT_BLOCK_SIZE level
          if mm_end_va ≤ table_idx_va' then (r.1, table_idx_va' - 1)
          else xlat_tables_map_loop_ref r.1 mm table_base_va table
            table_entries level base_level execute_never_mask (table_idx + 1)
            table_idx_va'
      | ACTION_NONE =>
        let table_idx_va' := table_idx_va + XLAT_BLOCK_SIZE level
        if mm_end_va ≤ table_idx_va' then (s, table_idx_va' - 1)
        else xlat_tables_map_loop_ref s mm table_base_va table table_entries
          level base_level execute_never_mask (table_idx + 1) table_idx_va'
    else (s, table_idx_va - 1)
  else (s, 0)
termination_by ((XLAT_TABLE_LEVEL_MAX + 1) - level, table_entries - table_idx)

end

/-! ## Error codes (`errno.h`) -/

def EPERM : Int := 1
def ENOMEM : Int := 12
def EINVAL : Int := 22
def ERANGE : Int := 34

/-! ## Region-list validation (`mmap_add_region_check`) -/

/-- C unsigned 64-bit subtraction `a - b` (both operands below `2^64`). -/
def sub64 (a b : Nat) : Nat := (2 ^ 64 + a - b) % 2 ^ 64

/-- The body of the overlap loop in `mmap_add_region_check`, checking the
candidate `(base_pa, base_va, size, attr)` against one existing region
`mm`.  Returns 0 if this pair is acceptable, `-EPERM` otherwise. -/
def mmap_region_overlap_check (base_pa base_va size attr : Nat)
    (mm : mmap_region) : Int :=
  let end_pa := base_pa + size - 1
  let end_va := base_va + size - 1
  let mm_end_va := mm.base_va + mm.size - 1
  let fully_overlapped_va :=
    (base_va ≥ mm.base_va ∧ end_va ≤ mm_end_va) ∨
    (mm.base_va ≥ base_va ∧ mm_end_va ≤ end_va)
  if fully_overlapped_va then
    if attr_bit attr MT_DYNAMIC ∨ attr_bit mm.attr MT_DYNAMIC then -EPERM
    else if sub64 mm.base_va mm.base_pa ≠ sub64 base_va base_pa then -EPERM
    else if base_va = mm.base_va ∧ size = mm.size then -EPERM
    else 0
  else
    let mm_end_pa := mm.base_pa + mm.size - 1
    let separated_pa := end_pa < mm.base_pa ∨ base_pa > mm_end_pa
    let separated_va := end_va < mm.base_va ∨ base_va > mm_end_va
    if ¬(separated_va ∧ separated_pa) then -EPERM else 0

/-- The overlap loop of `mmap_add_region_check` over the region list. -/
def mmap_overlap_scan (base_pa base_va size attr : Nat) :
    List mmap_region → Int
  | [] => 0
  | mm :: rest =>
    let c := mmap_region_overlap_check base_pa base_va size attr mm
    if c ≠ 0 then c else mmap_overlap_scan base_pa base_va size attr rest

/-! ## The translation context -/

/-- C struct `xlat_ctx_t`.  The three translation-table fields are grouped
into `tt`; `tables_num` is `tt.tables.size`; `mmap` holds the region
records up to (excluding) the zero-size sentinel. -/
structure xlat_ctx where
  va_max_address : Nat
  pa_max_address : Nat
  mmap : List mmap_region
  mmap_num : Nat
  tt : tt_state
  base_table_entries : Nat
  base_level : Nat
  max_pa : Nat
  max_va : Nat
  execute_never_mask : Nat
  initialized : Bool
deriving Repr, DecidableEq

/-- C function `mmap_add_region_check`.  The end addresses are computed in
wrapping 64-bit arithmetic as in C (operands below `2^64`). -/
def mmap_add_region_check (ctx : xlat_ctx)
    (base_pa base_va size attr granularity : Nat) : Int :=
  let end_pa := (2 ^ 64 + base_pa + size - 1) % 2 ^ 64
  let end_va := (2 ^ 64 + base_va + size - 1) % 2 ^ 64
  if ¬(base_pa % PAGE_SIZE = 0 ∧ base_va % PAGE_SIZE = 0 ∧
      size % PAGE_SIZE = 0 ∧ granularity % PAGE_SIZE = 0) then -EINVAL
  else if base_pa > end_pa ∨ base_va > end_va then -ERANGE
  else if end_va > ctx.va_max_address then -ERANGE
  else if end_pa > ctx.pa_max_address then -ERANGE
  else if ctx.mmap.length ≥ ctx.mmap_num then -ENOMEM
  else mmap_overlap_scan base_pa base_va size attr ctx.mmap

/-! ## Region-list insertion

Both `mmap_add_region_ctx` and `mmap_add_dynamic_region_ctx` advance a
cursor through the region array with the same two loops: first past all
regions with a strictly smaller end VA, then past regions with the same end
VA and a smaller size.  The model computes the cursor position as a split
of the region list.  The sentinel of the C array corresponds to the end of
the list. -/

def mmap_cursor_phase2 (mm : mmap_region) :
    List mmap_region → List mmap_region × List mmap_region
  | [] => ([], [])
  | r :: rest =>
    if r.base_va + r.size - 1 = mm.base_va + mm.size - 1 ∧ r.size < mm.size then
      let p := mmap_cursor_phase2 mm rest
      (r :: p.1, p.2)
    else ([], r :: rest)

def mmap_cursor_phase1 (mm : mmap_region) :
    List mmap_region → List mmap_region × List mmap_region
  | [] => ([], [])
  | r :: rest =>
    if r.base_va + r.size - 1 < mm.base_va + mm.size - 1 then
      let p := mmap_cursor_phase1 mm rest
      (r :: p.1, p.2)
    else mmap_cursor_phase2 mm (r :: rest)

/-- The cursor position used by the two region-insertion functions: the
regions before the insertion point and the regions after it. -/
def mmap_insert_point (mm : mmap_region) (l : List mmap_region) :
    List mmap_region × List mmap_region :=
  mmap_cursor_phase1 mm l

/-- C function `mmap_add_region_ctx`.  On a validation failure the C
function logs, trips a debug assertion and returns with the context
unchanged. -/
def mmap_add_region_ctx (ctx : xlat_ctx) (mm : mmap_region) : xlat_ctx :=
  if mm.size = 0 then ctx
  else if mmap_add_region_check ctx mm.base_pa mm.base_va mm.size mm.attr
      mm.granularity ≠ 0 then ctx
  else
    let end_pa := mm.base_pa + mm.size - 1
    let end_va := mm.base_va + mm.size - 1
    let p := mmap_insert_point mm ctx.mmap
    { ctx with
      mmap := p.1 ++ mm :: p.2,
      max_pa := if end_pa > ctx.max_pa then end_pa else ctx.max_pa,
      max_va := if end_va > ctx.max_va then end_va else ctx.max_va }

/-- C: `attr | MT_DYNAMIC` (a single bit). -/
def mt_dynamic_or (attr : Nat) : Nat :=
  if attr_bit attr MT_DYNAMIC then attr else attr + MT_DYNAMIC

/-- C function `mmap_add_dynamic_region_ctx`.  Returns the C status code
and the updated context.  In the rollback branch the C code reads
`mm_cursor->base_va` after the `memmove` has removed the new entry, i.e.
it reads the region that followed the new entry (or the sentinel). -/
def mmap_add_dynamic_region_ctx (ctx : xlat_ctx) (mm : mmap_region) :
    Int × xlat_ctx :=
  if mm.size = 0 then (0, ctx)
  else
    let ret := mmap_add_region_check ctx mm.base_pa mm.base_va mm.size
      (mt_dynamic_or mm.attr) mm.granularity
    if ret ≠ 0 then (ret, ctx)
    else
      let end_pa := mm.base_pa + mm.size - 1
      let end_va := mm.base_va + mm.size - 1
      let p := mmap_insert_point mm ctx.mmap
      let mmc : mmap_region := { mm with attr := mt_dynamic_or mm.attr }
      if ctx.initialized then
        let r := xlat_tables_map_region ctx.tt mmc 0 none
          ctx.base_table_entries ctx.base_level ctx.base_level
          ctx.execute_never_mask
        if r.2 ≠ mmc.base_va + mmc.size - 1 then
          if (p.2.headD mmap_sentinel).base_va ≥ r.2 then
            (-ENOMEM, { ctx with mmap := p.1 ++ p.2, tt := r.1 })
          else
            let unmap_mm : mmap_region := ⟨0, mm.base_va, sub64 r.2 mm.base_va, 0, 0⟩
            let tt2 := xlat_tables_unmap_region r.1 unmap_mm 0 none
              ctx.base_table_entries ctx.base_level ctx.base_level
            (-ENOMEM, { ctx with mmap := p.1 ++ p.2, tt := tt2 })
        else
          (0, { ctx with
            mmap := p.1 ++ mmc :: p.2, tt := r.1,
            max_pa := if end_pa > ctx.max_pa then end_pa else ctx.max_pa,
            max_va := if end_va > ctx.max_va then end_va else ctx.max_va })
      else
        (0, { ctx with
          mmap := p.1 ++ mmc :: p.2,
          max_pa := if end_pa > ctx.max_pa then end_pa else ctx.max_pa,
          max_va := if end_va > ctx.max_va then end_va else ctx.max_va })

/-- The search loop of `mmap_remove_dynamic_region_ctx`: locate the first
region with the given base VA and size, returning the regions before it,
the region itself, and the regions after it. -/
def mmap_find_region (base_va size : Nat) :
    List mmap_region → Option (List mmap_region × mmap_region × List mmap_region)
  | [] => none
  | r :: rest =>
    if r.base_va = base_va ∧ r.size = size then some ([], r, rest)
    else
      match mmap_find_region base_va size rest with
      | some q => some (r :: q.1, q.2.1, q.2.2)
      | none => none

/-- The max-VA recomputation loop of `mmap_remove_dynamic_region_ctx`. -/
def mmap_max_va_scan (l : List mmap_region) : Nat :=
  l.foldl (fun acc r =>
    if r.base_va + r.size - 1 > acc then r.base_va + r.size - 1 else acc) 0

/-- The max-PA recomputation loop of `mmap_remove_dynamic_region_ctx`. -/
def mmap_max_pa_scan (l : List mmap_region) : Nat :=
  l.foldl (fun acc r =>
    if r.base_pa + r.size - 1 > acc then r.base_pa + r.size - 1 else acc) 0

/-- C function `mmap_remove_dynamic_region_ctx`. -/
def mmap_remove_dynamic_region_ctx (ctx : xlat_ctx) (base_va size : Nat) :
    Int × xlat_ctx :=
  match mmap_find_region base_va size ctx.mmap with
  | none => (-EINVAL, ctx)
  | some q =>
    let mm := q.2.1
    if ¬ attr_bit mm.attr MT_DYNAMIC then (-EPERM, ctx)
    else
      let update_max_va_needed := mm.base_va + mm.size - 1 = ctx.max_va
      let update_max_pa_needed := mm.base_pa + mm.size - 1 = ctx.max_pa
      let tt1 :=
        if ctx.initialized then
          xlat_tables_unmap_region ctx.tt mm 0 none ctx.base_table_entries
            ctx.base_level ctx.base_level
        else ctx.tt
      let l' := q.1 ++ q.2.2
      (0, { ctx with
        mmap := l',
        tt := tt1,
        max_va := if update_max_va_needed then mmap_max_va_scan l' else ctx.max_va,
        max_pa := if update_max_pa_needed then mmap_max_pa_scan l' else ctx.max_pa })

/-! ## Initialization (`init_xlat_tables_ctx`) -/

/-- The mapping loop of `init_xlat_tables_ctx`: map each region of the
list in order; a region that cannot be fully mapped makes the C code
`panic()`, modelled as `none`. -/
def init_xlat_tables_walk (s : tt_state) (be bl xn : Nat) :
    List mmap_region → Option tt_state
  | [] => some s
  | mm :: rest =>
    let r := xlat_tables_map_region s mm 0 none be bl bl xn
    if r.2 ≠ mm.base_va + mm.size - 1 then none
    else init_xlat_tables_walk r.1 be bl xn rest

/-- C function `init_xlat_tables_ctx`: zero the base table, all pool
tables and all reference counts, then map every region of the list.  The
exception-level handling and the TLB/MMU hooks are outside the model; the
context's execute-never mask is used as stored. -/
def init_xlat_tables_ctx (ctx : xlat_ctx) : Option xlat_ctx :=
  let s0 : tt_state :=
    ⟨Array.mkArray ctx.base_table_entries 0,
     Array.mkArray ctx.tt.tables.size (Array.mkArray XLAT_TABLE_ENTRIES 0),
     Array.mkArray ctx.tt.tables.size 0⟩
  match init_xlat_tables_walk s0 ctx.base_table_entries ctx.base_level
      ctx.execute_never_mask ctx.mmap with
  | none => none
  | some s1 => some { ctx with tt := s1, initialized := true }

/-! ## The table walk and attribute mutation -/

/-- Modelled from the spec (macro from `xlat_tables_defs.h`): the initial
lookup level determined by the virtual address-space size; a smaller VA
space starts at a deeper level. -/
def GET_XLAT_TABLE_LEVEL_BASE (virt_addr_space_size : Nat) : Nat :=
  if virt_addr_space_size > 2 ^ 39 then 0
  else if virt_addr_space_size > 2 ^ 30 then 1
  else if virt_addr_space_size > 2 ^ 21 then 2
  else 3

/-- C function `get_xlat_table_idx`: `(va >> XLAT_ADDR_SHIFT(level)) &
XLAT_TABLE_IDX_MASK` with `XLAT_TABLE_IDX_MASK = XLAT_TABLE_ENTRIES - 1`. -/
def get_xlat_table_idx (virtual_addr : Nat) (level : Nat) : Nat :=
  virtual_addr / 2 ^ XLAT_ADDR_SHIFT level % XLAT_TABLE_ENTRIES

/-- The level loop of `find_xlat_table_entry`.  A found entry is returned
as its location (table, index) together with the level, standing for the C
descriptor pointer and `*out_level`. -/
def find_xlat_table_entry_loop (s : tt_state) (virtual_addr : Nat)
    (table : Option Nat) (entries : Nat) (level : Nat) :
    Option (Option Nat × Nat × Nat) :=
  if _hlvl : level ≤ XLAT_TABLE_LEVEL_MAX then
    let idx := get_xlat_table_idx virtual_addr level
    if idx ≥ entries then none
    else
      let desc := tt_read s table idx
      let dty := desc_type desc
      if dty = INVALID_DESC then none
      else if dty = BLOCK_DESC then some (table, idx, level)
      else if level = XLAT_TABLE_LEVEL_MAX then some (table, idx, level)
      else find_xlat_table_entry_loop s virtual_addr
        (some (table_of_desc desc)) XLAT_TABLE_ENTRIES (level + 1)
  else none
termination_by XLAT_TABLE_LEVEL_MAX + 1 - level

/-- C function `find_xlat_table_entry`. -/
def find_xlat_table_entry (s : tt_state) (virtual_addr : Nat)
    (base_entries : Nat) (virt_addr_space_size : Nat) :
    Option (Option Nat × Nat × Nat) :=
  find_xlat_table_entry_loop s virtual_addr none base_entries
    (GET_XLAT_TABLE_LEVEL_BASE virt_addr_space_size)

/-- Modelled from the spec (`set_bit` comes from `bitops.h`, not among the
given sources): write bit value `b` at bit position `shift` of `desc`. -/
def set_bit (desc : Nat) (b : Nat) (shift : Nat) : Nat :=
  desc / 2 ^ (shift + 1) * 2 ^ (shift + 1) + b % 2 * 2 ^ shift + desc % 2 ^ shift

/-- C function `change_desc_attributes`. -/
def change_desc_attributes (desc : Nat) (new_attr : Nat) : Nat :=
  let read_write := new_attr / 2 ^ MT_PERM_SHIFT % 2 = 1
  let ap2_bit := if read_write then AP2_RW else AP2_RO
  let executable := new_attr / 2 ^ MT_EXECUTE_SHIFT % 2 = 0
  let xn_bit := if executable then 0 else 1
  set_bit (set_bit desc ap2_bit AP2_SHIFT) xn_bit XN_SHIFT

/-- First loop of `change_mem_attributes`: check that all `n` pages from
`base_va` are mapped by a page descriptor at the deepest level. -/
def change_mem_attributes_check_pass (s : tt_state) (base_va : Nat) (n : Nat)
    (be vass : Nat) : Bool :=
  match n with
  | 0 => true
  | k + 1 =>
    match find_xlat_table_entry s base_va be vass with
    | none => false
    | some e =>
      if desc_type (tt_read s e.1 e.2.1) ≠ PAGE_DESC ∨
          e.2.2 ≠ XLAT_TABLE_LEVEL_MAX then false
      else change_mem_attributes_check_pass s (base_va + PAGE_SIZE) k be vass

/-- Second loop of `change_mem_attributes`: rewrite the attribute bits of
the `n` page descriptors in place. -/
def change_mem_attributes_write_pass (s : tt_state) (base_va : Nat) (n : Nat)
    (be vass attributes : Nat) : tt_state :=
  match n with
  | 0 => s
  | k + 1 =>
    match find_xlat_table_entry s base_va be vass with
    | some e =>
      let s' := tt_write s e.1 e.2.1
        (change_desc_attributes (tt_read s e.1 e.2.1) attributes)
      change_mem_attributes_write_pass s' (base_va + PAGE_SIZE) k be vass attributes
    | none => change_mem_attributes_write_pass s (base_va + PAGE_SIZE) k be vass attributes

/-- C: `int pages_count = size / PAGE_SIZE;` — the unsigned 64-bit quotient
converted to the signed 32-bit `int` (two's complement, modulo `2^32`). -/
def int_pages_count (size : Nat) : Int :=
  if size / PAGE_SIZE % 2 ^ 32 < 2 ^ 31 then ((size / PAGE_SIZE % 2 ^ 32 : Nat) : Int)
  else ((size / PAGE_SIZE % 2 ^ 32 : Nat) : Int) - 2 ^ 32

/-- C function `change_mem_attributes`.  The page count is the C `int`
conversion of `size / PAGE_SIZE`; its `.toNat` (0 when the `int` is not
positive) is the number of iterations of the two `for (int i = 0;
i < pages_count; ++i)` loops. -/
def change_mem_attributes (ctx : xlat_ctx) (base_va size attributes : Nat) :
    Int × xlat_ctx :=
  let vass := ctx.va_max_address + 1
  if base_va % PAGE_SIZE ≠ 0 then (-EINVAL, ctx)
  else if size = 0 then (-EINVAL, ctx)
  else if size % PAGE_SIZE ≠ 0 then (-EINVAL, ctx)
  else if attributes / 2 ^ MT_EXECUTE_SHIFT % 2 = 0 ∧
      attributes / 2 ^ MT_PERM_SHIFT % 2 = 1 then (-EINVAL, ctx)
  else
    let pages_count := (int_pages_count size).toNat
    if ¬ change_mem_attributes_check_pass ctx.tt base_va pages_count
        ctx.base_table_entries vass then (-EINVAL, ctx)
    else
      (0, { ctx with tt := (change_mem_attributes_write_pass ctx.tt base_va
              pages_count ctx.base_table_entries vass attributes) })

/-- The per-page test of the first `change_mem_attributes` loop: the page
at `va` is mapped, by a page descriptor, at the deepest level. -/
def page_is_page_mapped (s : tt_state) (va be vass : Nat) : Bool :=
  match find_xlat_table_entry s va be vass with
  | none => false
  | some e =>
    decide (desc_type (tt_read s e.1 e.2.1) = PAGE_DESC ∧
      e.2.2 = XLAT_TABLE_LEVEL_MAX)

/-! ## Invariants for the dynamic add/remove round-trip

`range_clear` states that the VA range `[rb, re]` is unmapped in the given
(sub-)tree: every table entry whose VA interval intersects the range is
invalid (value 0) when the entry is fully inside the range, and is either
invalid or a canonical, positively-referenced table descriptor — with the
same property recursively — when the range only partially covers it.  This
is the spec's "no leaf descriptor exists at a VA not covered by any
region" invariant, instantiated at a range that region validation has
checked to be disjoint from every region of the list.  `clear_refs`
collects the pool indices of the sub-tables hanging off such partially
covered entries. -/

mutual

def range_clear (s : tt_state) (rb re : Nat) (r : Option Nat)
    (tbva entries level : Nat) : Prop :=
  if level ≤ XLAT_TABLE_LEVEL_MAX then
    range_clear_loop s rb re r tbva entries level 0
  else False
termination_by ((XLAT_TABLE_LEVEL_MAX + 1) - level, entries + 1)

def range_clear_loop (s : tt_state) (rb re : Nat) (r : Option Nat)
    (tbva entries level idx : Nat) : Prop :=
  if level ≤ XLAT_TABLE_LEVEL_MAX then
    if idx < entries then
      (let va := tbva + idx * XLAT_BLOCK_SIZE level
       let e := va + XLAT_BLOCK_SIZE level - 1
       let d := tt_read s r idx
       if rb ≤ e ∧ va ≤ re then
         if rb ≤ va ∧ e ≤ re then d = 0
         else
           d = 0 ∨
           (level < XLAT_TABLE_LEVEL_MAX ∧ desc_type d = TABLE_DESC ∧
            table_of_desc d < s.tables.size ∧
            table_desc_for (table_of_desc d) = d ∧
            1 ≤ s.tables_mapped_regions.getD (table_of_desc d) 0 ∧
            range_clear s rb re (some (table_of_desc d)) va
              XLAT_TABLE_ENTRIES (level + 1))
       else True) ∧
      range_clear_loop s rb re r tbva entries level (idx + 1)
    else True
  else False
termination_by ((XLAT_TABLE_LEVEL_MAX + 1) - level, entries - idx)

end

mutual

def clear_refs (s : tt_state) (rb re : Nat) (r : Option Nat)
    (tbva entries level : Nat) : List Nat :=
  if level ≤ XLAT_TABLE_LEVEL_MAX then
    clear_refs_loop s rb re r tbva entries level 0
  else []
termination_by ((XLAT_TABLE_LEVEL_MAX + 1) - level, entries + 1)

def clear_refs_loop (s : tt_state) (rb re : Nat) (r : Option Nat)
    (tbva entries level idx : Nat) : List Nat :=
  if level ≤ XLAT_TABLE_LEVEL_MAX then
    if idx < entries then
      (let va := tbva + idx * XLAT_BLOCK_SIZE level
       let e := va + XLAT_BLOCK_SIZE level - 1
       let d := tt_read s r idx
       if ((rb ≤ e ∧ va ≤ re) ∧ ¬(rb ≤ va ∧ e ≤ re)) ∧
           (level < XLAT_TABLE_LEVEL_MAX ∧ desc_type d = TABLE_DESC) then
         table_of_desc d ::
           clear_refs s rb re (some (table_of_desc d)) va XLAT_TABLE_ENTRIES
             (level + 1)
       else []) ++
      clear_refs_loop s rb re r tbva entries level (idx + 1)
    else []
  else []
termination_by ((XLAT_TABLE_LEVEL_MAX + 1) - level, entries - idx)

end

/-- Size well-formedness of a translation-table state: the pool tables all
have `XLAT_TABLE_ENTRIES` slots, there is one reference count per pool
table, and the pool is small enough that every sub-table address fits the
table-address field. -/
def tt_sizes (s : tt_state) (base_entries : Nat) : Prop :=
  s.base_table.size = base_entries ∧
  s.tables_mapped_regions.size = s.tables.size ∧
  s.tables.size ≤ 2 ^ 30 ∧
  ∀ t, t < s.tables.size → (s.tables.getD t #[]).size = XLAT_TABLE_ENTRIES

/-- All free pool tables (reference count zero) are fully invalid. -/
def tt_free_empty (s : tt_state) : Prop :=
  ∀ t, t < s.tables.size → s.tables_mapped_regions.getD t 0 = 0 →
    ∀ j, (s.tables.getD t #[]).getD j 0 = 0

/-- Reference count of pool table `t`. -/
def tt_cnt (s : tt_state) (t : Nat) : Nat := s.tables_mapped_regions.getD t 0

/-- Contents of pool table `t`. -/
def tt_pool (s : tt_state) (t : Nat) : Array Nat := s.tables.getD t #[]

/-- The pool tables a builder run from `s0` to `s1` over the sub-tree with
pre-existing partial-chain tables `L` may have touched: the pre-existing
chain tables and the tables the run allocated (free before, referenced
after). -/
def map_ft (s0 s1 : tt_state) (L : List Nat) (t : Nat) : Prop :=
  t ∈ L ∨ (tt_cnt s0 t = 0 ∧ 1 ≤ tt_cnt s1 t)

/-! ## Concrete contexts used as witnesses and counterexamples -/

/-- An initialized context over a 4 GiB address space: base lookup level 1
with 4 base-table entries, an empty region list, empty translation tables,
and a pool of two sub-tables. -/
def ctx_ex : xlat_ctx :=
  { va_max_address := 2 ^ 32 - 1, pa_max_address := 2 ^ 32 - 1,
    mmap := [], mmap_num := 8,
    tt := ⟨Array.mkArray 4 0, Array.mkArray 2 (Array.mkArray 512 0),
           Array.mkArray 2 0⟩,
    base_table_entries := 4, base_level := 1,
    max_pa := 0, max_va := 0, execute_never_mask := 2 ^ 54,
    initialized := true }

/-- Like `ctx_ex` but with a pool of a single sub-table. -/
def ctx_pool1 : xlat_ctx :=
  { ctx_ex with
    tt := ⟨Array.mkArray 4 0, Array.mkArray 1 (Array.mkArray 512 0),
           Array.mkArray 1 0⟩ }

/-- A single normal-memory read-write page at VA = PA = 0x1000, page
granularity. -/
def mm_page : mmap_region := ⟨0x1000, 0x1000, 0x1000, 10, 0x1000⟩

/-- A small initialized context whose whole VA space is covered by a
level-3 base table with 4 entries (16 KiB of VA space) and whose sub-table
pool is empty. -/
def ctx_l3 : xlat_ctx :=
  { va_max_address := 4 * 4096 - 1, pa_max_address := 4 * 4096 - 1,
    mmap := [], mmap_num := 8,
    tt := ⟨Array.mkArray 4 0, #[], #[]⟩,
    base_table_entries := 4, base_level := 3,
    max_pa := 0, max_va := 0, execute_never_mask := 0,
    initialized := true }

/-- Three static identity-mapped normal-memory regions: two adjacent pages
and a third region that covers exactly the two of them. -/
def mm_ra : mmap_region := ⟨0, 0, 0x1000, 2, 0x1000⟩

def mm_rb : mmap_region := ⟨0x1000, 0x1000, 0x1000, 2, 0x1000⟩

def mm_rc : mmap_region := ⟨0, 0, 0x2000, 2, 0x2000⟩

/-- `ctx_ex` after adding the two pages and then the covering region (the
overlap check accepts a static region fully contained in another static
one with the same VA-PA offset). -/
def ctx_abc : xlat_ctx :=
  mmap_add_region_ctx (mmap_add_region_ctx (mmap_add_region_ctx ctx_ex mm_ra)
    mm_rb) mm_rc

/-- `ctx_ex` after adding only the two pages. -/
def ctx_ab : xlat_ctx :=
  mmap_add_region_ctx (mmap_add_region_ctx ctx_ex mm_ra) mm_rb

/-- A table state that is a single all-invalid sub-table with refcount 0
(no base table; used for calls that walk a sub-table directly). -/
def st_one : tt_state :=
  ⟨#[], Array.mkArray 1 (Array.mkArray 512 0), Array.mkArray 1 0⟩

/-! # Theorems -/

/-! ## Array evaluation lemmas

Helper lemmas used to evaluate the model on concrete states. -/

theorem ev_getElem?_mkArray {α : Type} (n : Nat) (v : α) (i : Nat) :
    (Array.mkArray n v)[i]? = if i < n then some v else none :=
  Array.getElem?_mkArray n v i

theorem ev_size_setD {α : Type} (a : Array α) (i : Nat) (v : α) :
    (a.setD i v).size = a.size := by
  simp [Array.setD]
  split <;> simp

theorem ev_getElem?_setD {α : Type} (a : Array α) (i : Nat) (v : α) (j : Nat) :
    (a.setD i v)[j]? = if i < a.size ∧ j = i then some v else a[j]? := by
  unfold Array.setD
  split
  · rename_i h
    split
    · rename_i h2
      rcases h2 with ⟨-, rfl⟩
      rw [Array.getElem?_set_eq]
    · rename_i h2
      rcases eq_or_ne i j with rfl | hne
      · exact absurd ⟨h, rfl⟩ h2
      · rw [Array.getElem?_set_ne]
        exact hne
  · rename_i h
    rw [if_neg (by rintro ⟨hc, -⟩; exact h hc)]

theorem ev_getElem?_modify {α : Type} (a : Array α) (i : Nat) (f : α → α) (j : Nat) :
    (a.modify i f)[j]? = if i = j then Option.map f a[j]? else a[j]? :=
  Array.getElem?_modify

theorem ev_size_modify {α : Type} (a : Array α) (i : Nat) (f : α → α) :
    (a.modify i f).size = a.size :=
  Array.size_modify a i f

/-! ## Basic state-manipulation lemmas -/

theorem arr_getD_eq {α : Type} (a : Array α) (i : Nat) (d : α) :
    a.getD i d = (a[i]?).getD d := by
  unfold Array.getD
  split
  · rename_i h
    rw [Array.getElem?_eq_getElem h]
    rfl
  · rename_i h
    rw [getElem?_neg a i (by omega)]
    rfl

theorem arr_getD_setD_other {α : Type} (a : Array α) (i : Nat) (v : α)
    (j : Nat) (d : α) (h : j ≠ i) : (a.setD i v).getD j d = a.getD j d := by
  rw [arr_getD_eq, arr_getD_eq, ev_getElem?_setD,
    if_neg (by rintro ⟨-, rfl⟩; exact h rfl)]

theorem arr_getD_setD_self {α : Type} (a : Array α) (i : Nat) (v : α)
    (d : α) (h : i < a.size) : (a.setD i v).getD i d = v := by
  rw [arr_getD_eq, ev_getElem?_setD, if_pos ⟨h, rfl⟩]
  rfl

theorem arr_getD_modify_other {α : Type} (a : Array α) (i : Nat) (f : α → α)
    (j : Nat) (d : α) (h : i ≠ j) : (a.modify i f).getD j d = a.getD j d := by
  rw [arr_getD_eq, arr_getD_eq, ev_getElem?_modify, if_neg h]

theorem arr_getD_modify_self {α : Type} (a : Array α) (i : Nat) (f : α → α)
    (d : α) (h : i < a.size) : (a.modify i f).getD i d = f (a.getD i d) := by
  rw [arr_getD_eq, arr_getD_eq, ev_getElem?_modify, if_pos rfl,
    Array.getElem?_eq_getElem h]
  rfl

theorem arr_getD_modify_oob {α : Type} (a : Array α) (i : Nat) (f : α → α)
    (j : Nat) (d : α) (h : a.size ≤ i) : (a.modify i f).getD j d = a.getD j d := by
  rcases eq_or_ne i j with rfl | hne
  · rw [arr_getD_eq, arr_getD_eq, ev_getElem?_modify, if_pos rfl,
      getElem?_neg a i (by omega)]
    rfl
  · exact arr_getD_modify_other a i f j d hne

theorem arr_eq_of_getD (a b : Array Nat) (hsz : a.size = b.size)
    (h : ∀ j, a.getD j 0 = b.getD j 0) : a = b := by
  apply Array.ext _ _ hsz
  intro i h1 h2
  have := h i
  rwa [arr_getD_eq, arr_getD_eq, Array.getElem?_eq_getElem h1,
    Array.getElem?_eq_getElem h2] at this

theorem tt_write_base_some (s : tt_state) (t i v : Nat) :
    (tt_write s (some t) i v).base_table = s.base_table := rfl

theorem tt_write_tables_none (s : tt_state) (i v : Nat) :
    (tt_write s none i v).tables = s.tables := rfl

theorem tt_write_cnt_arr (s : tt_state) (r : Option Nat) (i v : Nat) :
    (tt_write s r i v).tables_mapped_regions = s.tables_mapped_regions := by
  cases r <;> rfl

theorem tt_cnt_write (s : tt_state) (r : Option Nat) (i v t : Nat) :
    tt_cnt (tt_write s r i v) t = tt_cnt s t := by
  unfold tt_cnt
  rw [tt_write_cnt_arr]

theorem tt_write_base_size (s : tt_state) (r : Option Nat) (i v : Nat) :
    (tt_write s r i v).base_table.size = s.base_table.size := by
  cases r
  · exact ev_size_setD _ _ _
  · rfl

theorem tt_write_tables_size (s : tt_state) (r : Option Nat) (i v : Nat) :
    (tt_write s r i v).tables.size = s.tables.size := by
  cases r
  · rfl
  · exact ev_size_modify _ _ _

theorem tt_pool_write_none (s : tt_state) (i v t : Nat) :
    tt_pool (tt_write s none i v) t = tt_pool s t := rfl

theorem tt_pool_write_other (s : tt_state) (t i v t' : Nat) (h : t' ≠ t) :
    tt_pool (tt_write s (some t) i v) t' = tt_pool s t' := by
  unfold tt_pool tt_write
  exact arr_getD_modify_other _ _ _ _ _ (fun he => h he.symm)

theorem tt_pool_write_size (s : tt_state) (r : Option Nat) (i v t : Nat) :
    (tt_pool (tt_write s r i v) t).size = (tt_pool s t).size := by
  cases r with
  | none => rfl
  | some t' =>
    rcases eq_or_ne t' t with rfl | hne
    · rcases Nat.lt_or_ge t' s.tables.size with h | h
      · unfold tt_pool tt_write
        dsimp only
        rw [arr_getD_modify_self _ _ _ _ h]
        exact ev_size_setD _ _ _
      · unfold tt_pool tt_write
        dsimp only
        rw [arr_getD_modify_oob _ _ _ _ _ h]
    · rw [tt_pool_write_other _ _ _ _ _ (fun he => hne he.symm)]

theorem tt_read_write_none_self (s : tt_state) (i v : Nat)
    (h : i < s.base_table.size) : tt_read (tt_write s none i v) none i = v := by
  unfold tt_read tt_write
  exact arr_getD_setD_self _ _ _ _ h

theorem tt_read_write_none_other (s : tt_state) (i v j : Nat) (h : j ≠ i) :
    tt_read (tt_write s none i v) none j = tt_read s none j := by
  unfold tt_read tt_write
  exact arr_getD_setD_other _ _ _ _ _ h

theorem tt_read_write_none_pool (s : tt_state) (i v t j : Nat) :
    tt_read (tt_write s none i v) (some t) j = tt_read s (some t) j := rfl

theorem tt_read_write_pool_base (s : tt_state) (t i v j : Nat) :
    tt_read (tt_write s (some t) i v) none j = tt_read s none j := rfl

theorem tt_read_pool (s : tt_state) (t j : Nat) :
    tt_read s (some t) j = (tt_pool s t).getD j 0 := rfl

theorem tt_read_write_pool_self (s : tt_state) (t i v : Nat)
    (ht : t < s.tables.size) (hi : i < (tt_pool s t).size) :
    tt_read (tt_write s (some t) i v) (some t) i = v := by
  unfold tt_read tt_write tt_pool at *
  dsimp only
  rw [arr_getD_modify_self _ _ _ _ ht]
  exact arr_getD_setD_self _ _ _ _ hi

theorem tt_read_write_pool_other_idx (s : tt_state) (t i v j : Nat)
    (h : j ≠ i) :
    tt_read (tt_write s (some t) i v) (some t) j = tt_read s (some t) j := by
  unfold tt_read tt_write
  dsimp only
  rcases Nat.lt_or_ge t s.tables.size with hlt | hge
  · rw [arr_getD_modify_self _ _ _ _ hlt]
    exact arr_getD_setD_other _ _ _ _ _ h
  · rw [arr_getD_modify_oob _ _ _ _ _ hge]

theorem tt_read_write_pool_other_tab (s : tt_state) (t i v t' j : Nat)
    (h : t' ≠ t) :
    tt_read (tt_write s (some t) i v) (some t') j = tt_read s (some t') j := by
  rw [tt_read_pool, tt_read_pool, tt_pool_write_other _ _ _ _ _ h]

theorem tt_read_write_ne (s : tt_state) (r : Option Nat) (i v j : Nat)
    (h : j ≠ i) : tt_read (tt_write s r i v) r j = tt_read s r j := by
  cases r with
  | none => exact tt_read_write_none_other s i v j h
  | some t => exact tt_read_write_pool_other_idx s t i v j h

theorem tt_read_write_eq (s : tt_state) (r : Option Nat) (i v : Nat)
    (hn : r = none → i < s.base_table.size)
    (hs : ∀ t, r = some t → t < s.tables.size ∧ i < (tt_pool s t).size) :
    tt_read (tt_write s r i v) r i = v := by
  cases r with
  | none => exact tt_read_write_none_self s i v (hn rfl)
  | some t => exact tt_read_write_pool_self s t i v (hs t rfl).1 (hs t rfl).2

theorem tt_pool_write_of_ne (s : tt_state) (r : Option Nat) (i v t : Nat)
    (h : r ≠ some t) : tt_pool (tt_write s r i v) t = tt_pool s t := by
  cases r with
  | none => rfl
  | some t2 => exact tt_pool_write_other s t2 i v t (fun he => h (he ▸ rfl))

theorem tt_write_base_of_some (s : tt_state) (r : Option Nat) (i v : Nat)
    (h : r ≠ none) : (tt_write s r i v).base_table = s.base_table := by
  cases r with
  | none => exact absurd rfl h
  | some t => rfl

theorem tt_read_eq_of_pool (s s2 : tt_state) (t : Nat)
    (h : tt_pool s2 t = tt_pool s t) (j : Nat) :
    tt_read s2 (some t) j = tt_read s (some t) j := by
  rw [tt_read_pool, tt_read_pool, h]

theorem tt_read_eq_of_base (s s2 : tt_state)
    (hb : s2.base_table = s.base_table) (j : Nat) :
    tt_read s2 none j = tt_read s none j := by
  unfold tt_read
  rw [hb]

theorem tt_read_frame (s s2 : tt_state) (r : Option Nat)
    (hb : r = none → s2.base_table = s.base_table)
    (hp : ∀ t, r = some t → tt_pool s2 t = tt_pool s t) (j : Nat) :
    tt_read s2 r j = tt_read s r j := by
  cases r with
  | none => exact tt_read_eq_of_base s s2 (hb rfl) j
  | some t => exact tt_read_eq_of_pool s s2 t (hp t rfl) j

theorem tt_inc_base (s : tt_state) (t : Nat) :
    (xlat_table_inc_regions_count s t).base_table = s.base_table := rfl

theorem tt_inc_tables (s : tt_state) (t : Nat) :
    (xlat_table_inc_regions_count s t).tables = s.tables := rfl

theorem tt_inc_read (s : tt_state) (t : Nat) (r : Option Nat) (j : Nat) :
    tt_read (xlat_table_inc_regions_count s t) r j = tt_read s r j := by
  cases r <;> rfl

theorem tt_inc_pool (s : tt_state) (t t' : Nat) :
    tt_pool (xlat_table_inc_regions_count s t) t' = tt_pool s t' := rfl

theorem tt_inc_cnt_size (s : tt_state) (t : Nat) :
    (xlat_table_inc_regions_count s t).tables_mapped_regions.size =
      s.tables_mapped_regions.size := ev_size_modify _ _ _

theorem tt_cnt_inc_self (s : tt_state) (t : Nat)
    (h : t < s.tables_mapped_regions.size) :
    tt_cnt (xlat_table_inc_regions_count s t) t = tt_cnt s t + 1 := by
  unfold tt_cnt xlat_table_inc_regions_count
  exact arr_getD_modify_self _ _ _ _ h

theorem tt_cnt_inc_other (s : tt_state) (t t' : Nat) (h : t ≠ t') :
    tt_cnt (xlat_table_inc_regions_count s t) t' = tt_cnt s t' := by
  unfold tt_cnt xlat_table_inc_regions_count
  exact arr_getD_modify_other _ _ _ _ _ h

theorem tt_dec_base (s : tt_state) (t : Nat) :
    (xlat_table_dec_regions_count s t).base_table = s.base_table := rfl

theorem tt_dec_tables (s : tt_state) (t : Nat) :
    (xlat_table_dec_regions_count s t).tables = s.tables := rfl

theorem tt_dec_read (s : tt_state) (t : Nat) (r : Option Nat) (j : Nat) :
    tt_read (xlat_table_dec_regions_count s t) r j = tt_read s r j := by
  cases r <;> rfl

theorem tt_dec_pool (s : tt_state) (t t' : Nat) :
    tt_pool (xlat_table_dec_regions_count s t) t' = tt_pool s t' := rfl

theorem tt_dec_cnt_size (s : tt_state) (t : Nat) :
    (xlat_table_dec_regions_count s t).tables_mapped_regions.size =
      s.tables_mapped_regions.size := ev_size_modify _ _ _

theorem tt_cnt_dec_self (s : tt_state) (t : Nat)
    (h : t < s.tables_mapped_regions.size) :
    tt_cnt (xlat_table_dec_regions_count s t) t = tt_cnt s t - 1 := by
  unfold tt_cnt xlat_table_dec_regions_count
  exact arr_getD_modify_self _ _ _ _ h

theorem tt_cnt_dec_other (s : tt_state) (t t' : Nat) (h : t ≠ t') :
    tt_cnt (xlat_table_dec_regions_count s t) t' = tt_cnt s t' := by
  unfold tt_cnt xlat_table_dec_regions_count
  exact arr_getD_modify_other _ _ _ _ _ h

theorem get_empty_some (s : tt_state) (t : Nat)
    (h : xlat_table_get_empty s = some t) :
    tt_cnt s t = 0 ∧ t < s.tables.size := by
  unfold xlat_table_get_empty at h
  have h1 := List.find?_some h
  have h2 := List.mem_of_find?_eq_some h
  constructor
  · unfold tt_cnt
    simpa using h1
  · simpa using List.mem_range.mp (by simpa using h2)

theorem is_empty_iff (s : tt_state) (t : Nat) :
    xlat_table_is_empty s t = true ↔ tt_cnt s t = 0 := by
  unfold xlat_table_is_empty tt_cnt
  simp

/-! ## Arithmetic facts about block sizes and descriptors -/

theorem bs_pos (level : Nat) : 0 < XLAT_BLOCK_SIZE level :=
  Nat.pos_pow_of_pos _ (by norm_num)

theorem bs_succ (level : Nat) (h : level < 3) :
    XLAT_BLOCK_SIZE level = 512 * XLAT_BLOCK_SIZE (level + 1) := by
  interval_cases level <;> decide

theorem bs_page_dvd (level : Nat) (h : level ≤ 3) :
    XLAT_BLOCK_SIZE level % 4096 = 0 := by
  interval_cases level <;> decide

theorem bs_ge_page (level : Nat) (h : level ≤ 3) :
    4096 ≤ XLAT_BLOCK_SIZE level := by
  interval_cases level <;> decide

theorem bs_three : XLAT_BLOCK_SIZE 3 = 4096 := by decide

theorem table_of_desc_for (t : Nat) (h : t < 2 ^ 30) :
    table_of_desc (table_desc_for t) = t := by
  unfold table_of_desc table_desc_for xlat_table_addr TABLE_DESC PAGE_SIZE
  omega

theorem desc_type_table_desc_for (t : Nat) :
    desc_type (table_desc_for t) = TABLE_DESC := by
  unfold desc_type table_desc_for xlat_table_addr TABLE_DESC PAGE_SIZE
  omega

theorem xlat_desc_type (attr pa level xn : Nat) (hpa : pa % 4 = 0)
    (hxn : xn % 4 = 0) :
    desc_type (xlat_desc attr pa level xn) =
      if level = XLAT_TABLE_LEVEL_MAX then PAGE_DESC else BLOCK_DESC := by
  unfold xlat_desc desc_type LOWER_ATTRS PAGE_DESC BLOCK_DESC NS AP_RO AP_RW
    ACCESS_FLAG OSH ISH ATTR_DEVICE_INDEX ATTR_IWBWA_OWBWA_NTR_INDEX
    ATTR_NON_CACHEABLE_INDEX
  dsimp only
  split_ifs <;> omega

/-! ## Support lemmas for the range-clear invariant -/

theorem clear_zero : ∀ (k : Nat) (s : tt_state) (rb re : Nat) (r : Option Nat)
    (tbva entries level idx : Nat),
    level ≤ XLAT_TABLE_LEVEL_MAX →
    (∀ j, tt_read s r j = 0) →
    entries - idx ≤ k →
    range_clear_loop s rb re r tbva entries level idx ∧
    clear_refs_loop s rb re r tbva entries level idx = [] := by
  intro k
  induction k with
  | zero =>
    intro s rb re r tbva entries level idx hlvl hz hk
    have hidx : ¬ idx < entries := by omega
    rw [range_clear_loop.eq_def, clear_refs_loop.eq_def, if_pos hlvl,
      if_pos hlvl, if_neg hidx, if_neg hidx]
    exact ⟨trivial, rfl⟩
  | succ n ih =>
    intro s rb re r tbva entries level idx hlvl hz hk
    by_cases hidx : idx < entries
    · rw [range_clear_loop.eq_def, clear_refs_loop.eq_def, if_pos hlvl,
        if_pos hlvl, if_pos hidx, if_pos hidx]
      dsimp only
      have hrest := ih s rb re r tbva entries level (idx + 1) hlvl hz (by omega)
      refine ⟨⟨?_, hrest.1⟩, ?_⟩
      · rw [hz idx]
        split_ifs <;> simp
      · rw [hrest.2, if_neg (by
          rw [hz idx]
          rintro ⟨-, -, hty⟩
          rw [show desc_type 0 = 0 from rfl] at hty
          exact absurd hty (by unfold TABLE_DESC; omega))]
        rfl
    · rw [range_clear_loop.eq_def, clear_refs_loop.eq_def, if_pos hlvl,
        if_pos hlvl, if_neg hidx, if_neg hidx]
      exact ⟨trivial, rfl⟩

theorem clear_skip : ∀ (k : Nat) (s : tt_state) (rb re : Nat) (r : Option Nat)
    (tbva entries level j : Nat),
    level ≤ XLAT_TABLE_LEVEL_MAX →
    (∀ i, j ≤ i → i < j + k →
      tbva + i * XLAT_BLOCK_SIZE level + XLAT_BLOCK_SIZE level - 1 < rb) →
    ((range_clear_loop s rb re r tbva entries level j ↔
      range_clear_loop s rb re r tbva entries level (j + k)) ∧
     clear_refs_loop s rb re r tbva entries level j =
      clear_refs_loop s rb re r tbva entries level (j + k)) := by
  intro k
  induction k with
  | zero =>
    intro s rb re r tbva entries level j hlvl hout
    exact ⟨Iff.rfl, rfl⟩
  | succ n ih =>
    intro s rb re r tbva entries level j hlvl hout
    by_cases hidx : j < entries
    · have hni : ¬ (rb ≤ tbva + j * XLAT_BLOCK_SIZE level +
          XLAT_BLOCK_SIZE level - 1 ∧ tbva + j * XLAT_BLOCK_SIZE level ≤ re) := by
        rintro ⟨h1, -⟩
        have := hout j (Nat.le_refl j) (by omega)
        omega
      have hstep1 : range_clear_loop s rb re r tbva entries level j ↔
          range_clear_loop s rb re r tbva entries level (j + 1) := by
        rw [range_clear_loop.eq_def, if_pos hlvl, if_pos hidx]
        dsimp only
        rw [if_neg hni]
        simp only [true_and]
      have hstep2 : clear_refs_loop s rb re r tbva entries level j =
          clear_refs_loop s rb re r tbva entries level (j + 1) := by
        rw [clear_refs_loop.eq_def, if_pos hlvl, if_pos hidx]
        dsimp only
        rw [if_neg (by rintro ⟨⟨hc, -⟩, -⟩; exact hni hc)]
        rfl
      have hrest := ih s rb re r tbva entries level (j + 1) hlvl
        (fun i h1 h2 => hout i (by omega) (by omega))
      rw [show j + (n + 1) = j + 1 + n by omega]
      exact ⟨hstep1.trans hrest.1, hstep2.trans hrest.2⟩
    · have hidx2 : ¬ j + (n + 1) < entries := by omega
      rw [range_clear_loop.eq_def, if_pos hlvl, if_neg hidx,
        range_clear_loop.eq_def, if_pos hlvl, if_neg hidx2,
        clear_refs_loop.eq_def, if_pos hlvl, if_neg hidx,
        clear_refs_loop.eq_def, if_pos hlvl, if_neg hidx2]
      exact ⟨Iff.rfl, rfl⟩

theorem clear_cnt_pos_fuel : ∀ fuel : Nat,
    (∀ (s : tt_state) (rb re : Nat) (r : Option Nat) (tbva entries level : Nat),
      (XLAT_TABLE_LEVEL_MAX + 1 - level) * 514 + entries + 1 ≤ fuel →
      range_clear s rb re r tbva entries level →
      ∀ t, t ∈ clear_refs s rb re r tbva entries level →
        1 ≤ tt_cnt s t ∧ t < s.tables.size) ∧
    (∀ (s : tt_state) (rb re : Nat) (r : Option Nat) (tbva entries level idx : Nat),
      (XLAT_TABLE_LEVEL_MAX + 1 - level) * 514 + (entries - idx) ≤ fuel →
      range_clear_loop s rb re r tbva entries level idx →
      ∀ t, t ∈ clear_refs_loop s rb re r tbva entries level idx →
        1 ≤ tt_cnt s t ∧ t < s.tables.size) := by
  intro fuel
  induction fuel with
  | zero =>
    constructor
    · intro s rb re r tbva entries level hf
      omega
    · intro s rb re r tbva entries level idx hf hclear t ht
      have hlvl : ¬ level ≤ XLAT_TABLE_LEVEL_MAX := by
        unfold XLAT_TABLE_LEVEL_MAX at *
        omega
      rw [range_clear_loop.eq_def, if_neg hlvl] at hclear
      exact hclear.elim
  | succ n ih =>
    obtain ⟨ihr, ihl⟩ := ih
    constructor
    · intro s rb re r tbva entries level hf hclear t ht
      by_cases hlvl : level ≤ XLAT_TABLE_LEVEL_MAX
      · rw [range_clear.eq_def, if_pos hlvl] at hclear
        rw [clear_refs.eq_def, if_pos hlvl] at ht
        exact ihl s rb re r tbva entries level 0 (by omega) hclear t ht
      · rw [range_clear.eq_def, if_neg hlvl] at hclear
        exact hclear.elim
    · intro s rb re r tbva entries level idx hf hclear t ht
      by_cases hlvl : level ≤ XLAT_TABLE_LEVEL_MAX
      · by_cases hidx : idx < entries
        · rw [range_clear_loop.eq_def, if_pos hlvl, if_pos hidx] at hclear
          rw [clear_refs_loop.eq_def, if_pos hlvl, if_pos hidx] at ht
          dsimp only at hclear ht
          obtain ⟨hhead, hrest⟩ := hclear
          rw [List.mem_append] at ht
          rcases ht with hth | htr
          · by_cases hcond : ((rb ≤ tbva + idx * XLAT_BLOCK_SIZE level +
                XLAT_BLOCK_SIZE level - 1 ∧
                tbva + idx * XLAT_BLOCK_SIZE level ≤ re) ∧
                ¬(rb ≤ tbva + idx * XLAT_BLOCK_SIZE level ∧
                  tbva + idx * XLAT_BLOCK_SIZE level + XLAT_BLOCK_SIZE level - 1 ≤ re)) ∧
                (level < XLAT_TABLE_LEVEL_MAX ∧
                 desc_type (tt_read s r idx) = TABLE_DESC)
            · rw [if_pos hcond] at hth
              obtain ⟨⟨hint, hncov⟩, hlt, hty⟩ := hcond
              rw [if_pos hint, if_neg hncov] at hhead
              rcases hhead with h0 | hbig
              · rw [h0] at hty
                exact absurd hty (by decide)
              · obtain ⟨-, -, hsize, hcanon, hcnt, hrc⟩ := hbig
                rcases List.mem_cons.mp hth with heq | hmem
                · rw [heq]
                  exact ⟨hcnt, hsize⟩
                · exact ihr s rb re (some (table_of_desc (tt_read s r idx)))
                    (tbva + idx * XLAT_BLOCK_SIZE level) XLAT_TABLE_ENTRIES
                    (level + 1)
                    (by unfold XLAT_TABLE_LEVEL_MAX XLAT_TABLE_ENTRIES at *; omega)
                    hrc t hmem
            · rw [if_neg hcond] at hth
              exact absurd hth (List.not_mem_nil t)
          · exact ihl s rb re r tbva entries level (idx + 1) (by omega) hrest t htr
        · rw [clear_refs_loop.eq_def, if_pos hlvl, if_neg hidx] at ht
          exact absurd ht (List.not_mem_nil t)
      · rw [range_clear_loop.eq_def, if_neg hlvl] at hclear
        exact hclear.elim

theorem clear_frame_fuel : ∀ fuel : Nat,
    (∀ (s s2 : tt_state) (rb re : Nat) (r : Option Nat) (tbva entries level : Nat),
      (XLAT_TABLE_LEVEL_MAX + 1 - level) * 514 + entries + 1 ≤ fuel →
      (∀ j, j < entries → tt_read s2 r j = tt_read s r j) →
      (∀ t, t ∈ clear_refs s rb re r tbva entries level →
        tt_pool s2 t = tt_pool s t ∧ tt_cnt s2 t = tt_cnt s t) →
      s2.tables.size = s.tables.size →
      (clear_refs s2 rb re r tbva entries level =
        clear_refs s rb re r tbva entries level ∧
       (range_clear s2 rb re r tbva entries level ↔
        range_clear s rb re r tbva entries level))) ∧
    (∀ (s s2 : tt_state) (rb re : Nat) (r : Option Nat) (tbva entries level idx : Nat),
      (XLAT_TABLE_LEVEL_MAX + 1 - level) * 514 + (entries - idx) ≤ fuel →
      (∀ j, idx ≤ j → j < entries → tt_read s2 r j = tt_read s r j) →
      (∀ t, t ∈ clear_refs_loop s rb re r tbva entries level idx →
        tt_pool s2 t = tt_pool s t ∧ tt_cnt s2 t = tt_cnt s t) →
      s2.tables.size = s.tables.size →
      (clear_refs_loop s2 rb re r tbva entries level idx =
        clear_refs_loop s rb re r tbva entries level idx ∧
       (range_clear_loop s2 rb re r tbva entries level idx ↔
        range_clear_loop s rb re r tbva entries level idx))) := by
  intro fuel
  induction fuel with
  | zero =>
    constructor
    · intro s s2 rb re r tbva entries level hf
      omega
    · intro s s2 rb re r tbva entries level idx hf hreads hpools hsz
      have hlvl : ¬ level ≤ XLAT_TABLE_LEVEL_MAX := by
        unfold XLAT_TABLE_LEVEL_MAX at *
        omega
      rw [range_clear_loop.eq_def (s := s2), range_clear_loop.eq_def (s := s),
        clear_refs_loop.eq_def (s := s2), clear_refs_loop.eq_def (s := s),
        if_neg hlvl, if_neg hlvl, if_neg hlvl, if_neg hlvl]
      exact ⟨rfl, Iff.rfl⟩
  | succ n ih =>
    obtain ⟨ihr, ihl⟩ := ih
    constructor
    · intro s s2 rb re r tbva entries level hf hreads hpools hsz
      by_cases hlvl : level ≤ XLAT_TABLE_LEVEL_MAX
      · rw [range_clear.eq_def (s := s2), range_clear.eq_def (s := s),
          clear_refs.eq_def (s := s2), clear_refs.eq_def (s := s),
          if_pos hlvl, if_pos hlvl, if_pos hlvl, if_pos hlvl]
        refine ihl s s2 rb re r tbva entries level 0 (by omega)
          (fun j _ hj => hreads j hj) ?_ hsz
        intro t ht
        refine hpools t ?_
        rw [clear_refs.eq_def, if_pos hlvl]
        exact ht
      · rw [range_clear.eq_def (s := s2), range_clear.eq_def (s := s),
          clear_refs.eq_def (s := s2), clear_refs.eq_def (s := s),
          if_neg hlvl, if_neg hlvl, if_neg hlvl, if_neg hlvl]
        exact ⟨rfl, Iff.rfl⟩
    · intro s s2 rb re r tbva entries level idx hf hreads hpools hsz
      by_cases hlvl : level ≤ XLAT_TABLE_LEVEL_MAX
      · by_cases hidx : idx < entries
        · have hd : tt_read s2 r idx = tt_read s r idx :=
            hreads idx (Nat.le_refl idx) hidx
          have hrest := ihl s s2 rb re r tbva entries level (idx + 1) (by omega)
            (fun j h1 h2 => hreads j (by omega) h2)
            (fun t ht => hpools t (by
              rw [clear_refs_loop.eq_def, if_pos hlvl, if_pos hidx]
              dsimp only
              exact List.mem_append_right _ ht)) hsz
          rw [range_clear_loop.eq_def (s := s2), range_clear_loop.eq_def (s := s),
            clear_refs_loop.eq_def (s := s2), clear_refs_loop.eq_def (s := s),
            if_pos hlvl, if_pos hlvl, if_pos hlvl, if_pos hlvl,
            if_pos hidx, if_pos hidx, if_pos hidx, if_pos hidx]
          dsimp only
          rw [hd, hrest.1]
          by_cases hint : rb ≤ tbva + idx * XLAT_BLOCK_SIZE level +
              XLAT_BLOCK_SIZE level - 1 ∧ tbva + idx * XLAT_BLOCK_SIZE level ≤ re
          · by_cases hcov : rb ≤ tbva + idx * XLAT_BLOCK_SIZE level ∧
                tbva + idx * XLAT_BLOCK_SIZE level + XLAT_BLOCK_SIZE level - 1 ≤ re
            · rw [if_neg (by rintro ⟨⟨-, hnc⟩, -⟩; exact hnc hcov),
                if_neg (by rintro ⟨⟨-, hnc⟩, -⟩; exact hnc hcov),
                if_pos hint, if_pos hint, if_pos hcov, if_pos hcov]
              exact ⟨rfl, and_congr Iff.rfl hrest.2⟩
            · by_cases hc2 : level < XLAT_TABLE_LEVEL_MAX ∧
                  desc_type (tt_read s r idx) = TABLE_DESC
              · have hmemh : table_of_desc (tt_read s r idx) ∈
                    clear_refs_loop s rb re r tbva entries level idx := by
                  rw [clear_refs_loop.eq_def, if_pos hlvl, if_pos hidx]
                  dsimp only
                  rw [if_pos ⟨⟨hint, hcov⟩, hc2⟩]
                  exact List.mem_append_left _ (List.mem_cons_self _ _)
                have hmemc : ∀ t, t ∈ clear_refs s rb re
                    (some (table_of_desc (tt_read s r idx)))
                    (tbva + idx * XLAT_BLOCK_SIZE level) XLAT_TABLE_ENTRIES
                    (level + 1) →
                    t ∈ clear_refs_loop s rb re r tbva entries level idx := by
                  intro t ht
                  rw [clear_refs_loop.eq_def, if_pos hlvl, if_pos hidx]
                  dsimp only
                  rw [if_pos ⟨⟨hint, hcov⟩, hc2⟩]
                  exact List.mem_append_left _ (List.mem_cons_of_mem _ ht)
                have hpoolh := hpools _ hmemh
                have hchild := ihr s s2 rb re
                  (some (table_of_desc (tt_read s r idx)))
                  (tbva + idx * XLAT_BLOCK_SIZE level) XLAT_TABLE_ENTRIES
                  (level + 1)
                  (by unfold XLAT_TABLE_LEVEL_MAX XLAT_TABLE_ENTRIES at *; omega)
                  (by
                    intro j hj
                    rw [tt_read_pool, tt_read_pool, hpoolh.1])
                  (fun t ht => hpools t (hmemc t ht)) hsz
                have hcnt2 : s2.tables_mapped_regions.getD
                    (table_of_desc (tt_read s r idx)) 0 =
                    s.tables_mapped_regions.getD
                    (table_of_desc (tt_read s r idx)) 0 := hpoolh.2
                rw [if_pos ⟨⟨hint, hcov⟩, hc2⟩, if_pos ⟨⟨hint, hcov⟩, hc2⟩,
                  if_pos hint, if_pos hint, if_neg hcov, if_neg hcov,
                  hchild.1, hsz, hcnt2]
                refine ⟨rfl, and_congr (or_congr Iff.rfl ?_) hrest.2⟩
                exact and_congr Iff.rfl (and_congr Iff.rfl (and_congr Iff.rfl
                  (and_congr Iff.rfl (and_congr Iff.rfl hchild.2))))
              · rw [if_neg (by rintro ⟨-, hc⟩; exact hc2 hc),
                  if_neg (by rintro ⟨-, hc⟩; exact hc2 hc),
                  if_pos hint, if_pos hint, if_neg hcov, if_neg hcov]
                refine ⟨rfl, and_congr (or_congr Iff.rfl ?_) hrest.2⟩
                constructor
                · rintro ⟨hlt, hty, -⟩
                  exact absurd ⟨hlt, hty⟩ hc2
                · rintro ⟨hlt, hty, -⟩
                  exact absurd ⟨hlt, hty⟩ hc2
          · rw [if_neg (by rintro ⟨⟨hc, -⟩, -⟩; exact hint hc),
              if_neg (by rintro ⟨⟨hc, -⟩, -⟩; exact hint hc),
              if_neg hint, if_neg hint]
            exact ⟨rfl, and_congr Iff.rfl hrest.2⟩
        · rw [range_clear_loop.eq_def (s := s2), range_clear_loop.eq_def (s := s),
            clear_refs_loop.eq_def (s := s2), clear_refs_loop.eq_def (s := s),
            if_pos hlvl, if_pos hlvl, if_pos hlvl, if_pos hlvl,
            if_neg hidx, if_neg hidx, if_neg hidx, if_neg hidx]
          exact ⟨rfl, Iff.rfl⟩
      · rw [range_clear_loop.eq_def (s := s2), range_clear_loop.eq_def (s := s),
          clear_refs_loop.eq_def (s := s2), clear_refs_loop.eq_def (s := s),
          if_neg hlvl, if_neg hlvl, if_neg hlvl, if_neg hlvl]
        exact ⟨rfl, Iff.rfl⟩


/-- Claim C3: For every region, level below the deepest, destination PA and
table-entry base VA such that the entry's VA interval is fully contained in
the region's VA interval and the current descriptor is invalid,
`xlat_tables_map_region_action` returns write-block exactly when the level
is at or below the minimum block-descriptor level, the destination PA is
aligned to the block size of that level, and the region granularity is at
least that block size; in every other such case it returns
create-new-table. -/
theorem map_region_action_invalid_covered (mm : mmap_region) (desc_ty dest_pa ebva level : Nat)
    (hlvl : level < XLAT_TABLE_LEVEL_MAX)
    (hlo : mm.base_va ≤ ebva)
    (hhi : mm.base_va + mm.size - 1 ≥ ebva + XLAT_BLOCK_SIZE level - 1)
    (hdesc : desc_ty = INVALID_DESC) :
    xlat_tables_map_region_action mm desc_ty dest_pa ebva level =
      (if MIN_LVL_BLOCK_DESC ≤ level ∧ dest_pa % XLAT_BLOCK_SIZE level = 0 ∧
          XLAT_BLOCK_SIZE level ≤ mm.granularity
       then ACTION_WRITE_BLOCK_ENTRY
       else ACTION_CREATE_NEW_TABLE) := by
  have h3 : level ≠ 3 := by
    simpa [XLAT_TABLE_LEVEL_MAX] using Nat.ne_of_lt hlvl
  simp only [xlat_tables_map_region_action, hdesc, INVALID_DESC, TABLE_DESC, PAGE_DESC]
  rw [if_pos ⟨hlo, hhi⟩, if_neg h3, if_neg (by decide : ¬(0:Nat) = 3),
    if_pos trivial]
  have hiff : (dest_pa % XLAT_BLOCK_SIZE level ≠ 0 ∨ level < MIN_LVL_BLOCK_DESC ∨
      mm.granularity < XLAT_BLOCK_SIZE level) ↔
      ¬(MIN_LVL_BLOCK_DESC ≤ level ∧ dest_pa % XLAT_BLOCK_SIZE level = 0 ∧
        XLAT_BLOCK_SIZE level ≤ mm.granularity) := by
    constructor
    · rintro (h | h | h) ⟨ha, hb, hc⟩ <;> omega
    · intro h
      by_contra hcon
      push_neg at hcon
      exact h ⟨hcon.2.1, hcon.1, hcon.2.2⟩
  simp only [hiff]
  rcases em (MIN_LVL_BLOCK_DESC ≤ level ∧ dest_pa % XLAT_BLOCK_SIZE level = 0 ∧
      XLAT_BLOCK_SIZE level ≤ mm.granularity) with hB | hB
  · rw [if_neg (not_not_intro hB), if_pos hB]
  · rw [if_pos hB, if_neg hB]

/-- Witness for `map_region_action_invalid_covered` at a concrete input:
a 2 MiB-aligned destination inside a 2 MiB-granularity region at level 2. -/
theorem map_region_action_invalid_covered_witness :
    xlat_tables_map_region_action ⟨0, 0, 0x400000, 0, 0x200000⟩ 0 0x200000 0x200000 2 =
      ACTION_WRITE_BLOCK_ENTRY := by
  have h := map_region_action_invalid_covered ⟨0, 0, 0x400000, 0, 0x200000⟩ 0 0x200000 0x200000 2
    (by decide) (by decide) (by decide) rfl
  rw [h]
  decide

/-- Claim C9: For every context and every region record with `size == 0`,
`mmap_add_region_ctx` returns without modifying the context (no validation,
no list insertion, no max update), and `mmap_add_dynamic_region_ctx`
likewise returns success (0) without modifying the context. -/
theorem add_region_size_zero_noop (ctx : xlat_ctx) (mm : mmap_region)
    (h : mm.size = 0) :
    mmap_add_region_ctx ctx mm = ctx ∧
    mmap_add_dynamic_region_ctx ctx mm = (0, ctx) := by
  constructor
  · simp [mmap_add_region_ctx, h]
  · simp [mmap_add_dynamic_region_ctx, h]

/-- Witness for `add_region_size_zero_noop`: a zero-size record whose other
fields are unaligned and out of range. -/
theorem add_region_size_zero_noop_witness :
    mmap_add_region_ctx ctx_ex ⟨2 ^ 70 + 3, 2 ^ 70 + 5, 0, 7, 9⟩ = ctx_ex ∧
    mmap_add_dynamic_region_ctx ctx_ex ⟨2 ^ 70 + 3, 2 ^ 70 + 5, 0, 7, 9⟩ = (0, ctx_ex) :=
  add_region_size_zero_noop ctx_ex ⟨2 ^ 70 + 3, 2 ^ 70 + 5, 0, 7, 9⟩ rfl

/-- Claim C2 (code evaluation at the failing input): on an initialized
context whose sub-table pool has a single free table, adding the dynamic
page region `mm_page` makes the builder stop early (the level-2 sub-table
cannot be allocated), and the call does return `-ENOMEM` with the region
list restored — but the translation tables are NOT restored: base-table
entry 0 still holds the table descriptor for pool table 0 (it was 0
before the call) and that table's mapped-regions count is still 1 (it was
0 before), because the rollback guard compares `end_va` against the region
that followed the removed entry (here the sentinel) instead of the failed
region itself, and so the unmap of the partial work is skipped. -/
theorem dynamic_add_rollback_incomplete :
    (mmap_add_dynamic_region_ctx ctx_pool1 mm_page).1 = -ENOMEM ∧
    (mmap_add_dynamic_region_ctx ctx_pool1 mm_page).2.mmap = ctx_pool1.mmap ∧
    tt_read (mmap_add_dynamic_region_ctx ctx_pool1 mm_page).2.tt none 0 =
      table_desc_for 0 ∧
    (mmap_add_dynamic_region_ctx ctx_pool1 mm_page).2.tt.tables_mapped_regions.getD 0 0 = 1 ∧
    tt_read ctx_pool1.tt none 0 = INVALID_DESC ∧
    ctx_pool1.tt.tables_mapped_regions.getD 0 0 = 0 ∧
    (mmap_add_dynamic_region_ctx ctx_pool1 mm_page).2.tt ≠ ctx_pool1.tt := by
  have hbig : (mmap_add_dynamic_region_ctx ctx_pool1 mm_page).1 = -ENOMEM ∧
      (mmap_add_dynamic_region_ctx ctx_pool1 mm_page).2.mmap = ctx_pool1.mmap ∧
      tt_read (mmap_add_dynamic_region_ctx ctx_pool1 mm_page).2.tt none 0 =
        table_desc_for 0 ∧
      (mmap_add_dynamic_region_ctx ctx_pool1 mm_page).2.tt.tables_mapped_regions.getD 0 0 = 1 ∧
      tt_read ctx_pool1.tt none 0 = INVALID_DESC ∧
      ctx_pool1.tt.tables_mapped_regions.getD 0 0 = 0 := by
    refine ⟨?_, ?_, ?_, ?_, ?_, ?_⟩ <;>
    simp [mmap_add_dynamic_region_ctx, ctx_pool1, ctx_ex, mm_page,
      mmap_add_region_check, mmap_overlap_scan, mmap_insert_point,
      mmap_cursor_phase1, mmap_cursor_phase2, mt_dynamic_or, attr_bit,
      xlat_tables_map_region, xlat_tables_map_loop,
      xlat_tables_map_region_action, xlat_table_get_empty,
      xlat_table_inc_regions_count, tt_read, tt_write, table_desc_for,
      xlat_table_addr, table_of_desc, desc_type, XLAT_BLOCK_SIZE,
      XLAT_ADDR_SHIFT, XLAT_TABLE_LEVEL_MAX, XLAT_TABLE_ENTRIES,
      MIN_LVL_BLOCK_DESC, PAGE_SIZE, TABLE_DESC, PAGE_DESC, BLOCK_DESC,
      INVALID_DESC, MT_DYNAMIC, mmap_sentinel, sub64,
      mmap_region_overlap_check, ev_getElem?_mkArray, ev_getElem?_setD,
      ev_getElem?_modify, ev_size_setD, ev_size_modify,
      List.range, List.range.loop]
  refine ⟨hbig.1, hbig.2.1, hbig.2.2.1, hbig.2.2.2.1, hbig.2.2.2.2.1,
    hbig.2.2.2.2.2, ?_⟩
  intro hc
  have h2 := congrArg (fun s => s.tables_mapped_regions.getD 0 0) hc
  simp only at h2
  rw [hbig.2.2.2.1, hbig.2.2.2.2.2] at h2
  exact absurd h2 (by decide)

/-- Claim C5: For every add of a region (static or dynamic; `attr` is the
attribute word as passed to the check, carrying `MT_DYNAMIC` for dynamic
adds) and every region `mm` already present in the list, validation in
`mmap_add_region_check` accepts the pair exactly when either (a) one
region's VA interval fully contains the other's (or they are equal), both
regions are static, they have the same VA − PA offset, and they are not
the exact same `(base_va, size)` pair, or (b) the two regions are
completely separated in both VA and PA; every other configuration
(including any partial overlap in VA or PA and any overlap involving a
dynamic region) makes the pair check fail with `-EPERM`.  The hypotheses
are the sanity facts established by the earlier checks of
`mmap_add_region_check` for the candidate and (at its own add) for `mm`:
nonzero sizes and no 64-bit wrap-around. -/
theorem overlap_check_accepts_iff (base_pa base_va size attr : Nat)
    (mm : mmap_region)
    (hs : 1 ≤ size) (hms : 1 ≤ mm.size)
    (hva : base_va + size ≤ 2 ^ 64) (hpa : base_pa + size ≤ 2 ^ 64)
    (hmva : mm.base_va + mm.size ≤ 2 ^ 64) (hmpa : mm.base_pa + mm.size ≤ 2 ^ 64) :
    (mmap_region_overlap_check base_pa base_va size attr mm = 0 ↔
      (((base_va ≥ mm.base_va ∧ base_va + size - 1 ≤ mm.base_va + mm.size - 1) ∨
        (mm.base_va ≥ base_va ∧ mm.base_va + mm.size - 1 ≤ base_va + size - 1)) ∧
       attr_bit attr MT_DYNAMIC = false ∧ attr_bit mm.attr MT_DYNAMIC = false ∧
       base_va + mm.base_pa = mm.base_va + base_pa ∧
       ¬(base_va = mm.base_va ∧ size = mm.size)) ∨
      ((base_va + size - 1 < mm.base_va ∨ base_va > mm.base_va + mm.size - 1) ∧
       (base_pa + size - 1 < mm.base_pa ∨ base_pa > mm.base_pa + mm.size - 1))) ∧
    (¬((((base_va ≥ mm.base_va ∧ base_va + size - 1 ≤ mm.base_va + mm.size - 1) ∨
        (mm.base_va ≥ base_va ∧ mm.base_va + mm.size - 1 ≤ base_va + size - 1)) ∧
       attr_bit attr MT_DYNAMIC = false ∧ attr_bit mm.attr MT_DYNAMIC = false ∧
       base_va + mm.base_pa = mm.base_va + base_pa ∧
       ¬(base_va = mm.base_va ∧ size = mm.size)) ∨
      ((base_va + size - 1 < mm.base_va ∨ base_va > mm.base_va + mm.size - 1) ∧
       (base_pa + size - 1 < mm.base_pa ∨ base_pa > mm.base_pa + mm.size - 1))) →
      mmap_region_overlap_check base_pa base_va size attr mm = -EPERM) := by
  have hchar : mmap_region_overlap_check base_pa base_va size attr mm =
      (if (((base_va ≥ mm.base_va ∧ base_va + size - 1 ≤ mm.base_va + mm.size - 1) ∨
        (mm.base_va ≥ base_va ∧ mm.base_va + mm.size - 1 ≤ base_va + size - 1)) ∧
       attr_bit attr MT_DYNAMIC = false ∧ attr_bit mm.attr MT_DYNAMIC = false ∧
       base_va + mm.base_pa = mm.base_va + base_pa ∧
       ¬(base_va = mm.base_va ∧ size = mm.size)) ∨
      ((base_va + size - 1 < mm.base_va ∨ base_va > mm.base_va + mm.size - 1) ∧
       (base_pa + size - 1 < mm.base_pa ∨ base_pa > mm.base_pa + mm.size - 1))
       then 0 else -EPERM) := by
    simp only [mmap_region_overlap_check]
    by_cases hfull : (base_va ≥ mm.base_va ∧ base_va + size - 1 ≤ mm.base_va + mm.size - 1) ∨
        (mm.base_va ≥ base_va ∧ mm.base_va + mm.size - 1 ≤ base_va + size - 1)
    · have hnb : ¬((base_va + size - 1 < mm.base_va ∨ base_va > mm.base_va + mm.size - 1) ∧
          (base_pa + size - 1 < mm.base_pa ∨ base_pa > mm.base_pa + mm.size - 1)) := by
        rintro ⟨hv, -⟩
        omega
      have hoffiff : (sub64 mm.base_va mm.base_pa = sub64 base_va base_pa) ↔
          base_va + mm.base_pa = mm.base_va + base_pa := by
        unfold sub64
        omega
      rw [if_pos hfull]
      by_cases hd : (attr_bit attr MT_DYNAMIC = true) ∨ (attr_bit mm.attr MT_DYNAMIC = true)
      · rw [if_pos hd, if_neg]
        rintro (⟨-, hd1, hd2, -⟩ | hb)
        · rcases hd with h | h
          · rw [hd1] at h; cases h
          · rw [hd2] at h; cases h
        · exact hnb hb
      · rw [if_neg hd]
        by_cases hoffm : sub64 mm.base_va mm.base_pa ≠ sub64 base_va base_pa
        · rw [if_pos hoffm, if_neg]
          rintro (⟨-, -, -, hoe, -⟩ | hb)
          · exact hoffm (hoffiff.mpr hoe)
          · exact hnb hb
        · rw [if_neg hoffm]
          push_neg at hoffm
          by_cases hsame : base_va = mm.base_va ∧ size = mm.size
          · rw [if_pos hsame, if_neg]
            rintro (⟨-, -, -, -, hns⟩ | hb)
            · exact hns hsame
            · exact hnb hb
          · rw [if_neg hsame, if_pos]
            push_neg at hd
            refine Or.inl ⟨hfull, ?_, ?_, hoffiff.mp hoffm, hsame⟩
            · simpa using hd.1
            · simpa using hd.2
    · rw [if_neg hfull]
      by_cases hns : ¬(((base_va + size - 1 < mm.base_va ∨ base_va > mm.base_va + mm.size - 1)) ∧
          ((base_pa + size - 1 < mm.base_pa ∨ base_pa > mm.base_pa + mm.size - 1)))
      · rw [if_pos hns, if_neg]
        rintro (⟨hc, -⟩ | hb)
        · exact hfull hc
        · exact hns hb
      · rw [if_neg hns, if_pos]
        push_neg at hns
        exact Or.inr hns
  rw [hchar]
  constructor
  · split
    · rename_i h
      exact iff_of_true rfl h
    · rename_i h
      exact iff_of_false (by simp [EPERM]) h
  · intro hnab
    rw [if_neg hnab]

/-! ## Region-list order -/

/-- The order maintained by the region list: ascending end VA, and
ascending size among equal end VAs. -/
def mmap_le (a b : mmap_region) : Prop :=
  a.base_va + a.size - 1 < b.base_va + b.size - 1 ∨
  (a.base_va + a.size - 1 = b.base_va + b.size - 1 ∧ a.size ≤ b.size)

theorem mmap_le_trans {a b c : mmap_region} (h1 : mmap_le a b)
    (h2 : mmap_le b c) : mmap_le a c := by
  unfold mmap_le at *
  omega

theorem mmap_cursor_phase2_split (mm : mmap_region) (l : List mmap_region) :
    (mmap_cursor_phase2 mm l).1 ++ (mmap_cursor_phase2 mm l).2 = l := by
  induction l with
  | nil => rfl
  | cons r rest ih =>
    unfold mmap_cursor_phase2
    split
    · simpa using ih
    · rfl

theorem mmap_cursor_phase1_split (mm : mmap_region) (l : List mmap_region) :
    (mmap_cursor_phase1 mm l).1 ++ (mmap_cursor_phase1 mm l).2 = l := by
  induction l with
  | nil => rfl
  | cons r rest ih =>
    unfold mmap_cursor_phase1
    split
    · simpa using ih
    · exact mmap_cursor_phase2_split mm (r :: rest)

theorem mmap_cursor_phase2_prefix_mem (mm : mmap_region) (l : List mmap_region) :
    ∀ x ∈ (mmap_cursor_phase2 mm l).1,
      x.base_va + x.size - 1 = mm.base_va + mm.size - 1 ∧ x.size < mm.size := by
  induction l with
  | nil => intro x hx; cases hx
  | cons r rest ih =>
    intro x hx
    unfold mmap_cursor_phase2 at hx
    split at hx
    · rename_i hcond
      rcases List.mem_cons.mp hx with rfl | hx'
      · exact hcond
      · exact ih x hx'
    · cases hx

theorem mmap_cursor_phase1_prefix_mem (mm : mmap_region) (l : List mmap_region) :
    ∀ x ∈ (mmap_cursor_phase1 mm l).1, mmap_le x mm := by
  induction l with
  | nil => intro x hx; cases hx
  | cons r rest ih =>
    intro x hx
    unfold mmap_cursor_phase1 at hx
    split at hx
    · rename_i hcond
      rcases List.mem_cons.mp hx with rfl | hx'
      · exact Or.inl hcond
      · exact ih x hx'
    · have h2 := mmap_cursor_phase2_prefix_mem mm (r :: rest) x hx
      exact Or.inr ⟨h2.1, Nat.le_of_lt h2.2⟩

theorem mmap_cursor_phase2_suffix_mem (mm : mmap_region) (l : List mmap_region)
    (hs : List.Pairwise mmap_le l)
    (hall : ∀ x ∈ l, mm.base_va + mm.size - 1 ≤ x.base_va + x.size - 1) :
    ∀ x ∈ (mmap_cursor_phase2 mm l).2, mmap_le mm x := by
  induction l with
  | nil => intro x hx; cases hx
  | cons r rest ih =>
    intro x hx
    unfold mmap_cursor_phase2 at hx
    split at hx
    · rename_i hcond
      exact ih (List.Pairwise.sublist (List.sublist_cons_self r rest) hs)
        (fun y hy => hall y (List.mem_cons_of_mem r hy)) x hx
    · rename_i hcond
      have hr : mmap_le mm r := by
        have h1 := hall r (List.mem_cons_self r rest)
        rcases Nat.lt_or_ge (mm.base_va + mm.size - 1) (r.base_va + r.size - 1) with h | h
        · exact Or.inl h
        · have heq : r.base_va + r.size - 1 = mm.base_va + mm.size - 1 := by omega
          refine Or.inr ⟨heq.symm, ?_⟩
          by_contra hlt
          exact hcond ⟨heq, by omega⟩
      rcases List.mem_cons.mp hx with rfl | hx'
      · exact hr
      · exact mmap_le_trans hr ((List.pairwise_cons.mp hs).1 x hx')

theorem mmap_cursor_phase1_suffix_mem (mm : mmap_region) (l : List mmap_region)
    (hs : List.Pairwise mmap_le l) :
    ∀ x ∈ (mmap_cursor_phase1 mm l).2, mmap_le mm x := by
  induction l with
  | nil => intro x hx; cases hx
  | cons r rest ih =>
    intro x hx
    unfold mmap_cursor_phase1 at hx
    split at hx
    · exact ih (List.Pairwise.sublist (List.sublist_cons_self r rest) hs) x hx
    · rename_i hcond
      refine mmap_cursor_phase2_suffix_mem mm (r :: rest) hs ?_ x hx
      intro y hy
      rcases List.mem_cons.mp hy with rfl | hy'
      · omega
      · have hr := (List.pairwise_cons.mp hs).1 y hy'
        unfold mmap_le at hr
        omega

/-- Insertion at the cursor position preserves the region-list order.  The
inserted record `mm2` may differ from the cursor key `mm` in fields other
than base VA and size (the dynamic add inserts the record with the
`MT_DYNAMIC` attribute bit added). -/
theorem mmap_insert_point_sorted (mm mm2 : mmap_region) (l : List mmap_region)
    (hb : mm2.base_va = mm.base_va) (hsz : mm2.size = mm.size)
    (hs : List.Pairwise mmap_le l) :
    List.Pairwise mmap_le
      ((mmap_insert_point mm l).1 ++ mm2 :: (mmap_insert_point mm l).2) := by
  have hto : ∀ x : mmap_region, mmap_le x mm → mmap_le x mm2 := by
    intro x h
    unfold mmap_le at *
    omega
  have hfrom : ∀ x : mmap_region, mmap_le mm x → mmap_le mm2 x := by
    intro x h
    unfold mmap_le at *
    omega
  have hsplit : (mmap_insert_point mm l).1 ++ (mmap_insert_point mm l).2 = l :=
    mmap_cursor_phase1_split mm l
  have hs2 : List.Pairwise mmap_le
      ((mmap_insert_point mm l).1 ++ (mmap_insert_point mm l).2) := by
    rw [hsplit]
    exact hs
  have hparts := List.pairwise_append.mp hs2
  refine List.pairwise_append.mpr ⟨hparts.1, ?_, ?_⟩
  · refine List.pairwise_cons.mpr ⟨?_, hparts.2.1⟩
    intro x hx
    exact hfrom x (mmap_cursor_phase1_suffix_mem mm l hs x hx)
  · intro a ha b hb2
    rcases List.mem_cons.mp hb2 with heq | hb'
    · rw [heq]
      exact hto a (mmap_cursor_phase1_prefix_mem mm l a ha)
    · exact hparts.2.2 a ha b hb'

/-- Claim C6: After every add of a region — static via `mmap_add_region_ctx`
or dynamic via `mmap_add_dynamic_region_ctx` — the region list (up to the
zero-size sentinel) is sorted first by ascending end VA and, among regions
with equal end VA, by ascending size; the invariant is preserved from any
list state that already satisfies it (and in particular after every
successful add). -/
theorem add_region_preserves_sorted (ctx : xlat_ctx) (mm : mmap_region)
    (hs : List.Pairwise mmap_le ctx.mmap) :
    List.Pairwise mmap_le (mmap_add_region_ctx ctx mm).mmap ∧
    List.Pairwise mmap_le (mmap_add_dynamic_region_ctx ctx mm).2.mmap := by
  constructor
  · unfold mmap_add_region_ctx
    split
    · exact hs
    · split
      · exact hs
      · exact mmap_insert_point_sorted mm mm ctx.mmap rfl rfl hs
  · unfold mmap_add_dynamic_region_ctx
    dsimp only
    split
    · exact hs
    · split
      · exact hs
      · split
        · split
          · split
            · rw [show (mmap_insert_point mm ctx.mmap).1 ++
                  (mmap_insert_point mm ctx.mmap).2 = ctx.mmap from
                  mmap_cursor_phase1_split mm ctx.mmap]
              exact hs
            · rw [show (mmap_insert_point mm ctx.mmap).1 ++
                  (mmap_insert_point mm ctx.mmap).2 = ctx.mmap from
                  mmap_cursor_phase1_split mm ctx.mmap]
              exact hs
          · exact mmap_insert_point_sorted mm _ ctx.mmap rfl rfl hs
        · exact mmap_insert_point_sorted mm _ ctx.mmap rfl rfl hs

/-- Witness for `add_region_preserves_sorted`: adding a one-page static
region to `ctx_ex` (whose region list is empty, trivially sorted). -/
theorem add_region_preserves_sorted_witness :
    List.Pairwise mmap_le (mmap_add_region_ctx ctx_ex mm_page).mmap ∧
    List.Pairwise mmap_le (mmap_add_dynamic_region_ctx ctx_ex mm_page).2.mmap :=
  add_region_preserves_sorted ctx_ex mm_page (by simp [ctx_ex])

/-- Witness for `overlap_check_accepts_iff`: a candidate page fully
separated in VA and PA from an existing page region is accepted. -/
theorem overlap_check_accepts_iff_witness :
    mmap_region_overlap_check 0x2000 0x2000 0x1000 10 ⟨0, 0, 0x1000, 10, 0x1000⟩ = 0 :=
  (overlap_check_accepts_iff 0x2000 0x2000 0x1000 10 ⟨0, 0, 0x1000, 10, 0x1000⟩
    (by norm_num) (by norm_num) (by norm_num) (by norm_num) (by norm_num)
    (by norm_num)).1.mpr (Or.inr (by norm_num))

theorem check_pass_false_of_bad (s : tt_state) (be vass : Nat) :
    ∀ (n : Nat) (va i : Nat), i < n →
      page_is_page_mapped s (va + i * PAGE_SIZE) be vass = false →
      change_mem_attributes_check_pass s va n be vass = false := by
  intro n
  induction n with
  | zero => intro va i hi; omega
  | succ k ih =>
    intro va i hi hbad
    unfold change_mem_attributes_check_pass
    rcases i with - | j
    · simp only [Nat.zero_mul, Nat.add_zero] at hbad
      unfold page_is_page_mapped at hbad
      split
      · rfl
      · rename_i e heq
        rw [heq] at hbad
        split
        · rfl
        · rename_i hcond
          simp only [decide_eq_false_iff_not] at hbad
          push_neg at hcond
          exact absurd ⟨hcond.1, hcond.2⟩ hbad
    · split
      · rfl
      · split
        · rfl
        · refine ih (va + PAGE_SIZE) j (by omega) ?_
          have : va + PAGE_SIZE + j * PAGE_SIZE = va + (j + 1) * PAGE_SIZE := by ring
          rw [this]
          exact hbad

theorem int_pages_count_toNat (size : Nat) (h : size / PAGE_SIZE < 2 ^ 31) :
    (int_pages_count size).toNat = size / PAGE_SIZE := by
  unfold int_pages_count
  have h32 : size / PAGE_SIZE % 2 ^ 32 = size / PAGE_SIZE :=
    Nat.mod_eq_of_lt (by omega)
  rw [if_pos (by omega), h32]
  exact Int.toNat_natCast _

theorem change_mem_attributes_bad_page_eq (ctx : xlat_ctx)
    (base_va size attributes : Nat)
    (hal : base_va % PAGE_SIZE = 0) (hsz : size % PAGE_SIZE = 0)
    (hsmall : size / PAGE_SIZE < 2 ^ 31)
    (hbad : ∃ i, i < size / PAGE_SIZE ∧
      page_is_page_mapped ctx.tt (base_va + i * PAGE_SIZE)
        ctx.base_table_entries (ctx.va_max_address + 1) = false) :
    change_mem_attributes ctx base_va size attributes = (-EINVAL, ctx) := by
  obtain ⟨i, hi, hbadi⟩ := hbad
  have hs0 : size ≠ 0 := by
    intro h
    rw [h] at hi
    simp [PAGE_SIZE] at hi
  unfold change_mem_attributes
  rw [if_neg (by omega), if_neg hs0, if_neg (by omega)]
  split
  · rfl
  · rw [if_pos]
    simp only [Bool.not_eq_true]
    rw [int_pages_count_toNat size hsmall]
    exact check_pass_false_of_bad ctx.tt ctx.base_table_entries
      (ctx.va_max_address + 1) (size / PAGE_SIZE) base_va i hi hbadi

/-- Claim C8 (amended): For every context and every page-aligned base VA
and page-multiple size passed to `change_mem_attributes` whose page count
`size / PAGE_SIZE` fits the positive range of the C `int` (is below
`2^31`), if any page in `[base_va, base_va + size)` is not mapped by a
page descriptor at the deepest level (either unmapped, or mapped by a
block descriptor at a shallower level), the call returns `-EINVAL` and the
context — in particular every translation-table descriptor — is
unchanged.  Without the bound the claim fails: see
`change_mem_attributes_int_overflow`. -/
theorem change_mem_attributes_unmapped_fails (ctx : xlat_ctx)
    (base_va size attributes : Nat)
    (hal : base_va % PAGE_SIZE = 0) (hsz : size % PAGE_SIZE = 0)
    (hsmall : size / PAGE_SIZE < 2 ^ 31)
    (hbad : ∃ i, i < size / PAGE_SIZE ∧
      page_is_page_mapped ctx.tt (base_va + i * PAGE_SIZE)
        ctx.base_table_entries (ctx.va_max_address + 1) = false) :
    change_mem_attributes ctx base_va size attributes = (-EINVAL, ctx) :=
  change_mem_attributes_bad_page_eq ctx base_va size attributes hal hsz hsmall hbad

/-- Counterexample to the unamended claim C8: on `ctx_ex` all tables are
empty, so no page of `[0, 2^43)` is mapped (second conjunct: already the
page at VA 0 is not), yet the call returns 0 with the context unchanged —
`int pages_count = size / PAGE_SIZE` converts `2^31` to the negative `int`
`-2^31`, both loops run zero times and the unmapped range is never
noticed. -/
theorem change_mem_attributes_int_overflow :
    change_mem_attributes ctx_ex 0 (2 ^ 43) (2 + 32) = (0, ctx_ex) ∧
    page_is_page_mapped ctx_ex.tt 0 ctx_ex.base_table_entries
      (ctx_ex.va_max_address + 1) = false := by
  have hpc : (int_pages_count (2 ^ 43)).toNat = 0 := by decide
  constructor
  · unfold change_mem_attributes
    rw [if_neg (by decide), if_neg (by decide), if_neg (by decide),
      if_neg (by decide), hpc, if_neg (by decide)]
    rfl
  · simp [page_is_page_mapped, find_xlat_table_entry,
      find_xlat_table_entry_loop, GET_XLAT_TABLE_LEVEL_BASE, ctx_ex,
      get_xlat_table_idx, tt_read, desc_type, XLAT_ADDR_SHIFT,
      XLAT_TABLE_LEVEL_MAX, XLAT_TABLE_ENTRIES, INVALID_DESC, BLOCK_DESC,
      PAGE_DESC, ev_getElem?_mkArray]

/-- Witness for `change_mem_attributes_unmapped_fails`: on `ctx_ex` (whose
tables are empty) changing the attributes of the page at VA 0 fails with
`-EINVAL` and leaves the context unchanged. -/
theorem change_mem_attributes_unmapped_fails_witness :
    change_mem_attributes ctx_ex 0 0x1000 (2 + 32) = (-EINVAL, ctx_ex) :=
  change_mem_attributes_unmapped_fails ctx_ex 0 0x1000 (2 + 32) (by decide)
    (by decide) (by decide)
    ⟨0, by decide, by
      simp [page_is_page_mapped, find_xlat_table_entry,
        find_xlat_table_entry_loop, GET_XLAT_TABLE_LEVEL_BASE, ctx_ex,
        get_xlat_table_idx, tt_read, desc_type, XLAT_ADDR_SHIFT,
        XLAT_TABLE_LEVEL_MAX, XLAT_TABLE_ENTRIES, INVALID_DESC, BLOCK_DESC,
        PAGE_DESC, ev_getElem?_mkArray]⟩

theorem find_entry_loop_idx_oob (s : tt_state) (va be vass : Nat)
    (h : be ≤ get_xlat_table_idx va (GET_XLAT_TABLE_LEVEL_BASE vass)) :
    find_xlat_table_entry s va be vass = none := by
  have hlvl : GET_XLAT_TABLE_LEVEL_BASE vass ≤ XLAT_TABLE_LEVEL_MAX := by
    unfold GET_XLAT_TABLE_LEVEL_BASE XLAT_TABLE_LEVEL_MAX
    split_ifs <;> omega
  unfold find_xlat_table_entry find_xlat_table_entry_loop
  rw [dif_pos hlvl, if_pos h]

/-- Counterexample to the unamended claim C10: VA `2^32` lies outside
`ctx_ex`'s 4 GiB address space and the walk returns not-found, yet
`change_mem_attributes` over `[0, 2^43)`, a range containing that VA,
returns 0 instead of `-EINVAL`: the page count truncates to a negative
`int` and no page is ever walked. -/
theorem va_out_of_range_int_overflow :
    find_xlat_table_entry ctx_ex.tt (2 ^ 32) ctx_ex.base_table_entries
      (ctx_ex.va_max_address + 1) = none ∧
    (change_mem_attributes ctx_ex 0 (2 ^ 43) (2 + 32)).1 = 0 := by
  have hpc : (int_pages_count (2 ^ 43)).toNat = 0 := by decide
  constructor
  · exact find_entry_loop_idx_oob ctx_ex.tt (2 ^ 32) ctx_ex.base_table_entries
      (ctx_ex.va_max_address + 1)
      (by norm_num [ctx_ex, get_xlat_table_idx, GET_XLAT_TABLE_LEVEL_BASE,
        XLAT_ADDR_SHIFT, XLAT_TABLE_LEVEL_MAX, XLAT_TABLE_ENTRIES])
  · unfold change_mem_attributes
    rw [if_neg (by decide), if_neg (by decide), if_neg (by decide),
      if_neg (by decide), hpc, if_neg (by decide)]

/-- Claim C10 (amended): For every virtual address whose index at the base
lookup level is at or beyond the base table's entry count (the VA lies
outside the configured virtual address space), the table walk
`find_xlat_table_entry` returns not-found, and consequently
`change_mem_attributes` on a range containing such an address — provided
the range's page count `size / PAGE_SIZE` is below `2^31`, so that the C
`int` page count is exact — fails with `-EINVAL` through its
address-not-mapped path rather than a distinct out-of-range error, with
the context unchanged.  Without the bound the second part fails: see
`va_out_of_range_int_overflow`. -/
theorem va_out_of_range_not_found :
    (∀ (s : tt_state) (va be vass : Nat),
      be ≤ get_xlat_table_idx va (GET_XLAT_TABLE_LEVEL_BASE vass) →
      find_xlat_table_entry s va be vass = none) ∧
    (∀ (ctx : xlat_ctx) (base_va size attributes va : Nat),
      base_va ≤ va → va < base_va + size →
      size / PAGE_SIZE < 2 ^ 31 →
      ctx.base_table_entries ≤
        get_xlat_table_idx va (GET_XLAT_TABLE_LEVEL_BASE (ctx.va_max_address + 1)) →
      change_mem_attributes ctx base_va size attributes = (-EINVAL, ctx)) := by
  refine ⟨find_entry_loop_idx_oob, ?_⟩
  intro ctx base_va size attributes va hlo hhi hsmall hoob
  by_cases hal : base_va % PAGE_SIZE = 0
  · by_cases hsz : size % PAGE_SIZE = 0
    · have hidx : get_xlat_table_idx (base_va + (va - base_va) / PAGE_SIZE * PAGE_SIZE)
          (GET_XLAT_TABLE_LEVEL_BASE (ctx.va_max_address + 1)) =
          get_xlat_table_idx va (GET_XLAT_TABLE_LEVEL_BASE (ctx.va_max_address + 1)) := by
        unfold get_xlat_table_idx XLAT_ADDR_SHIFT XLAT_TABLE_LEVEL_MAX
          GET_XLAT_TABLE_LEVEL_BASE XLAT_TABLE_ENTRIES
        unfold PAGE_SIZE at hal ⊢
        split_ifs <;> norm_num <;> omega
      apply change_mem_attributes_bad_page_eq ctx base_va size attributes hal
        hsz hsmall
      refine ⟨(va - base_va) / PAGE_SIZE, ?_, ?_⟩
      · unfold PAGE_SIZE
        unfold PAGE_SIZE at hsz
        omega
      · unfold page_is_page_mapped
        rw [find_entry_loop_idx_oob ctx.tt _ _ _ (by rw [hidx]; exact hoob)]
    · have hs0 : size ≠ 0 := by omega
      unfold change_mem_attributes
      rw [if_neg (by omega), if_neg hs0, if_pos hsz]
  · unfold change_mem_attributes
    rw [if_pos hal]

/-- Witness for `va_out_of_range_not_found`: in `ctx_ex` the base table has
4 entries (4 GiB space at level 1), and VA `0x100000000` indexes entry 4. -/
theorem va_out_of_range_not_found_witness :
    change_mem_attributes ctx_ex 0x100000000 0x1000 (2 + 32) =
      (-EINVAL, ctx_ex) :=
  va_out_of_range_not_found.2 ctx_ex 0x100000000 0x1000 (2 + 32) 0x100000000
    (by decide) (by norm_num) (by decide)
    (by norm_num [ctx_ex, get_xlat_table_idx, GET_XLAT_TABLE_LEVEL_BASE,
      XLAT_ADDR_SHIFT, XLAT_TABLE_LEVEL_MAX, XLAT_TABLE_ENTRIES])

theorem action_ref_eq_of_intersecting (mm : mmap_region) (dty pa ebva level : Nat)
    (h1 : mm.base_va ≤ ebva + XLAT_BLOCK_SIZE level - 1)
    (h2 : ebva ≤ mm.base_va + mm.size - 1) :
    xlat_tables_map_region_action_ref mm dty pa ebva level =
      xlat_tables_map_region_action mm dty pa ebva level := by
  unfold xlat_tables_map_region_action_ref xlat_tables_map_region_action
  by_cases hful : mm.base_va ≤ ebva ∧ mm.base_va + mm.size - 1 ≥ ebva + XLAT_BLOCK_SIZE level - 1
  · rw [if_pos hful, if_pos hful]
  · rw [if_neg hful, if_neg hful, if_pos ⟨h1, h2⟩, if_pos (Or.inl h1)]

theorem map_region_ref_eq_fuel : ∀ fuel : Nat,
    (∀ (s : tt_state) (mm : mmap_region) (tbva : Nat) (table : Option Nat)
       (entries level bl xn : Nat),
       (XLAT_TABLE_LEVEL_MAX + 1 - level) * 514 + entries + 1 ≤ fuel →
       1 ≤ mm.size →
       tbva ≤ mm.base_va + mm.size - 1 →
       xlat_tables_map_region_ref s mm tbva table entries level bl xn =
         xlat_tables_map_region s mm tbva table entries level bl xn) ∧
    (∀ (s : tt_state) (mm : mmap_region) (tbva : Nat) (table : Option Nat)
       (entries level bl xn idx idx_va : Nat),
       (XLAT_TABLE_LEVEL_MAX + 1 - level) * 514 + (entries - idx) ≤ fuel →
       1 ≤ mm.size →
       idx_va ≤ mm.base_va + mm.size - 1 →
       mm.base_va ≤ idx_va + XLAT_BLOCK_SIZE level - 1 →
       xlat_tables_map_loop_ref s mm tbva table entries level bl xn idx idx_va =
         xlat_tables_map_loop s mm tbva table entries level bl xn idx idx_va) := by
  intro fuel
  induction fuel with
  | zero =>
    constructor
    · intro s mm tbva table entries level bl xn hfuel
      omega
    · intro s mm tbva table entries level bl xn idx idx_va hfuel hs h1 h2
      have hlvl : ¬ level ≤ XLAT_TABLE_LEVEL_MAX := by
        unfold XLAT_TABLE_LEVEL_MAX at *
        omega
      rw [xlat_tables_map_loop_ref.eq_def, xlat_tables_map_loop.eq_def,
        dif_neg hlvl, dif_neg hlvl]
  | succ n ih =>
    obtain ⟨ihr, ihl⟩ := ih
    constructor
    · intro s mm tbva table entries level bl xn hfuel hs hle
      rw [xlat_tables_map_region_ref.eq_def, xlat_tables_map_region.eq_def]
      by_cases hlvl : level ≤ XLAT_TABLE_LEVEL_MAX
      · rw [dif_pos hlvl, dif_pos hlvl]
        dsimp only
        have hbs : 0 < XLAT_BLOCK_SIZE level := Nat.pos_pow_of_pos _ (by norm_num)
        by_cases hgt : mm.base_va > tbva
        · rw [if_pos hgt]
          dsimp only
          apply ihl
          · have hsub := Nat.sub_le entries
              ((mm.base_va / XLAT_BLOCK_SIZE level * XLAT_BLOCK_SIZE level - tbva) /
                XLAT_BLOCK_SIZE level)
            omega
          · exact hs
          · have hdm := Nat.div_mul_le_self mm.base_va (XLAT_BLOCK_SIZE level)
            omega
          · have hdm := Nat.div_add_mod mm.base_va (XLAT_BLOCK_SIZE level)
            have hmod := Nat.mod_lt mm.base_va hbs
            have hcomm : mm.base_va / XLAT_BLOCK_SIZE level * XLAT_BLOCK_SIZE level =
                XLAT_BLOCK_SIZE level * (mm.base_va / XLAT_BLOCK_SIZE level) :=
              Nat.mul_comm _ _
            omega
        · rw [if_neg hgt]
          dsimp only
          apply ihl
          · have hsub := Nat.sub_le entries 0
            omega
          · exact hs
          · exact hle
          · omega
      · rw [dif_neg hlvl, dif_neg hlvl]
    · intro s mm tbva table entries level bl xn idx idx_va hfuel hs h1 h2
      rw [xlat_tables_map_loop_ref.eq_def, xlat_tables_map_loop.eq_def]
      by_cases hlvl : level ≤ XLAT_TABLE_LEVEL_MAX
      · rw [dif_pos hlvl, dif_pos hlvl]
        by_cases hidx : idx < entries
        · rw [dif_pos hidx, dif_pos hidx]
          dsimp only
          rw [action_ref_eq_of_intersecting mm _ _ _ _ h2 h1]
          have hbs : 0 < XLAT_BLOCK_SIZE level := Nat.pos_pow_of_pos _ (by norm_num)
          rcases haction : xlat_tables_map_region_action mm
              (desc_type (tt_read s table idx))
              (mm.base_pa + idx_va - mm.base_va) idx_va level with - | - | - | -
          · -- ACTION_NONE
            dsimp only
            by_cases hbr : mm.base_va + mm.size - 1 ≤ idx_va + XLAT_BLOCK_SIZE level
            · rw [if_pos hbr, if_pos hbr]
            · rw [if_neg hbr, if_neg hbr]
              apply ihl <;> omega
          · -- ACTION_WRITE_BLOCK_ENTRY
            dsimp only
            by_cases hbr : mm.base_va + mm.size - 1 ≤ idx_va + XLAT_BLOCK_SIZE level
            · rw [if_pos hbr, if_pos hbr]
            · rw [if_neg hbr, if_neg hbr]
              apply ihl <;> omega
          · -- ACTION_CREATE_NEW_TABLE
            dsimp only
            rcases hget : xlat_table_get_empty s with - | t
            · rfl
            · dsimp only
              have hrec := ihr (tt_write s table idx (table_desc_for t)) mm idx_va
                (some t) XLAT_TABLE_ENTRIES (level + 1) bl xn
                (by unfold XLAT_TABLE_ENTRIES XLAT_TABLE_LEVEL_MAX at *; omega)
                hs h1
              rw [hrec]
              by_cases hr2 : (xlat_tables_map_region (tt_write s table idx (table_desc_for t))
                  mm idx_va (some t) XLAT_TABLE_ENTRIES (level + 1) bl xn).2 ≠
                  idx_va + XLAT_BLOCK_SIZE level - 1
              · rw [if_pos hr2, if_pos hr2]
              · rw [if_neg hr2, if_neg hr2]
                by_cases hbr : mm.base_va + mm.size - 1 ≤ idx_va + XLAT_BLOCK_SIZE level
                · rw [if_pos hbr, if_pos hbr]
                · rw [if_neg hbr, if_neg hbr]
                  apply ihl <;> omega
          · -- ACTION_RECURSE_INTO_TABLE
            dsimp only
            have hrec := ihr s mm idx_va
              (some (table_of_desc (tt_read s table idx))) XLAT_TABLE_ENTRIES
              (level + 1) bl xn
              (by unfold XLAT_TABLE_ENTRIES XLAT_TABLE_LEVEL_MAX at *; omega)
              hs h1
            rw [hrec]
            by_cases hr2 : (xlat_tables_map_region s mm idx_va
                (some (table_of_desc (tt_read s table idx))) XLAT_TABLE_ENTRIES
                (level + 1) bl xn).2 ≠ idx_va + XLAT_BLOCK_SIZE level - 1
            · rw [if_pos hr2, if_pos hr2]
            · rw [if_neg hr2, if_neg hr2]
              by_cases hbr : mm.base_va + mm.size - 1 ≤ idx_va + XLAT_BLOCK_SIZE level
              · rw [if_pos hbr, if_pos hbr]
              · rw [if_neg hbr, if_neg hbr]
                apply ihl <;> omega
        · rw [dif_neg hidx, dif_neg hidx]
      · rw [dif_neg hlvl, dif_neg hlvl]

/-- Claim C4: For every table entry, the disjunctive overlap test used by
`xlat_tables_map_region_action` classifies the entry exactly as the tight
intersects-but-not-contained predicate of the reference variant does, for
every entry whose VA interval intersects the region's VA interval — which
is the case for every entry index that the builder's loop actually visits
(the visit invariants `table_idx_va ≤ region end` and
`region base ≤ entry end` are carried through the second conjunct); hence
the builder with the disjunctive predicate computes exactly the same tree
and return value as the reference builder using the tight predicate, for
every call whose table base VA does not lie beyond the region's end
(as at every call site). -/
theorem disjunctive_overlap_equiv :
    (∀ (mm : mmap_region) (dty pa ebva level : Nat),
      mm.base_va ≤ ebva + XLAT_BLOCK_SIZE level - 1 →
      ebva ≤ mm.base_va + mm.size - 1 →
      xlat_tables_map_region_action mm dty pa ebva level =
        xlat_tables_map_region_action_ref mm dty pa ebva level) ∧
    (∀ (s : tt_state) (mm : mmap_region) (tbva : Nat) (table : Option Nat)
       (entries level bl xn : Nat),
      1 ≤ mm.size → tbva ≤ mm.base_va + mm.size - 1 →
      xlat_tables_map_region s mm tbva table entries level bl xn =
        xlat_tables_map_region_ref s mm tbva table entries level bl xn) := by
  constructor
  · intro mm dty pa ebva level h1 h2
    exact (action_ref_eq_of_intersecting mm dty pa ebva level h1 h2).symm
  · intro s mm tbva table entries level bl xn hs hle
    exact ((map_region_ref_eq_fuel
      ((XLAT_TABLE_LEVEL_MAX + 1 - level) * 514 + entries + 1)).1
      s mm tbva table entries level bl xn (Nat.le_refl _) hs hle).symm

/-- Witness for `disjunctive_overlap_equiv`: the two builders agree on
mapping a one-page region into the empty context `ctx_ex`. -/
theorem disjunctive_overlap_equiv_witness :
    xlat_tables_map_region_action mm_page 0 0 0 2 =
      xlat_tables_map_region_action_ref mm_page 0 0 0 2 ∧
    xlat_tables_map_region ctx_ex.tt mm_page 0 none 4 1 1 (2 ^ 54) =
      xlat_tables_map_region_ref ctx_ex.tt mm_page 0 none 4 1 1 (2 ^ 54) :=
  ⟨disjunctive_overlap_equiv.1 mm_page 0 0 0 2
      (by norm_num [mm_page, XLAT_BLOCK_SIZE, XLAT_ADDR_SHIFT, XLAT_TABLE_LEVEL_MAX])
      (by norm_num [mm_page]),
   disjunctive_overlap_equiv.2 ctx_ex.tt mm_page 0 none 4 1 1 (2 ^ 54)
      (by norm_num [mm_page]) (by norm_num [mm_page])⟩

/-! ## Action characterization helpers -/

theorem act_covered_l3 (mm : mmap_region) (dty pa va level : Nat)
    (h3 : level = 3)
    (hcov : mm.base_va ≤ va ∧ mm.base_va + mm.size - 1 ≥ va + XLAT_BLOCK_SIZE level - 1)
    (hd : dty ≠ PAGE_DESC) :
    xlat_tables_map_region_action mm dty pa va level = ACTION_WRITE_BLOCK_ENTRY := by
  subst h3
  unfold xlat_tables_map_region_action
  dsimp only
  rw [if_pos hcov, if_pos rfl, if_neg hd]

theorem act_partial_inv (mm : mmap_region) (pa va level : Nat)
    (hncov : ¬ (mm.base_va ≤ va ∧ mm.base_va + mm.size - 1 ≥ va + XLAT_BLOCK_SIZE level - 1))
    (hint : mm.base_va ≤ va + XLAT_BLOCK_SIZE level - 1 ∨ mm.base_va + mm.size - 1 ≥ va) :
    xlat_tables_map_region_action mm INVALID_DESC pa va level = ACTION_CREATE_NEW_TABLE := by
  unfold xlat_tables_map_region_action
  dsimp only
  rw [if_neg hncov, if_pos hint, if_pos rfl]

theorem act_partial_tab (mm : mmap_region) (dty pa va level : Nat)
    (hncov : ¬ (mm.base_va ≤ va ∧ mm.base_va + mm.size - 1 ≥ va + XLAT_BLOCK_SIZE level - 1))
    (hint : mm.base_va ≤ va + XLAT_BLOCK_SIZE level - 1 ∨ mm.base_va + mm.size - 1 ≥ va)
    (hd : dty ≠ INVALID_DESC) :
    xlat_tables_map_region_action mm dty pa va level = ACTION_RECURSE_INTO_TABLE := by
  unfold xlat_tables_map_region_action
  dsimp only
  rw [if_neg hncov, if_pos hint, if_neg hd]

theorem act_covered_inv (mm : mmap_region) (pa va level : Nat)
    (h3 : level ≠ 3)
    (hcov : mm.base_va ≤ va ∧ mm.base_va + mm.size - 1 ≥ va + XLAT_BLOCK_SIZE level - 1) :
    xlat_tables_map_region_action mm INVALID_DESC pa va level =
      (if pa % XLAT_BLOCK_SIZE level ≠ 0 ∨ level < MIN_LVL_BLOCK_DESC ∨
          mm.granularity < XLAT_BLOCK_SIZE level
       then ACTION_CREATE_NEW_TABLE else ACTION_WRITE_BLOCK_ENTRY) := by
  unfold xlat_tables_map_region_action
  dsimp only
  rw [if_pos hcov, if_neg h3, if_neg (by decide : ¬ (INVALID_DESC = TABLE_DESC)),
    if_pos rfl]

/-! ## Alignment helpers -/

theorem mod4096_of_bs (va level : Nat) (hl : level ≤ 3)
    (hva : va % XLAT_BLOCK_SIZE level = 0) : va % 4096 = 0 := by
  have hd : (4096 : Nat) ∣ XLAT_BLOCK_SIZE level :=
    Nat.dvd_of_mod_eq_zero (bs_page_dvd level hl)
  calc va % 4096 = va % XLAT_BLOCK_SIZE level % 4096 :=
        (Nat.mod_mod_of_dvd va hd).symm
    _ = 0 := by rw [hva]

theorem bs_align_succ (va level : Nat) (hl : level < 3)
    (hva : va % XLAT_BLOCK_SIZE level = 0) :
    va % XLAT_BLOCK_SIZE (level + 1) = 0 := by
  have hd : XLAT_BLOCK_SIZE (level + 1) ∣ XLAT_BLOCK_SIZE level :=
    ⟨512, by rw [bs_succ level hl]; ring⟩
  calc va % XLAT_BLOCK_SIZE (level + 1)
      = va % XLAT_BLOCK_SIZE level % XLAT_BLOCK_SIZE (level + 1) :=
        (Nat.mod_mod_of_dvd va hd).symm
    _ = 0 := by rw [hva]; exact Nat.zero_mod _

/-! ## The map/unmap inversion lemma -/

set_option maxHeartbeats 4000000 in
theorem map_unmap_fuel : ∀ fuel : Nat,
    (∀ (s0 : tt_state) (mm : mmap_region) (tbva : Nat) (r : Option Nat)
       (entries level bl xn : Nat) (s1 : tt_state) (ret : Nat),
      (XLAT_TABLE_LEVEL_MAX + 1 - level) * 514 + entries + 1 ≤ fuel →
      level ≤ XLAT_TABLE_LEVEL_MAX →
      bl ≤ level →
      1 ≤ entries →
      tbva % XLAT_BLOCK_SIZE level = 0 →
      tbva ≤ mm.base_va + mm.size - 1 →
      mm.base_va ≤ tbva + entries * XLAT_BLOCK_SIZE level - 1 →
      mm.base_va % PAGE_SIZE = 0 →
      mm.base_pa % PAGE_SIZE = 0 →
      mm.size % PAGE_SIZE = 0 →
      1 ≤ mm.size →
      xn % 4 = 0 →
      s0.tables_mapped_regions.size = s0.tables.size →
      s0.tables.size ≤ 2 ^ 30 →
      (∀ t, t < s0.tables.size → (tt_pool s0 t).size = XLAT_TABLE_ENTRIES) →
      (r = none → entries ≤ s0.base_table.size) →
      (∀ t, r = some t → t < s0.tables.size ∧ entries = XLAT_TABLE_ENTRIES) →
      (r ≠ none → bl < level) →
      range_clear s0 mm.base_va (mm.base_va + mm.size - 1) r tbva entries level →
      (clear_refs s0 mm.base_va (mm.base_va + mm.size - 1) r tbva entries level).Nodup →
      (∀ t, r = some t →
        t ∉ clear_refs s0 mm.base_va (mm.base_va + mm.size - 1) r tbva entries level) →
      tt_free_empty s0 →
      xlat_tables_map_region s0 mm tbva r entries level bl xn = (s1, ret) →
      ret % PAGE_SIZE = PAGE_SIZE - 1 →
      (ret = min (mm.base_va + mm.size - 1) (tbva + entries * XLAT_BLOCK_SIZE level - 1) ∧
       (s1.base_table.size = s0.base_table.size ∧
        s1.tables.size = s0.tables.size ∧
        s1.tables_mapped_regions.size = s0.tables_mapped_regions.size ∧
        ∀ t, (tt_pool s1 t).size = (tt_pool s0 t).size) ∧
       (r ≠ none → s1.base_table = s0.base_table) ∧
       (∀ t, r ≠ some t →
         ¬ map_ft s0 s1 (clear_refs s0 mm.base_va (mm.base_va + mm.size - 1) r tbva entries level) t →
         tt_pool s1 t = tt_pool s0 t) ∧
       (∀ t, r ≠ some t →
         ¬ map_ft s0 s1 (clear_refs s0 mm.base_va (mm.base_va + mm.size - 1) r tbva entries level) t →
         tt_cnt s1 t = tt_cnt s0 t) ∧
       (∀ t, r = some t → tt_cnt s1 t = tt_cnt s0 t + 1) ∧
       (∀ t, tt_cnt s0 t ≤ tt_cnt s1 t) ∧
       (∀ (u u2 : tt_state),
         (∀ j, j < entries → tt_read u r j = tt_read s1 r j) →
         (∀ t, map_ft s0 s1 (clear_refs s0 mm.base_va (mm.base_va + mm.size - 1) r tbva entries level) t →
           tt_pool u t = tt_pool s1 t ∧ tt_cnt u t = tt_cnt s1 t) →
         (∀ t, r = some t → tt_pool u t = tt_pool s1 t ∧ tt_cnt u t = tt_cnt s1 t) →
         u.tables.size = s0.tables.size →
         u.tables_mapped_regions.size = s0.tables_mapped_regions.size →
         (∀ t, t < u.tables.size → (tt_pool u t).size = XLAT_TABLE_ENTRIES) →
         (r = none → entries ≤ u.base_table.size) →
         xlat_tables_unmap_region u mm tbva r entries level bl = u2 →
         ((∀ j, j < entries → tt_read u2 r j = tt_read s0 r j) ∧
          (∀ t, map_ft s0 s1 (clear_refs s0 mm.base_va (mm.base_va + mm.size - 1) r tbva entries level) t →
            tt_pool u2 t = tt_pool s0 t ∧ tt_cnt u2 t = tt_cnt s0 t) ∧
          (∀ t, r = some t → tt_pool u2 t = tt_pool s0 t ∧ tt_cnt u2 t = tt_cnt s0 t) ∧
          (∀ t, r ≠ some t →
            ¬ map_ft s0 s1 (clear_refs s0 mm.base_va (mm.base_va + mm.size - 1) r tbva entries level) t →
            tt_pool u2 t = tt_pool u t) ∧
          (∀ t, r ≠ some t →
            ¬ map_ft s0 s1 (clear_refs s0 mm.base_va (mm.base_va + mm.size - 1) r tbva entries level) t →
            tt_cnt u2 t = tt_cnt u t) ∧
          (r ≠ none → u2.base_table = u.base_table) ∧
          (u2.base_table.size = u.base_table.size ∧
           u2.tables.size = u.tables.size ∧
           u2.tables_mapped_regions.size = u.tables_mapped_regions.size ∧
           ∀ t, (tt_pool u2 t).size = (tt_pool u t).size)))) ) ∧
    (∀ (s0 : tt_state) (mm : mmap_region) (tbva : Nat) (r : Option Nat)
       (entries level bl xn idx va : Nat) (s1 : tt_state) (ret : Nat),
      (XLAT_TABLE_LEVEL_MAX + 1 - level) * 514 + (entries - idx) ≤ fuel →
      level ≤ XLAT_TABLE_LEVEL_MAX →
      bl ≤ level →
      1 ≤ entries →
      idx ≤ entries →
      va = tbva + idx * XLAT_BLOCK_SIZE level →
      va % XLAT_BLOCK_SIZE level = 0 →
      va ≤ mm.base_va + mm.size - 1 →
      mm.base_va ≤ va + XLAT_BLOCK_SIZE level - 1 →
      mm.base_va % PAGE_SIZE = 0 →
      mm.base_pa % PAGE_SIZE = 0 →
      mm.size % PAGE_SIZE = 0 →
      1 ≤ mm.size →
      xn % 4 = 0 →
      s0.tables_mapped_regions.size = s0.tables.size →
      s0.tables.size ≤ 2 ^ 30 →
      (∀ t, t < s0.tables.size → (tt_pool s0 t).size = XLAT_TABLE_ENTRIES) →
      (r = none → entries ≤ s0.base_table.size) →
      (∀ t, r = some t → t < s0.tables.size ∧ entries = XLAT_TABLE_ENTRIES) →
      (∀ t, r = some t → 1 ≤ tt_cnt s0 t) →
      range_clear_loop s0 mm.base_va (mm.base_va + mm.size - 1) r tbva entries level idx →
      (clear_refs_loop s0 mm.base_va (mm.base_va + mm.size - 1) r tbva entries level idx).Nodup →
      (∀ t, r = some t →
        t ∉ clear_refs_loop s0 mm.base_va (mm.base_va + mm.size - 1) r tbva entries level idx) →
      tt_free_empty s0 →
      xlat_tables_map_loop s0 mm tbva r entries level bl xn idx va = (s1, ret) →
      ret % PAGE_SIZE = PAGE_SIZE - 1 →
      (ret = min (mm.base_va + mm.size - 1) (tbva + entries * XLAT_BLOCK_SIZE level - 1) ∧
       (s1.base_table.size = s0.base_table.size ∧
        s1.tables.size = s0.tables.size ∧
        s1.tables_mapped_regions.size = s0.tables_mapped_regions.size ∧
        ∀ t, (tt_pool s1 t).size = (tt_pool s0 t).size) ∧
       (∀ j, j < idx ∨ entries ≤ j → tt_read s1 r j = tt_read s0 r j) ∧
       (r ≠ none → s1.base_table = s0.base_table) ∧
       (∀ t, r ≠ some t →
         ¬ map_ft s0 s1 (clear_refs_loop s0 mm.base_va (mm.base_va + mm.size - 1) r tbva entries level idx) t →
         tt_pool s1 t = tt_pool s0 t) ∧
       (∀ t, ¬ map_ft s0 s1 (clear_refs_loop s0 mm.base_va (mm.base_va + mm.size - 1) r tbva entries level idx) t →
         tt_cnt s1 t = tt_cnt s0 t) ∧
       (∀ t, tt_cnt s0 t ≤ tt_cnt s1 t) ∧
       (∀ (u u2 : tt_state),
         (∀ j, idx ≤ j → j < entries → tt_read u r j = tt_read s1 r j) →
         (∀ t, map_ft s0 s1 (clear_refs_loop s0 mm.base_va (mm.base_va + mm.size - 1) r tbva entries level idx) t →
           tt_pool u t = tt_pool s1 t ∧ tt_cnt u t = tt_cnt s1 t) →
         u.tables.size = s0.tables.size →
         u.tables_mapped_regions.size = s0.tables_mapped_regions.size →
         (∀ t, t < u.tables.size → (tt_pool u t).size = XLAT_TABLE_ENTRIES) →
         (r = none → entries ≤ u.base_table.size) →
         xlat_tables_unmap_loop u mm tbva r entries level bl idx va = u2 →
         ((∀ j, idx ≤ j → j < entries → tt_read u2 r j = tt_read s0 r j) ∧
          (∀ j, j < idx ∨ entries ≤ j → tt_read u2 r j = tt_read u r j) ∧
          (∀ t, map_ft s0 s1 (clear_refs_loop s0 mm.base_va (mm.base_va + mm.size - 1) r tbva entries level idx) t →
            tt_pool u2 t = tt_pool s0 t ∧ tt_cnt u2 t = tt_cnt s0 t) ∧
          (∀ t, r ≠ some t →
            ¬ map_ft s0 s1 (clear_refs_loop s0 mm.base_va (mm.base_va + mm.size - 1) r tbva entries level idx) t →
            tt_pool u2 t = tt_pool u t) ∧
          (∀ t, ¬ map_ft s0 s1 (clear_refs_loop s0 mm.base_va (mm.base_va + mm.size - 1) r tbva entries level idx) t →
            tt_cnt u2 t = tt_cnt u t) ∧
          (r ≠ none → u2.base_table = u.base_table) ∧
          (u2.base_table.size = u.base_table.size ∧
           u2.tables.size = u.tables.size ∧
           u2.tables_mapped_regions.size = u.tables_mapped_regions.size ∧
           ∀ t, (tt_pool u2 t).size = (tt_pool u t).size)))) ) := by
  intro fuel
  induction fuel with
  | zero =>
    constructor
    · intro s0 mm tbva r entries level bl xn s1 ret hf
      omega
    · intro s0 mm tbva r entries level bl xn idx va s1 ret hf hlvl
      unfold XLAT_TABLE_LEVEL_MAX at hlvl hf
      omega
  | succ n ih =>
    obtain ⟨ihr, ihl⟩ := ih
    constructor
    · intro s0 mm tbva r entries level bl xn s1 ret hf hlvl hbl hent htbal htble
        hrbe hrb4 hpa4 hsz4 hszpos hxn4 hszA hszB hszC hbase hsome hsomebl
        hclear hnd hnotin hfree hrun hmod
      have hB : 0 < XLAT_BLOCK_SIZE level := bs_pos level
      -- uniform description of the start index and VA
      have hstart : ∃ i v,
          ((if mm.base_va > tbva then
              (((mm.base_va / XLAT_BLOCK_SIZE level * XLAT_BLOCK_SIZE level) - tbva) /
                XLAT_BLOCK_SIZE level,
               mm.base_va / XLAT_BLOCK_SIZE level * XLAT_BLOCK_SIZE level)
            else ((0 : Nat), tbva)) = (i, v)) ∧
          v = tbva + i * XLAT_BLOCK_SIZE level ∧
          v % XLAT_BLOCK_SIZE level = 0 ∧
          v ≤ mm.base_va + mm.size - 1 ∧
          mm.base_va ≤ v + XLAT_BLOCK_SIZE level - 1 ∧
          i ≤ entries ∧
          (∀ j, j < i →
            tbva + j * XLAT_BLOCK_SIZE level + XLAT_BLOCK_SIZE level - 1 < mm.base_va) := by
        by_cases hgt : mm.base_va > tbva
        · refine ⟨_, _, by rw [if_pos hgt], ?_, ?_, ?_, ?_, ?_, ?_⟩
          all_goals
            have halle : mm.base_va / XLAT_BLOCK_SIZE level * XLAT_BLOCK_SIZE level ≤ mm.base_va :=
              Nat.div_mul_le_self _ _
            have hallg : mm.base_va < mm.base_va / XLAT_BLOCK_SIZE level * XLAT_BLOCK_SIZE level +
                XLAT_BLOCK_SIZE level := by
              have hdm := Nat.div_add_mod mm.base_va (XLAT_BLOCK_SIZE level)
              have hml := Nat.mod_lt mm.base_va hB
              have hcm : mm.base_va / XLAT_BLOCK_SIZE level * XLAT_BLOCK_SIZE level =
                  XLAT_BLOCK_SIZE level * (mm.base_va / XLAT_BLOCK_SIZE level) :=
                Nat.mul_comm _ _
              omega
            have hta : tbva ≤ mm.base_va / XLAT_BLOCK_SIZE level * XLAT_BLOCK_SIZE level := by
              have h1 : tbva / XLAT_BLOCK_SIZE level ≤ mm.base_va / XLAT_BLOCK_SIZE level :=
                Nat.div_le_div_right (Nat.le_of_lt hgt)
              have h2 := Nat.mul_le_mul_right (XLAT_BLOCK_SIZE level) h1
              have h3 : tbva / XLAT_BLOCK_SIZE level * XLAT_BLOCK_SIZE level = tbva :=
                Nat.div_mul_cancel (Nat.dvd_of_mod_eq_zero htbal)
              omega
            have hdv : ((mm.base_va / XLAT_BLOCK_SIZE level * XLAT_BLOCK_SIZE level) - tbva) /
                XLAT_BLOCK_SIZE level * XLAT_BLOCK_SIZE level =
                (mm.base_va / XLAT_BLOCK_SIZE level * XLAT_BLOCK_SIZE level) - tbva :=
              Nat.div_mul_cancel (Nat.dvd_sub'
                ⟨mm.base_va / XLAT_BLOCK_SIZE level, Nat.mul_comm _ _⟩
                (Nat.dvd_of_mod_eq_zero htbal))
          · omega
          · exact Nat.mul_mod_left _ _
          · omega
          · omega
          · -- i ≤ entries
            by_contra hc
            push_neg at hc
            have h1 : entries * XLAT_BLOCK_SIZE level ≤
                ((mm.base_va / XLAT_BLOCK_SIZE level * XLAT_BLOCK_SIZE level) - tbva) /
                XLAT_BLOCK_SIZE level * XLAT_BLOCK_SIZE level := by
              have := Nat.mul_le_mul_right (XLAT_BLOCK_SIZE level) (Nat.le_of_lt hc)
              omega
            omega
          · intro j hj
            have h1 : j * XLAT_BLOCK_SIZE level + XLAT_BLOCK_SIZE level ≤
                ((mm.base_va / XLAT_BLOCK_SIZE level * XLAT_BLOCK_SIZE level) - tbva) /
                XLAT_BLOCK_SIZE level * XLAT_BLOCK_SIZE level := by
              have h2 : j + 1 ≤ ((mm.base_va / XLAT_BLOCK_SIZE level * XLAT_BLOCK_SIZE level) - tbva) /
                  XLAT_BLOCK_SIZE level := hj
              have := Nat.mul_le_mul_right (XLAT_BLOCK_SIZE level) h2
              have hexp : (j + 1) * XLAT_BLOCK_SIZE level =
                  j * XLAT_BLOCK_SIZE level + XLAT_BLOCK_SIZE level := Nat.succ_mul _ _
              omega
            omega
        · push_neg at hgt
          refine ⟨0, tbva, by rw [if_neg (by omega)], by omega, htbal, htble,
            by omega, by omega, by omega⟩
      obtain ⟨idx₀, va₀, hpair, hva0, hvaal0, hvale0, hvage0, hidxle0, hout0⟩ := hstart
      have hskip := clear_skip idx₀ s0 mm.base_va (mm.base_va + mm.size - 1) r
        tbva entries level 0 hlvl (fun i h1 h2 => hout0 i (by omega))
      rw [show (0 : Nat) + idx₀ = idx₀ by omega] at hskip
      rw [xlat_tables_map_region.eq_def, dif_pos hlvl] at hrun
      dsimp only at hrun
      rw [hpair] at hrun
      dsimp only at hrun
      rw [range_clear.eq_def, if_pos hlvl] at hclear
      rw [clear_refs.eq_def, if_pos hlvl] at hnd hnotin
      -- refs at the start index
      have hrefs0 : clear_refs_loop s0 mm.base_va (mm.base_va + mm.size - 1) r
          tbva entries level idx₀ =
          clear_refs_loop s0 mm.base_va (mm.base_va + mm.size - 1) r tbva entries level 0 :=
        hskip.2.symm
      have hcrr : clear_refs s0 mm.base_va (mm.base_va + mm.size - 1) r tbva entries level =
          clear_refs_loop s0 mm.base_va (mm.base_va + mm.size - 1) r tbva entries level 0 := by
        rw [clear_refs.eq_def, if_pos hlvl]
      rcases r with - | t0
      · -- base table
        dsimp only at hrun
        rw [ite_self] at hrun
        have hL := ihl s0 mm tbva none entries level bl xn idx₀ va₀ s1 ret
          (by omega) hlvl hbl hent hidxle0 hva0 hvaal0 hvale0 hvage0 hrb4 hpa4
          hsz4 hszpos hxn4 hszA hszB hszC hbase (fun t h => Option.noConfusion h)
          (fun t h => Option.noConfusion h) (hskip.1.mp hclear)
          (by rw [hrefs0]; exact hnd)
          (fun t h => Option.noConfusion h) hfree hrun hmod
        obtain ⟨hret, hsz1, hown, hbase1, hpool1, hcnt1, hmono1, hunm⟩ := hL
        refine ⟨hret, hsz1, ?_, ?_, ?_, ?_, hmono1, ?_⟩
        · intro h
          exact absurd rfl h
        · intro t hne hnft
          rw [hcrr] at hnft
          exact hpool1 t hne (by rwa [hrefs0])
        · intro t hne hnft
          rw [hcrr] at hnft
          exact hcnt1 t (by rwa [hrefs0])
        · intro t h
          exact Option.noConfusion h
        · intro u u2 hru hrft hrself husz1 husz2 husz3 hubase hu2
          rw [xlat_tables_unmap_region.eq_def, dif_pos hlvl] at hu2
          dsimp only at hu2
          rw [hpair] at hu2
          dsimp only at hu2
          rw [ite_self] at hu2
          obtain ⟨q1, q2, q3, q4, q5, q6, q7⟩ := hunm u u2
            (fun j h1 h2 => hru j h2)
            (fun t ht => hrft t (by rw [hrefs0] at ht; rwa [← hcrr] at ht))
            husz1 husz2 husz3 hubase hu2
          refine ⟨?_, ?_, ?_, ?_, ?_, ?_, q7⟩
          · intro j hj
            by_cases hj0 : idx₀ ≤ j
            · exact q1 j hj0 hj
            · rw [q2 j (Or.inl (by omega)), hru j hj]
              exact hown j (Or.inl (by omega))
          · intro t ht
            rw [hcrr] at ht
            exact q3 t (by rwa [hrefs0])
          · intro t h
            exact Option.noConfusion h
          · intro t hne hnft
            rw [hcrr] at hnft
            exact q4 t hne (by rwa [hrefs0])
          · intro t hne hnft
            rw [hcrr] at hnft
            exact q5 t (by rwa [hrefs0])
          · intro h
            exact absurd rfl h
      · -- pool table t0
        have hblt : bl < level := hsomebl (by simp)
        dsimp only at hrun
        rw [if_pos hblt] at hrun
        obtain ⟨ht0lt, hent512⟩ := hsome t0 rfl
        have ht0cnt : t0 < s0.tables_mapped_regions.size := by
          rw [hszA]
          exact ht0lt
        have ht0ne : ∀ t, t ∈ clear_refs_loop s0 mm.base_va (mm.base_va + mm.size - 1)
            (some t0) tbva entries level 0 → t ≠ t0 := by
          intro t ht he
          exact hnotin t0 rfl (he ▸ ht)
        have hframe := (clear_frame_fuel
            ((XLAT_TABLE_LEVEL_MAX + 1 - level) * 514 + (entries - 0))).2
          s0 (xlat_table_inc_regions_count s0 t0) mm.base_va
          (mm.base_va + mm.size - 1) (some t0) tbva entries level 0
          (Nat.le_refl _)
          (fun j h1 h2 => tt_inc_read s0 t0 (some t0) j)
          (fun t ht => ⟨tt_inc_pool s0 t0 t,
            tt_cnt_inc_other s0 t0 t (fun he => ht0ne t ht he.symm)⟩)
          rfl
        have hskip2 := clear_skip idx₀ (xlat_table_inc_regions_count s0 t0)
          mm.base_va (mm.base_va + mm.size - 1) (some t0) tbva entries level 0
          hlvl (fun i h1 h2 => hout0 i (by omega))
        rw [show (0 : Nat) + idx₀ = idx₀ by omega] at hskip2
        have hrefs2 : clear_refs_loop (xlat_table_inc_regions_count s0 t0)
            mm.base_va (mm.base_va + mm.size - 1) (some t0) tbva entries level idx₀ =
            clear_refs_loop s0 mm.base_va (mm.base_va + mm.size - 1) (some t0)
              tbva entries level 0 := by
          rw [← hskip2.2, hframe.1]
        have hclear2 : range_clear_loop (xlat_table_inc_regions_count s0 t0)
            mm.base_va (mm.base_va + mm.size - 1) (some t0) tbva entries level idx₀ :=
          hskip2.1.mp (hframe.2.mpr hclear)
        have hfree2 : tt_free_empty (xlat_table_inc_regions_count s0 t0) := by
          intro t htlt hcnt0 j
          have hcnt0a : tt_cnt (xlat_table_inc_regions_count s0 t0) t = 0 := hcnt0
          rcases eq_or_ne t t0 with rfl | hne
          · rw [tt_cnt_inc_self s0 t ht0cnt] at hcnt0a
            omega
          · rw [tt_cnt_inc_other s0 t0 t (fun he => hne he.symm)] at hcnt0a
            exact hfree t htlt hcnt0a j
        have hiA : (xlat_table_inc_regions_count s0 t0).tables_mapped_regions.size =
            (xlat_table_inc_regions_count s0 t0).tables.size := by
          rw [tt_inc_cnt_size, tt_inc_tables]
          exact hszA
        have hL := ihl (xlat_table_inc_regions_count s0 t0) mm tbva (some t0)
          entries level bl xn idx₀ va₀ s1 ret (by omega) hlvl hbl hent hidxle0
          hva0 hvaal0 hvale0 hvage0 hrb4 hpa4 hsz4 hszpos hxn4 hiA
          (by rw [tt_inc_tables]; exact hszB)
          (by rw [tt_inc_tables]; exact hszC)
          (fun h => Option.noConfusion h)
          (fun t ht => by
            cases ht
            rw [tt_inc_tables]
            exact ⟨ht0lt, hent512⟩)
          (fun t ht => by
            cases ht
            rw [tt_cnt_inc_self s0 t0 ht0cnt]
            omega)
          hclear2 (by rw [hrefs2]; exact hnd)
          (fun t ht => by cases ht; rw [hrefs2]; exact hnotin t0 rfl)
          hfree2 hrun hmod
        obtain ⟨hret, hsz1, hown, hbase1, hpool1, hcnt1, hmono1, hunm⟩ := hL
        have hftiff : ∀ t, t ≠ t0 →
            (map_ft (xlat_table_inc_regions_count s0 t0) s1
              (clear_refs_loop (xlat_table_inc_regions_count s0 t0) mm.base_va
                (mm.base_va + mm.size - 1) (some t0) tbva entries level idx₀) t ↔
             map_ft s0 s1 (clear_refs_loop s0 mm.base_va (mm.base_va + mm.size - 1)
                (some t0) tbva entries level 0) t) := by
          intro t ht
          unfold map_ft
          rw [hrefs2, tt_cnt_inc_other s0 t0 t (fun he => ht he.symm)]
        have hnft0 : ¬ map_ft (xlat_table_inc_regions_count s0 t0) s1
            (clear_refs_loop (xlat_table_inc_regions_count s0 t0) mm.base_va
              (mm.base_va + mm.size - 1) (some t0) tbva entries level idx₀) t0 := by
          rintro (hmem | ⟨hz, -⟩)
          · rw [hrefs2] at hmem
            exact ht0ne t0 hmem rfl
          · rw [tt_cnt_inc_self s0 t0 ht0cnt] at hz
            omega
        have hcself : tt_cnt s1 t0 = tt_cnt s0 t0 + 1 := by
          rw [hcnt1 t0 hnft0, tt_cnt_inc_self s0 t0 ht0cnt]
        refine ⟨hret, ?_, ?_, ?_, ?_, ?_, ?_, ?_⟩
        · refine ⟨?_, ?_, ?_, ?_⟩
          · rw [hsz1.1, tt_inc_base]
          · rw [hsz1.2.1, tt_inc_tables]
          · rw [hsz1.2.2.1, tt_inc_cnt_size]
          · intro t
            rw [hsz1.2.2.2 t, tt_inc_pool]
        · intro h
          rw [hbase1 (by simp), tt_inc_base]
        · intro t hne hnft
          have hne2 : t ≠ t0 := fun he => hne (he ▸ rfl)
          rw [hcrr] at hnft
          rw [hpool1 t hne (fun h => hnft ((hftiff t hne2).mp h)), tt_inc_pool]
        · intro t hne hnft
          have hne2 : t ≠ t0 := fun he => hne (he ▸ rfl)
          rw [hcrr] at hnft
          rw [hcnt1 t (fun h => hnft ((hftiff t hne2).mp h)),
            tt_cnt_inc_other s0 t0 t (fun he => hne2 he.symm)]
        · intro t ht
          cases ht
          exact hcself
        · intro t
          rcases eq_or_ne t t0 with rfl | hne
          · omega
          · have := hmono1 t
            rwa [tt_cnt_inc_other s0 t0 t (fun he => hne he.symm)] at this
        · intro u u2 hru hrft hrself husz1 husz2 husz3 hubase hu2
          rw [xlat_tables_unmap_region.eq_def, dif_pos hlvl] at hu2
          dsimp only at hu2
          rw [hpair] at hu2
          dsimp only at hu2
          rw [if_pos hblt] at hu2
          obtain ⟨q1, q2, q3, q4, q5, q6, q7⟩ := hunm u
            (xlat_tables_unmap_loop u mm tbva (some t0) entries level bl idx₀ va₀)
            (fun j h1 h2 => hru j h2)
            (fun t ht => by
              have hne : t ≠ t0 := by
                rintro rfl
                exact hnft0 ht
              refine hrft t ?_
              rw [hcrr]
              exact (hftiff t hne).mp ht)
            (by rw [husz1, tt_inc_tables])
            (by rw [husz2, tt_inc_cnt_size])
            husz3 (fun h => Option.noConfusion h) rfl
          have hUcntsz : t0 < (xlat_tables_unmap_loop u mm tbva (some t0) entries
              level bl idx₀ va₀).tables_mapped_regions.size := by
            rw [q7.2.2.1, husz2]
            exact ht0cnt
          have hu2read : ∀ j, tt_read u2 (some t0) j =
              tt_read (xlat_tables_unmap_loop u mm tbva (some t0) entries level bl
                idx₀ va₀) (some t0) j := by
            intro j
            rw [← hu2]
            exact tt_dec_read _ t0 (some t0) j
          have hreads0 : ∀ j, j < entries → tt_read u2 (some t0) j =
              tt_read s0 (some t0) j := by
            intro j hj
            rw [hu2read j]
            by_cases hj0 : idx₀ ≤ j
            · rw [q1 j hj0 hj]
              exact tt_inc_read s0 t0 (some t0) j
            · rw [q2 j (Or.inl (by omega)), hru j hj,
                hown j (Or.inl (by omega))]
              exact tt_inc_read s0 t0 (some t0) j
          have ht0pool : tt_pool u2 t0 = tt_pool s0 t0 ∧
              tt_cnt u2 t0 = tt_cnt s0 t0 := by
            constructor
            · apply arr_eq_of_getD
              · have h1 : (tt_pool u2 t0).size = (tt_pool u t0).size := by
                  rw [← hu2]
                  rw [show tt_pool (xlat_table_dec_regions_count
                      (xlat_tables_unmap_loop u mm tbva (some t0) entries level bl
                        idx₀ va₀) t0) t0 =
                      tt_pool (xlat_tables_unmap_loop u mm tbva (some t0) entries
                        level bl idx₀ va₀) t0 from tt_dec_pool _ t0 t0]
                  exact q7.2.2.2 t0
                rw [h1, hszC t0 ht0lt, husz3 t0 (by rw [husz1]; exact ht0lt)]
              · intro j
                by_cases hj : j < entries
                · have := hreads0 j hj
                  rw [tt_read_pool, tt_read_pool] at this
                  exact this
                · rw [arr_getD_eq, arr_getD_eq, getElem?_neg _ j (by
                    rw [← hu2]
                    rw [show tt_pool (xlat_table_dec_regions_count
                        (xlat_tables_unmap_loop u mm tbva (some t0) entries level bl
                          idx₀ va₀) t0) t0 =
                        tt_pool (xlat_tables_unmap_loop u mm tbva (some t0) entries
                          level bl idx₀ va₀) t0 from tt_dec_pool _ t0 t0,
                      q7.2.2.2 t0, husz3 t0 (by rw [husz1]; exact ht0lt)]
                    omega), getElem?_neg _ j (by
                    rw [hszC t0 ht0lt]
                    omega)]
            · rw [← hu2, tt_cnt_dec_self _ t0 hUcntsz, q5 t0 hnft0,
                (hrself t0 rfl).2, hcself]
              omega
          refine ⟨hreads0, ?_, ?_, ?_, ?_, ?_, ?_⟩
          · intro t ht
            rw [hcrr] at ht
            rcases eq_or_ne t t0 with rfl | hne
            · exact ht0pool
            · have hft2 := (hftiff t hne).mpr ht
              have hq3 := q3 t hft2
              constructor
              · rw [← hu2]
                rw [show tt_pool (xlat_table_dec_regions_count
                    (xlat_tables_unmap_loop u mm tbva (some t0) entries level bl
                      idx₀ va₀) t0) t =
                    tt_pool (xlat_tables_unmap_loop u mm tbva (some t0) entries
                      level bl idx₀ va₀) t from tt_dec_pool _ t0 t,
                  hq3.1, tt_inc_pool]
              · rw [← hu2, tt_cnt_dec_other _ t0 t (fun he => hne he.symm),
                  hq3.2, tt_cnt_inc_other s0 t0 t (fun he => hne he.symm)]
          · intro t ht
            cases ht
            exact ht0pool
          · intro t hne hnft
            have hne2 : t ≠ t0 := fun he => hne (he ▸ rfl)
            rw [hcrr] at hnft
            rw [← hu2]
            rw [show tt_pool (xlat_table_dec_regions_count
                (xlat_tables_unmap_loop u mm tbva (some t0) entries level bl
                  idx₀ va₀) t0) t =
                tt_pool (xlat_tables_unmap_loop u mm tbva (some t0) entries
                  level bl idx₀ va₀) t from tt_dec_pool _ t0 t]
            exact q4 t hne (fun h => hnft ((hftiff t hne2).mp h))
          · intro t hne hnft
            have hne2 : t ≠ t0 := fun he => hne (he ▸ rfl)
            rw [hcrr] at hnft
            rw [← hu2, tt_cnt_dec_other _ t0 t (fun he => hne2 he.symm)]
            exact q5 t (fun h => hnft ((hftiff t hne2).mp h))
          · intro h
            rw [← hu2, tt_dec_base]
            exact q6 (by simp)
          · refine ⟨?_, ?_, ?_, ?_⟩
            · rw [← hu2, tt_dec_base]
              exact q7.1
            · rw [← hu2, tt_dec_tables]
              exact q7.2.1
            · rw [← hu2, tt_dec_cnt_size]
              exact q7.2.2.1
            · intro t
              rw [← hu2]
              rw [show tt_pool (xlat_table_dec_regions_count
                  (xlat_tables_unmap_loop u mm tbva (some t0) entries level bl
                    idx₀ va₀) t0) t =
                  tt_pool (xlat_tables_unmap_loop u mm tbva (some t0) entries
                    level bl idx₀ va₀) t from tt_dec_pool _ t0 t]
              exact q7.2.2.2 t
    · intro s0 mm tbva r entries level bl xn idx va s1 ret hf hlvl hbl hent
        hidxe hva hvaal hvale hvage hrb4 hpa4 hsz4 hszpos hxn4 hszA hszB hszC
        hbase hsome hsomecnt hclear hnd hnotin hfree hrun hmod
      have hB : 0 < XLAT_BLOCK_SIZE level := bs_pos level
      have hbs4096 : XLAT_BLOCK_SIZE level % 4096 = 0 := bs_page_dvd level hlvl
      have hbsge : 4096 ≤ XLAT_BLOCK_SIZE level := bs_ge_page level hlvl
      have hva4096 : va % 4096 = 0 := mod4096_of_bs va level hlvl hvaal
      unfold PAGE_SIZE at hrb4 hpa4 hsz4 hmod
      have hre4096 : (mm.base_va + mm.size - 1) % 4096 = 4095 := by omega
      rw [xlat_tables_map_loop.eq_def, dif_pos hlvl] at hrun
      by_cases hidx : idx < entries
      swap
      · -- the loop has exhausted the table
        rw [dif_neg hidx] at hrun
        injection hrun with heqs heqr
        subst heqs
        subst heqr
        have hvapos : 4096 ≤ va := by omega
        have hidxeq : idx = entries := by omega
        have hrefsnil : clear_refs_loop s0 mm.base_va (mm.base_va + mm.size - 1) r
            tbva entries level idx = [] := by
          rw [clear_refs_loop.eq_def, if_pos hlvl, if_neg hidx]
        have hmul : entries * XLAT_BLOCK_SIZE level = idx * XLAT_BLOCK_SIZE level := by
          rw [hidxeq]
        refine ⟨?_, ⟨rfl, rfl, rfl, fun t => rfl⟩, fun j h => rfl, fun h => rfl,
          fun t h1 h2 => rfl, fun t h => rfl, fun t => Nat.le_refl _, ?_⟩
        · rw [show tbva + entries * XLAT_BLOCK_SIZE level - 1 = va - 1 by omega]
          exact (Nat.min_eq_right (by omega)).symm
        · intro u u2 hru hrft husz1 husz2 husz3 hubase hu2
          rw [xlat_tables_unmap_loop.eq_def, dif_pos hlvl, dif_neg hidx] at hu2
          subst hu2
          refine ⟨?_, fun j h => rfl, ?_, fun t h1 h2 => rfl, fun t h => rfl,
            fun h => rfl, rfl, rfl, rfl, fun t => rfl⟩
          · intro j h1 h2
            omega
          · intro t ht
            rcases ht with hm | ⟨hz, ho⟩
            · rw [hrefsnil] at hm
              exact absurd hm (List.not_mem_nil t)
            · omega
      · rw [dif_pos hidx] at hrun
        dsimp only at hrun
        rw [range_clear_loop.eq_def, if_pos hlvl, if_pos hidx] at hclear
        dsimp only at hclear
        rw [← hva] at hclear
        obtain ⟨hhead, hrest⟩ := hclear
        rw [if_pos ⟨hvage, hvale⟩] at hhead
        have hsplit : clear_refs_loop s0 mm.base_va (mm.base_va + mm.size - 1) r
            tbva entries level idx =
            (if ((mm.base_va ≤ va + XLAT_BLOCK_SIZE level - 1 ∧
                  va ≤ mm.base_va + mm.size - 1) ∧
                ¬(mm.base_va ≤ va ∧
                  va + XLAT_BLOCK_SIZE level - 1 ≤ mm.base_va + mm.size - 1)) ∧
                (level < XLAT_TABLE_LEVEL_MAX ∧
                 desc_type (tt_read s0 r idx) = TABLE_DESC) then
              table_of_desc (tt_read s0 r idx) ::
                clear_refs s0 mm.base_va (mm.base_va + mm.size - 1)
                  (some (table_of_desc (tt_read s0 r idx))) va XLAT_TABLE_ENTRIES
                  (level + 1)
            else []) ++
            clear_refs_loop s0 mm.base_va (mm.base_va + mm.size - 1) r tbva
              entries level (idx + 1) := by
          rw [clear_refs_loop.eq_def, if_pos hlvl, if_pos hidx]
          dsimp only
          rw [← hva]
        have he4096 : (va + XLAT_BLOCK_SIZE level - 1) % 4096 = 4095 := by omega
        have hemul : va + XLAT_BLOCK_SIZE level ≤ tbva + entries * XLAT_BLOCK_SIZE level := by
          have h1 := Nat.mul_le_mul_right (XLAT_BLOCK_SIZE level)
            (show idx + 1 ≤ entries by omega)
          have h2 : (idx + 1) * XLAT_BLOCK_SIZE level =
              idx * XLAT_BLOCK_SIZE level + XLAT_BLOCK_SIZE level := Nat.succ_mul _ _
          omega
        have hmain :
            (tt_read s0 r idx = 0 ∧
             (mm.base_va ≤ va ∧
              va + XLAT_BLOCK_SIZE level - 1 ≤ mm.base_va + mm.size - 1) ∧
             xlat_tables_map_region_action mm (desc_type (tt_read s0 r idx))
               (mm.base_pa + va - mm.base_va) va level = ACTION_WRITE_BLOCK_ENTRY) ∨
            (tt_read s0 r idx = 0 ∧ level < 3 ∧
             xlat_tables_map_region_action mm (desc_type (tt_read s0 r idx))
               (mm.base_pa + va - mm.base_va) va level = ACTION_CREATE_NEW_TABLE) ∨
            (¬(mm.base_va ≤ va ∧
               va + XLAT_BLOCK_SIZE level - 1 ≤ mm.base_va + mm.size - 1) ∧
             level < XLAT_TABLE_LEVEL_MAX ∧
             desc_type (tt_read s0 r idx) = TABLE_DESC ∧
             table_of_desc (tt_read s0 r idx) < s0.tables.size ∧
             table_desc_for (table_of_desc (tt_read s0 r idx)) = tt_read s0 r idx ∧
             1 ≤ s0.tables_mapped_regions.getD (table_of_desc (tt_read s0 r idx)) 0 ∧
             range_clear s0 mm.base_va (mm.base_va + mm.size - 1)
               (some (table_of_desc (tt_read s0 r idx))) va XLAT_TABLE_ENTRIES
               (level + 1) ∧
             xlat_tables_map_region_action mm (desc_type (tt_read s0 r idx))
               (mm.base_pa + va - mm.base_va) va level = ACTION_RECURSE_INTO_TABLE) := by
          by_cases hcov : mm.base_va ≤ va ∧
              va + XLAT_BLOCK_SIZE level - 1 ≤ mm.base_va + mm.size - 1
          · rw [if_pos hcov] at hhead
            rcases Nat.lt_or_ge level 3 with hl3 | hge
            · by_cases hgr : (mm.base_pa + va - mm.base_va) % XLAT_BLOCK_SIZE level ≠ 0 ∨
                  level < MIN_LVL_BLOCK_DESC ∨ mm.granularity < XLAT_BLOCK_SIZE level
              · refine Or.inr (Or.inl ⟨hhead, hl3, ?_⟩)
                rw [hhead, show desc_type 0 = INVALID_DESC from rfl,
                  act_covered_inv mm (mm.base_pa + va - mm.base_va) va level
                    (by omega) ⟨hcov.1, hcov.2⟩, if_pos hgr]
              · refine Or.inl ⟨hhead, hcov, ?_⟩
                rw [hhead, show desc_type 0 = INVALID_DESC from rfl,
                  act_covered_inv mm (mm.base_pa + va - mm.base_va) va level
                    (by omega) ⟨hcov.1, hcov.2⟩, if_neg hgr]
            · refine Or.inl ⟨hhead, hcov, ?_⟩
              exact act_covered_l3 mm _ _ _ level
                (by unfold XLAT_TABLE_LEVEL_MAX at hlvl; omega) ⟨hcov.1, hcov.2⟩
                (by rw [hhead]; decide)
          · rw [if_neg hcov] at hhead
            have hl3 : level < 3 := by
              by_contra hc
              have hbseq : XLAT_BLOCK_SIZE level = 4096 := by
                rw [show level = 3 by unfold XLAT_TABLE_LEVEL_MAX at hlvl; omega]
                exact bs_three
              rw [hbseq] at hvage
              exact hcov ⟨by omega, by rw [hbseq]; omega⟩
            rcases hhead with hd0 | ⟨hlm, hty, htlt, hcanon, hcnt1, hrc⟩
            · refine Or.inr (Or.inl ⟨hd0, hl3, ?_⟩)
              rw [hd0, show desc_type 0 = INVALID_DESC from rfl]
              exact act_partial_inv mm _ va level hcov (Or.inl hvage)
            · refine Or.inr (Or.inr ⟨hcov, hlm, hty, htlt, hcanon, hcnt1, hrc, ?_⟩)
              exact act_partial_tab mm _ _ va level hcov (Or.inl hvage)
                (by rw [hty]; decide)
        rcases hmain with ⟨hd0, hcov, hact⟩ | ⟨hd0, hl3, hact⟩ |
          ⟨hncov, hl3m, hty, htlt, hcanon, hcnt1, hrc, hact⟩
        · -- ACTION_WRITE_BLOCK_ENTRY
          rw [hact] at hrun
          dsimp only at hrun
          have hheadnil : clear_refs_loop s0 mm.base_va (mm.base_va + mm.size - 1)
              r tbva entries level idx =
              clear_refs_loop s0 mm.base_va (mm.base_va + mm.size - 1) r tbva
                entries level (idx + 1) := by
            rw [hsplit, if_neg (by
              rintro ⟨-, -, hty2⟩
              rw [hd0] at hty2
              exact absurd hty2 (by decide)), List.nil_append]
          have hpaal : (mm.base_pa + va - mm.base_va) % 4 = 0 := by
            have hc1 := hcov.1
            omega
          have hwd : desc_type (xlat_desc mm.attr (mm.base_pa + va - mm.base_va)
              level xn) = if level = XLAT_TABLE_LEVEL_MAX then PAGE_DESC
              else BLOCK_DESC := xlat_desc_type _ _ _ _ hpaal hxn4
          have hwlands : tt_read (tt_write s0 r idx (xlat_desc mm.attr
              (mm.base_pa + va - mm.base_va) level xn)) r idx =
              xlat_desc mm.attr (mm.base_pa + va - mm.base_va) level xn :=
            tt_read_write_eq s0 r idx _
              (fun hr => by have := hbase hr; omega)
              (fun t hr => ⟨(hsome t hr).1, by
                rw [hszC t (hsome t hr).1]
                have := (hsome t hr).2
                unfold XLAT_TABLE_ENTRIES at *
                omega⟩)
          have hulands : ∀ (u : tt_state) (w : Nat),
              u.tables.size = s0.tables.size →
              (∀ t, t < u.tables.size → (tt_pool u t).size = XLAT_TABLE_ENTRIES) →
              (r = none → entries ≤ u.base_table.size) →
              tt_read (tt_write u r idx w) r idx = w := by
            intro u w husz1 husz3 hubase
            refine tt_read_write_eq u r idx w
              (fun hr => by have := hubase hr; omega)
              (fun t hr => ⟨by rw [husz1]; exact (hsome t hr).1, ?_⟩)
            rw [husz3 t (by rw [husz1]; exact (hsome t hr).1)]
            have := (hsome t hr).2
            unfold XLAT_TABLE_ENTRIES at *
            omega
          have hcovge : mm.base_va ≤ va ∧
              mm.base_va + mm.size - 1 ≥ va + XLAT_BLOCK_SIZE level - 1 :=
            ⟨hcov.1, hcov.2⟩
          by_cases hbr : mm.base_va + mm.size - 1 ≤ va + XLAT_BLOCK_SIZE level
          · -- the region ends at this entry
            rw [if_pos hbr] at hrun
            injection hrun with heqs heqr
            subst heqs
            subst heqr
            have hree : mm.base_va + mm.size - 1 = va + XLAT_BLOCK_SIZE level - 1 := by
              have hc2 := hcov.2
              omega
            refine ⟨?_, ⟨tt_write_base_size s0 r idx _, tt_write_tables_size s0 r idx _,
              congrArg Array.size (tt_write_cnt_arr s0 r idx _),
              fun t => tt_pool_write_size s0 r idx _ t⟩, ?_, ?_, ?_, ?_, ?_, ?_⟩
            · rw [← hree]
              exact (Nat.min_eq_left (by omega)).symm
            · intro j hj
              exact tt_read_write_ne s0 r idx _ j (by omega)
            · intro h
              exact tt_write_base_of_some s0 r idx _ h
            · intro t hne hnft
              exact tt_pool_write_of_ne s0 r idx _ t hne
            · intro t hnft
              exact tt_cnt_write s0 r idx _ t
            · intro t
              rw [tt_cnt_write]
            · intro u u2 hru hrft husz1 husz2 husz3 hubase hu2
              rw [xlat_tables_unmap_loop.eq_def, dif_pos hlvl, dif_pos hidx] at hu2
              dsimp only at hu2
              have hud : tt_read u r idx = xlat_desc mm.attr
                  (mm.base_pa + va - mm.base_va) level xn := by
                rw [hru idx (Nat.le_refl idx) hidx]
                exact hwlands
              rw [hud, if_pos hcovge] at hu2
              by_cases h3 : level = 3
              · rw [if_pos h3, if_pos hbr] at hu2
                subst hu2
                refine ⟨?_, ?_, ?_, ?_, ?_, ?_,
                  tt_write_base_size u r idx _, tt_write_tables_size u r idx _,
                  congrArg Array.size (tt_write_cnt_arr u r idx _),
                  fun t => tt_pool_write_size u r idx _ t⟩
                · intro j h1 h2
                  rcases eq_or_ne j idx with rfl | hjne
                  · rw [hulands u INVALID_DESC husz1 husz3 hubase]
                    exact hd0.symm
                  · rw [tt_read_write_ne u r idx _ j hjne, hru j h1 h2,
                      tt_read_write_ne s0 r idx _ j hjne]
                · intro j hj
                  exact tt_read_write_ne u r idx _ j (by omega)
                · intro t ht
                  have htmem : t ∈ clear_refs_loop s0 mm.base_va
                      (mm.base_va + mm.size - 1) r tbva entries level idx := by
                    rcases ht with hm | ⟨hz, ho⟩
                    · exact hm
                    · rw [tt_cnt_write] at ho
                      omega
                  have hrne : r ≠ some t := fun hr => hnotin t hr htmem
                  constructor
                  · rw [tt_pool_write_of_ne u r idx _ t hrne, (hrft t ht).1,
                      tt_pool_write_of_ne s0 r idx _ t hrne]
                  · rw [tt_cnt_write, (hrft t ht).2, tt_cnt_write]
                · intro t hne hnft
                  exact tt_pool_write_of_ne u r idx _ t hne
                · intro t hnft
                  exact tt_cnt_write u r idx _ t
                · intro h
                  exact tt_write_base_of_some u r idx _ h
              · have hnotab : ¬ desc_type (xlat_desc mm.attr
                    (mm.base_pa + va - mm.base_va) level xn) = TABLE_DESC := by
                  rw [hwd, if_neg (show ¬ level = XLAT_TABLE_LEVEL_MAX from h3)]
                  decide
                rw [if_neg h3, if_neg hnotab, if_pos hbr] at hu2
                subst hu2
                refine ⟨?_, ?_, ?_, ?_, ?_, ?_,
                  tt_write_base_size u r idx _, tt_write_tables_size u r idx _,
                  congrArg Array.size (tt_write_cnt_arr u r idx _),
                  fun t => tt_pool_write_size u r idx _ t⟩
                · intro j h1 h2
                  rcases eq_or_ne j idx with rfl | hjne
                  · rw [hulands u INVALID_DESC husz1 husz3 hubase]
                    exact hd0.symm
                  · rw [tt_read_write_ne u r idx _ j hjne, hru j h1 h2,
                      tt_read_write_ne s0 r idx _ j hjne]
                · intro j hj
                  exact tt_read_write_ne u r idx _ j (by omega)
                · intro t ht
                  have htmem : t ∈ clear_refs_loop s0 mm.base_va
                      (mm.base_va + mm.size - 1) r tbva entries level idx := by
                    rcases ht with hm | ⟨hz, ho⟩
                    · exact hm
                    · rw [tt_cnt_write] at ho
                      omega
                  have hrne : r ≠ some t := fun hr => hnotin t hr htmem
                  constructor
                  · rw [tt_pool_write_of_ne u r idx _ t hrne, (hrft t ht).1,
                      tt_pool_write_of_ne s0 r idx _ t hrne]
                  · rw [tt_cnt_write, (hrft t ht).2, tt_cnt_write]
                · intro t hne hnft
                  exact tt_pool_write_of_ne u r idx _ t hne
                · intro t hnft
                  exact tt_cnt_write u r idx _ t
                · intro h
                  exact tt_write_base_of_some u r idx _ h
          · -- the region continues past this entry
            rw [if_neg hbr] at hrun
            have hfr := (clear_frame_fuel
                ((XLAT_TABLE_LEVEL_MAX + 1 - level) * 514 + (entries - (idx + 1)))).2
              s0 (tt_write s0 r idx (xlat_desc mm.attr (mm.base_pa + va - mm.base_va)
                level xn))
              mm.base_va (mm.base_va + mm.size - 1) r tbva entries level (idx + 1)
              (Nat.le_refl _)
              (fun j h1 h2 => tt_read_write_ne s0 r idx _ j (by omega))
              (fun t ht => ⟨tt_pool_write_of_ne s0 r idx _ t
                  (fun hr => hnotin t hr (by rw [hheadnil]; exact ht)),
                tt_cnt_write s0 r idx _ t⟩)
              (tt_write_tables_size s0 r idx _)
            have hLrest := ihl (tt_write s0 r idx (xlat_desc mm.attr
                (mm.base_pa + va - mm.base_va) level xn)) mm tbva r entries level
              bl xn (idx + 1) (va + XLAT_BLOCK_SIZE level) s1 ret
              (by omega) hlvl hbl hent (by omega)
              (by
                have h2 : (idx + 1) * XLAT_BLOCK_SIZE level =
                    idx * XLAT_BLOCK_SIZE level + XLAT_BLOCK_SIZE level :=
                  Nat.succ_mul _ _
                omega)
              (by rw [Nat.add_mod_right]; exact hvaal)
              (by omega) (by omega) hrb4 hpa4 hsz4 hszpos hxn4
              (by rw [tt_write_cnt_arr, tt_write_tables_size]; exact hszA)
              (by rw [tt_write_tables_size]; exact hszB)
              (fun t ht => by
                rw [tt_pool_write_size]
                exact hszC t (by rwa [tt_write_tables_size] at ht))
              (fun hr => by rw [tt_write_base_size]; exact hbase hr)
              (fun t hr => ⟨by rw [tt_write_tables_size]; exact (hsome t hr).1,
                (hsome t hr).2⟩)
              (fun t hr => by rw [tt_cnt_write]; exact hsomecnt t hr)
              (hfr.2.mpr hrest)
              (by rw [hfr.1, ← hheadnil]; exact hnd)
              (fun t hr => by
                rw [hfr.1, ← hheadnil]
                exact hnotin t hr)
              (by
                intro t htl hc0 j
                have hc0a : tt_cnt (tt_write s0 r idx (xlat_desc mm.attr
                    (mm.base_pa + va - mm.base_va) level xn)) t = 0 := hc0
                rw [tt_cnt_write] at hc0a
                have hrne : r ≠ some t := by
                  intro hr
                  have := hsomecnt t hr
                  omega
                show (tt_pool (tt_write s0 r idx (xlat_desc mm.attr
                    (mm.base_pa + va - mm.base_va) level xn)) t).getD j 0 = 0
                rw [tt_pool_write_of_ne s0 r idx _ t hrne]
                exact hfree t (by rwa [tt_write_tables_size] at htl) hc0a j)
              hrun hmod
            obtain ⟨hret1, hsz1, hown1, hbase1, hpool1, hcnt1, hmono1, hunm1⟩ := hLrest
            have hftiff : ∀ t, map_ft s0 s1 (clear_refs_loop s0 mm.base_va
                (mm.base_va + mm.size - 1) r tbva entries level idx) t ↔
                map_ft (tt_write s0 r idx (xlat_desc mm.attr
                  (mm.base_pa + va - mm.base_va) level xn)) s1
                  (clear_refs_loop (tt_write s0 r idx (xlat_desc mm.attr
                    (mm.base_pa + va - mm.base_va) level xn)) mm.base_va
                    (mm.base_va + mm.size - 1) r tbva entries level (idx + 1)) t := by
              intro t
              unfold map_ft
              rw [hfr.1, ← hheadnil, tt_cnt_write]
            refine ⟨hret1, ⟨?_, ?_, ?_, ?_⟩, ?_, ?_, ?_, ?_, ?_, ?_⟩
            · rw [hsz1.1, tt_write_base_size]
            · rw [hsz1.2.1, tt_write_tables_size]
            · rw [hsz1.2.2.1, tt_write_cnt_arr]
            · intro t
              rw [hsz1.2.2.2 t, tt_pool_write_size]
            · intro j hj
              rw [hown1 j (hj.imp (fun h => by omega) (fun h => h))]
              exact tt_read_write_ne s0 r idx _ j (by omega)
            · intro h
              rw [hbase1 h]
              exact tt_write_base_of_some s0 r idx _ h
            · intro t hne hnft
              rw [hpool1 t hne (fun hft => hnft ((hftiff t).mpr hft)),
                tt_pool_write_of_ne s0 r idx _ t hne]
            · intro t hnft
              rw [hcnt1 t (fun hft => hnft ((hftiff t).mpr hft)), tt_cnt_write]
            · intro t
              have := hmono1 t
              rwa [tt_cnt_write] at this
            · intro u u2 hru hrft husz1 husz2 husz3 hubase hu2
              rw [xlat_tables_unmap_loop.eq_def, dif_pos hlvl, dif_pos hidx] at hu2
              dsimp only at hu2
              have hud : tt_read u r idx = xlat_desc mm.attr
                  (mm.base_pa + va - mm.base_va) level xn := by
                rw [hru idx (Nat.le_refl idx) hidx, hown1 idx (Or.inl (by omega))]
                exact hwlands
              rw [hud, if_pos hcovge] at hu2
              have hu2e : xlat_tables_unmap_loop (tt_write u r idx INVALID_DESC)
                  mm tbva r entries level bl (idx + 1)
                  (va + XLAT_BLOCK_SIZE level) = u2 := by
                by_cases h3 : level = 3
                · rwa [if_pos h3, if_neg hbr] at hu2
                · have hnotab : ¬ desc_type (xlat_desc mm.attr
                      (mm.base_pa + va - mm.base_va) level xn) = TABLE_DESC := by
                    rw [hwd, if_neg (show ¬ level = XLAT_TABLE_LEVEL_MAX from h3)]
                    decide
                  rwa [if_neg h3, if_neg hnotab, if_neg hbr] at hu2
              obtain ⟨q1, q2, q3, q4, q5, q6, q7⟩ := hunm1
                (tt_write u r idx INVALID_DESC) u2
                (fun j h1 h2 => by
                  rw [tt_read_write_ne u r idx _ j (by omega)]
                  exact hru j (by omega) h2)
                (fun t hft => by
                  have hs0ft := (hftiff t).mpr hft
                  have hrne : r ≠ some t := by
                    intro hr
                    rcases hs0ft with hm | ⟨hz, -⟩
                    · exact hnotin t hr hm
                    · have := hsomecnt t hr
                      omega
                  constructor
                  · rw [tt_pool_write_of_ne u r idx _ t hrne]
                    exact (hrft t hs0ft).1
                  · rw [tt_cnt_write]
                    exact (hrft t hs0ft).2)
                (by rw [tt_write_tables_size, tt_write_tables_size]; exact husz1)
                (by rw [tt_write_cnt_arr, tt_write_cnt_arr]; exact husz2)
                (fun t ht => by
                  rw [tt_pool_write_size]
                  exact husz3 t (by rwa [tt_write_tables_size] at ht))
                (fun hr => by rw [tt_write_base_size]; exact hubase hr)
                hu2e
              refine ⟨?_, ?_, ?_, ?_, ?_, ?_, ?_, ?_, ?_, ?_⟩
              · intro j h1 h2
                rcases eq_or_ne j idx with rfl | hjne
                · rw [q2 j (Or.inl (by omega)),
                    hulands u INVALID_DESC husz1 husz3 hubase]
                  exact hd0.symm
                · rw [q1 j (by omega) h2, tt_read_write_ne s0 r idx _ j hjne]
              · intro j hj
                rw [q2 j (hj.imp (fun h => by omega) (fun h => h))]
                exact tt_read_write_ne u r idx _ j (by omega)
              · intro t ht
                have hftW := (hftiff t).mp ht
                have hrne : r ≠ some t := by
                  intro hr
                  rcases ht with hm | ⟨hz, -⟩
                  · exact hnotin t hr hm
                  · have := hsomecnt t hr
                    omega
                have hq3 := q3 t hftW
                constructor
                · rw [hq3.1, tt_pool_write_of_ne s0 r idx _ t hrne]
                · rw [hq3.2, tt_cnt_write]
              · intro t hne hnft
                rw [q4 t hne (fun hft => hnft ((hftiff t).mpr hft)),
                  tt_pool_write_of_ne u r idx _ t hne]
              · intro t hnft
                rw [q5 t (fun hft => hnft ((hftiff t).mpr hft)), tt_cnt_write]
              · intro h
                rw [q6 h]
                exact tt_write_base_of_some u r idx _ h
              · rw [q7.1, tt_write_base_size]
              · rw [q7.2.1, tt_write_tables_size]
              · rw [q7.2.2.1, tt_write_cnt_arr]
              · intro t
                rw [q7.2.2.2 t, tt_pool_write_size]
        · -- ACTION_CREATE_NEW_TABLE
          rw [hact] at hrun
          dsimp only at hrun
          have hheadnil : clear_refs_loop s0 mm.base_va (mm.base_va + mm.size - 1)
              r tbva entries level idx =
              clear_refs_loop s0 mm.base_va (mm.base_va + mm.size - 1) r tbva
                entries level (idx + 1) := by
            rw [hsplit, if_neg (by
              rintro ⟨-, -, hty2⟩
              rw [hd0] at hty2
              exact absurd hty2 (by decide)), List.nil_append]
          have hlvlc : level + 1 ≤ XLAT_TABLE_LEVEL_MAX := by
            unfold XLAT_TABLE_LEVEL_MAX
            omega
          have hcend : XLAT_TABLE_ENTRIES * XLAT_BLOCK_SIZE (level + 1) =
              XLAT_BLOCK_SIZE level := by
            rw [bs_succ level hl3]
            unfold XLAT_TABLE_ENTRIES
            ring
          have hcntpos : ∀ t, t ∈ clear_refs_loop s0 mm.base_va
              (mm.base_va + mm.size - 1) r tbva entries level (idx + 1) →
              1 ≤ tt_cnt s0 t ∧ t < s0.tables.size := fun t ht =>
            (clear_cnt_pos_fuel ((XLAT_TABLE_LEVEL_MAX + 1 - level) * 514 +
              (entries - (idx + 1)))).2 s0 mm.base_va (mm.base_va + mm.size - 1)
              r tbva entries level (idx + 1) (Nat.le_refl _) hrest t ht
          rcases hget : xlat_table_get_empty s0 with - | tnew
          · rw [hget] at hrun
            dsimp only at hrun
            injection hrun with heqs heqr
            exfalso
            omega
          · rw [hget] at hrun
            dsimp only at hrun
            obtain ⟨htc0, htlt2⟩ := get_empty_some s0 tnew hget
            have htnew30 : tnew < 2 ^ 30 := Nat.lt_of_lt_of_le htlt2 hszB
            have hrneW : r ≠ some tnew := by
              intro hr
              have := hsomecnt tnew hr
              omega
            have hwlands : tt_read (tt_write s0 r idx (table_desc_for tnew)) r idx =
                table_desc_for tnew :=
              tt_read_write_eq s0 r idx _
                (fun hr => by have := hbase hr; omega)
                (fun t hr => ⟨(hsome t hr).1, by
                  rw [hszC t (hsome t hr).1]
                  have := (hsome t hr).2
                  unfold XLAT_TABLE_ENTRIES at *
                  omega⟩)
            have hulands : ∀ (u : tt_state) (w : Nat),
                u.tables.size = s0.tables.size →
                (∀ t, t < u.tables.size → (tt_pool u t).size = XLAT_TABLE_ENTRIES) →
                (r = none → entries ≤ u.base_table.size) →
                tt_read (tt_write u r idx w) r idx = w := by
              intro u w husz1 husz3 hubase
              refine tt_read_write_eq u r idx w
                (fun hr => by have := hubase hr; omega)
                (fun t hr => ⟨by rw [husz1]; exact (hsome t hr).1, ?_⟩)
              rw [husz3 t (by rw [husz1]; exact (hsome t hr).1)]
              have := (hsome t hr).2
              unfold XLAT_TABLE_ENTRIES at *
              omega
            rcases hcp : xlat_tables_map_region (tt_write s0 r idx
                (table_desc_for tnew)) mm va (some tnew) XLAT_TABLE_ENTRIES
                (level + 1) bl xn with ⟨s_c, rc⟩
            rw [hcp] at hrun
            dsimp only at hrun
            have hmodc : rc % PAGE_SIZE = PAGE_SIZE - 1 := by
              by_cases hrc : rc = va + XLAT_BLOCK_SIZE level - 1
              · rw [hrc]
                unfold PAGE_SIZE
                omega
              · rw [if_pos hrc] at hrun
                injection hrun with h1 h2
                rw [h2]
                exact hmod
            have hzread : ∀ j, tt_read (tt_write s0 r idx (table_desc_for tnew))
                (some tnew) j = 0 := by
              intro j
              rw [tt_read_pool, tt_pool_write_of_ne s0 r idx _ tnew hrneW]
              exact hfree tnew htlt2 htc0 j
            have hzero := clear_zero XLAT_TABLE_ENTRIES
              (tt_write s0 r idx (table_desc_for tnew)) mm.base_va
              (mm.base_va + mm.size - 1) (some tnew) va XLAT_TABLE_ENTRIES
              (level + 1) 0 hlvlc hzread (by omega)
            have hcrc : clear_refs (tt_write s0 r idx (table_desc_for tnew))
                mm.base_va (mm.base_va + mm.size - 1) (some tnew) va
                XLAT_TABLE_ENTRIES (level + 1) = [] := by
              rw [clear_refs.eq_def, if_pos hlvlc]
              exact hzero.2
            have hL := ihr (tt_write s0 r idx (table_desc_for tnew)) mm va
              (some tnew) XLAT_TABLE_ENTRIES (level + 1) bl xn s_c rc
              (by unfold XLAT_TABLE_LEVEL_MAX at hf; unfold XLAT_TABLE_LEVEL_MAX XLAT_TABLE_ENTRIES; omega)
              hlvlc (by omega) (by unfold XLAT_TABLE_ENTRIES; omega)
              (bs_align_succ va level hl3 hvaal) hvale
              (by rw [hcend]; exact hvage)
              hrb4 hpa4 hsz4 hszpos hxn4
              (by rw [tt_write_cnt_arr, tt_write_tables_size]; exact hszA)
              (by rw [tt_write_tables_size]; exact hszB)
              (fun t ht => by
                rw [tt_pool_write_size]
                exact hszC t (by rwa [tt_write_tables_size] at ht))
              (fun hr => Option.noConfusion hr)
              (fun t hr => by
                cases hr
                exact ⟨by rw [tt_write_tables_size]; exact htlt2, rfl⟩)
              (fun hr => by omega)
              (by
                rw [range_clear.eq_def, if_pos hlvlc]
                exact hzero.1)
              (by rw [hcrc]; exact List.nodup_nil)
              (fun t hr => by rw [hcrc]; exact List.not_mem_nil t)
              (by
                intro t htl hc0 j
                have hc0a : tt_cnt (tt_write s0 r idx (table_desc_for tnew)) t = 0 := hc0
                rw [tt_cnt_write] at hc0a
                have hrne : r ≠ some t := by
                  intro hr
                  have := hsomecnt t hr
                  omega
                show (tt_pool (tt_write s0 r idx (table_desc_for tnew)) t).getD j 0 = 0
                rw [tt_pool_write_of_ne s0 r idx _ t hrne]
                exact hfree t (by rwa [tt_write_tables_size] at htl) hc0a j)
              hcp hmodc
            obtain ⟨hretc, hszc, hbasec, hpoolc, hcntc, hcselfc, hmonoc, hunmc⟩ := hL
            rw [hcend] at hretc
            have hftc : ∀ t, map_ft (tt_write s0 r idx (table_desc_for tnew)) s_c
                (clear_refs (tt_write s0 r idx (table_desc_for tnew)) mm.base_va
                  (mm.base_va + mm.size - 1) (some tnew) va XLAT_TABLE_ENTRIES
                  (level + 1)) t ↔
                (tt_cnt s0 t = 0 ∧ 1 ≤ tt_cnt s_c t) := by
              intro t
              unfold map_ft
              rw [hcrc, tt_cnt_write]
              constructor
              · rintro (hm | h)
                · exact absurd hm (List.not_mem_nil t)
                · exact h
              · exact fun h => Or.inr h
            have hscr : ∀ j, tt_read s_c r j =
                tt_read (tt_write s0 r idx (table_desc_for tnew)) r j := by
              refine tt_read_frame _ _ r (fun hr => hbasec (by simp)) ?_
              intro t0 hr
              refine hpoolc t0 ?_ ?_
              · intro he
                injection he with he2
                subst he2
                have := hsomecnt tnew hr
                omega
              · rw [hftc t0]
                rintro ⟨hz, -⟩
                have := hsomecnt t0 hr
                omega
            have hscidx : tt_read s_c r idx = table_desc_for tnew := by
              rw [hscr idx]
              exact hwlands
            have hpfr : ∀ t, r ≠ some t → t ≠ tnew →
                ¬(tt_cnt s0 t = 0 ∧ 1 ≤ tt_cnt s_c t) →
                tt_pool s_c t = tt_pool s0 t := by
              intro t h1 h3 h2
              rw [hpoolc t (fun he => h3 (by injection he with h4; exact h4.symm))
                (by rw [hftc t]; exact h2), tt_pool_write_of_ne s0 r idx _ t h1]
            have hcfr : ∀ t, t ≠ tnew →
                ¬(tt_cnt s0 t = 0 ∧ 1 ≤ tt_cnt s_c t) →
                tt_cnt s_c t = tt_cnt s0 t := by
              intro t h3 h2
              rw [hcntc t (fun he => h3 (by injection he with h4; exact h4.symm))
                (by rw [hftc t]; exact h2), tt_cnt_write]
            have hctnew : tt_cnt s_c tnew = 1 := by
              have h1 := hcselfc tnew rfl
              rw [tt_cnt_write] at h1
              omega
            have hmono0 : ∀ t, tt_cnt s0 t ≤ tt_cnt s_c t := by
              intro t
              have := hmonoc t
              rwa [tt_cnt_write] at this
            have htytab : desc_type (table_desc_for tnew) = TABLE_DESC :=
              desc_type_table_desc_for tnew
            have htod : table_of_desc (table_desc_for tnew) = tnew :=
              table_of_desc_for tnew htnew30
            have hsizc : s_c.base_table.size = s0.base_table.size ∧
                s_c.tables.size = s0.tables.size ∧
                s_c.tables_mapped_regions.size = s0.tables_mapped_regions.size ∧
                ∀ t, (tt_pool s_c t).size = (tt_pool s0 t).size := by
              refine ⟨?_, ?_, ?_, ?_⟩
              · rw [hszc.1, tt_write_base_size]
              · rw [hszc.2.1, tt_write_tables_size]
              · rw [hszc.2.2.1, tt_write_cnt_arr]
              · intro t
                rw [hszc.2.2.2 t, tt_pool_write_size]
            by_cases hrc : rc = va + XLAT_BLOCK_SIZE level - 1
            · rw [if_neg (not_not_intro hrc)] at hrun
              have here : va + XLAT_BLOCK_SIZE level - 1 ≤ mm.base_va + mm.size - 1 := by
                omega
              by_cases hbr : mm.base_va + mm.size - 1 ≤ va + XLAT_BLOCK_SIZE level
              · rw [if_pos hbr] at hrun
                injection hrun with heqs heqr
                subst heqs
                subst heqr
                have hree : mm.base_va + mm.size - 1 = va + XLAT_BLOCK_SIZE level - 1 := by
                  omega
                have hstop : mm.base_va + mm.size - 1 ≤ va + XLAT_BLOCK_SIZE level := hbr
                refine ⟨?_, hsizc, ?_, ?_, ?_, ?_, hmono0, ?_⟩
                · rw [← hree]
                  exact (Nat.min_eq_left (by omega)).symm
                · intro j hj
                  rw [hscr j]
                  exact tt_read_write_ne s0 r idx _ j (by omega)
                · intro h
                  rw [hbasec (by simp)]
                  exact tt_write_base_of_some s0 r idx _ h
                · intro t hne hnft
                  have htne : t ≠ tnew := by
                    rintro rfl
                    exact hnft (Or.inr ⟨htc0, by omega⟩)
                  exact hpfr t hne htne (fun h => hnft (Or.inr h))
                · intro t hnft
                  have htne : t ≠ tnew := by
                    rintro rfl
                    exact hnft (Or.inr ⟨htc0, by omega⟩)
                  exact hcfr t htne (fun h => hnft (Or.inr h))
                · intro u u2 hru hrft husz1 husz2 husz3 hubase hu2
                  rw [xlat_tables_unmap_loop.eq_def, dif_pos hlvl, dif_pos hidx] at hu2
                  dsimp only at hu2
                  have hud : tt_read u r idx = table_desc_for tnew := by
                    rw [hru idx (Nat.le_refl idx) hidx]
                    exact hscidx
                  rw [hud] at hu2
                  have hu2e : (if xlat_table_is_empty (xlat_tables_unmap_region u mm
                        va (some tnew) XLAT_TABLE_ENTRIES (level + 1) bl) tnew = true
                      then tt_write (xlat_tables_unmap_region u mm va (some tnew)
                        XLAT_TABLE_ENTRIES (level + 1) bl) r idx INVALID_DESC
                      else xlat_tables_unmap_region u mm va (some tnew)
                        XLAT_TABLE_ENTRIES (level + 1) bl) = u2 := by
                    by_cases hcv : mm.base_va ≤ va ∧
                        mm.base_va + mm.size - 1 ≥ va + XLAT_BLOCK_SIZE level - 1
                    · rw [if_pos hcv, if_neg (show ¬ level = 3 by omega),
                        if_pos htytab, htod, if_pos hstop] at hu2
                      exact hu2
                    · rw [if_neg hcv, if_pos (Or.inl hvage), htod,
                        if_pos hstop] at hu2
                      exact hu2
                  have hftnew : map_ft s0 s_c (clear_refs_loop s0 mm.base_va
                      (mm.base_va + mm.size - 1) r tbva entries level idx) tnew :=
                    Or.inr ⟨htc0, by omega⟩
                  obtain ⟨rq1, rq3, rq3b, rq4, rq5, rq6, rq7⟩ := hunmc u
                    (xlat_tables_unmap_region u mm va (some tnew) XLAT_TABLE_ENTRIES
                      (level + 1) bl)
                    (fun j hj => tt_read_eq_of_pool _ _ tnew (hrft tnew hftnew).1 j)
                    (fun t ht => by
                      rw [hftc t] at ht
                      exact hrft t (Or.inr ht))
                    (fun t hr => by
                      cases hr
                      exact hrft tnew hftnew)
                    (by rw [tt_write_tables_size]; exact husz1)
                    (by rw [tt_write_cnt_arr]; exact husz2)
                    husz3 (fun hr => Option.noConfusion hr) rfl
                  have hemp : xlat_table_is_empty (xlat_tables_unmap_region u mm va
                      (some tnew) XLAT_TABLE_ENTRIES (level + 1) bl) tnew = true := by
                    rw [is_empty_iff, (rq3b tnew rfl).2, tt_cnt_write]
                    exact htc0
                  rw [if_pos hemp] at hu2e
                  subst hu2e
                  have hucr : ∀ j, tt_read (xlat_tables_unmap_region u mm va
                      (some tnew) XLAT_TABLE_ENTRIES (level + 1) bl) r j =
                      tt_read u r j := by
                    refine tt_read_frame _ _ r (fun hr => rq6 (by simp)) ?_
                    intro t0 hr
                    refine rq4 t0 ?_ ?_
                    · intro he
                      injection he with he2
                      subst he2
                      have := hsomecnt tnew hr
                      omega
                    · rw [hftc t0]
                      rintro ⟨hz, -⟩
                      have := hsomecnt t0 hr
                      omega
                  have hucsz : (xlat_tables_unmap_region u mm va (some tnew)
                      XLAT_TABLE_ENTRIES (level + 1) bl).tables.size = s0.tables.size := by
                    rw [rq7.2.1]
                    exact husz1
                  have hucpools : ∀ t, t < (xlat_tables_unmap_region u mm va
                      (some tnew) XLAT_TABLE_ENTRIES (level + 1) bl).tables.size →
                      (tt_pool (xlat_tables_unmap_region u mm va (some tnew)
                        XLAT_TABLE_ENTRIES (level + 1) bl) t).size =
                      XLAT_TABLE_ENTRIES := by
                    intro t ht
                    rw [rq7.2.2.2 t]
                    exact husz3 t (by rwa [hucsz, ← husz1] at ht)
                  refine ⟨?_, ?_, ?_, ?_, ?_, ?_, ?_, ?_, ?_, ?_⟩
                  · intro j h1 h2
                    rcases eq_or_ne j idx with rfl | hjne
                    · rw [hulands _ INVALID_DESC hucsz hucpools
                        (fun hr => by rw [rq6 (by simp)]; exact hubase hr)]
                      exact hd0.symm
                    · rw [tt_read_write_ne _ r idx _ j hjne, hucr j, hru j h1 h2,
                        hscr j]
                      exact tt_read_write_ne s0 r idx _ j hjne
                  · intro j hj
                    rw [tt_read_write_ne _ r idx _ j (by omega)]
                    exact hucr j
                  · intro t ht
                    rcases eq_or_ne t tnew with rfl | htne
                    · constructor
                      · rw [tt_pool_write_of_ne _ r idx _ t hrneW, (rq3b t rfl).1,
                          tt_pool_write_of_ne s0 r idx _ t hrneW]
                      · rw [tt_cnt_write, (rq3b t rfl).2, tt_cnt_write]
                    · rcases ht with hm | hal
                      · have hmem1 := hcntpos t (by rwa [hheadnil] at hm)
                        have hrne : r ≠ some t := fun hr => hnotin t hr hm
                        have hnal : ¬(tt_cnt s0 t = 0 ∧ 1 ≤ tt_cnt s_c t) := by
                          rintro ⟨hz, -⟩
                          omega
                        constructor
                        · rw [tt_pool_write_of_ne _ r idx _ t hrne,
                            rq4 t (fun he => htne (by injection he with h4; exact h4.symm))
                              (by rw [hftc t]; exact hnal),
                            (hrft t (Or.inl hm)).1]
                          exact hpfr t hrne htne hnal
                        · rw [tt_cnt_write,
                            rq5 t (fun he => htne (by injection he with h4; exact h4.symm))
                              (by rw [hftc t]; exact hnal),
                            (hrft t (Or.inl hm)).2]
                          exact hcfr t htne hnal
                      · have hal2 : tt_cnt s0 t = 0 ∧ 1 ≤ tt_cnt s_c t := hal
                        have hrne : r ≠ some t := by
                          intro hr
                          have := hsomecnt t hr
                          omega
                        have hq3 := rq3 t (by rw [hftc t]; exact hal2)
                        constructor
                        · rw [tt_pool_write_of_ne _ r idx _ t hrne, hq3.1,
                            tt_pool_write_of_ne s0 r idx _ t hrne]
                        · rw [tt_cnt_write, hq3.2, tt_cnt_write]
                  · intro t hne hnft
                    have htne : t ≠ tnew := by
                      rintro rfl
                      exact hnft (Or.inr ⟨htc0, by omega⟩)
                    rw [tt_pool_write_of_ne _ r idx _ t hne]
                    exact rq4 t (fun he => htne (by injection he with h4; exact h4.symm))
                      (by rw [hftc t]; rintro ⟨hz, ho⟩; exact hnft (Or.inr ⟨hz, ho⟩))
                  · intro t hnft
                    have htne : t ≠ tnew := by
                      rintro rfl
                      exact hnft (Or.inr ⟨htc0, by omega⟩)
                    rw [tt_cnt_write]
                    exact rq5 t (fun he => htne (by injection he with h4; exact h4.symm))
                      (by rw [hftc t]; rintro ⟨hz, ho⟩; exact hnft (Or.inr ⟨hz, ho⟩))
                  · intro h
                    rw [tt_write_base_of_some _ r idx _ h]
                    exact rq6 (by simp)
                  · rw [tt_write_base_size, rq7.1]
                  · rw [tt_write_tables_size, rq7.2.1]
                  · rw [tt_write_cnt_arr, rq7.2.2.1]
                  · intro t
                    rw [tt_pool_write_size, rq7.2.2.2 t]
              · rw [if_neg hbr] at hrun
                have hfr2 := (clear_frame_fuel
                    ((XLAT_TABLE_LEVEL_MAX + 1 - level) * 514 + (entries - (idx + 1)))).2
                  s0 s_c mm.base_va (mm.base_va + mm.size - 1) r tbva entries level
                  (idx + 1) (Nat.le_refl _)
                  (fun j h1 h2 => by
                    rw [hscr j]
                    exact tt_read_write_ne s0 r idx _ j (by omega))
                  (fun t ht => by
                    have hcp1 := hcntpos t ht
                    have htne : t ≠ tnew := by
                      rintro rfl
                      omega
                    have hrne : r ≠ some t := fun hr => hnotin t hr
                      (by rw [hheadnil]; exact ht)
                    have hnal : ¬(tt_cnt s0 t = 0 ∧ 1 ≤ tt_cnt s_c t) := by
                      rintro ⟨hz, -⟩
                      omega
                    exact ⟨hpfr t hrne htne hnal, hcfr t htne hnal⟩)
                  hsizc.2.1
                have hLrest := ihl s_c mm tbva r entries level bl xn (idx + 1)
                  (va + XLAT_BLOCK_SIZE level) s1 ret
                  (by omega) hlvl hbl hent (by omega)
                  (by
                    have h2 : (idx + 1) * XLAT_BLOCK_SIZE level =
                        idx * XLAT_BLOCK_SIZE level + XLAT_BLOCK_SIZE level :=
                      Nat.succ_mul _ _
                    omega)
                  (by rw [Nat.add_mod_right]; exact hvaal)
                  (by omega) (by omega) hrb4 hpa4 hsz4 hszpos hxn4
                  (by rw [hsizc.2.2.1, hsizc.2.1]; exact hszA)
                  (by rw [hsizc.2.1]; exact hszB)
                  (fun t ht => by
                    rw [hsizc.2.2.2 t]
                    exact hszC t (by rwa [hsizc.2.1] at ht))
                  (fun hr => by rw [hsizc.1]; exact hbase hr)
                  (fun t hr => ⟨by rw [hsizc.2.1]; exact (hsome t hr).1,
                    (hsome t hr).2⟩)
                  (fun t hr => by
                    have h1 := hsomecnt t hr
                    have htne : t ≠ tnew := by
                      rintro rfl
                      omega
                    rw [hcfr t htne (by rintro ⟨hz, -⟩; omega)]
                    exact h1)
                  (hfr2.2.mpr hrest)
                  (by rw [hfr2.1, ← hheadnil]; exact hnd)
                  (fun t hr => by rw [hfr2.1, ← hheadnil]; exact hnotin t hr)
                  (by
                    intro t htl hc0 j
                    have hc0a : tt_cnt s_c t = 0 := hc0
                    have htne : t ≠ tnew := by
                      rintro rfl
                      omega
                    have hs0c : tt_cnt s0 t = 0 := by
                      have := hmono0 t
                      omega
                    have hrne : r ≠ some t := by
                      intro hr
                      have := hsomecnt t hr
                      omega
                    have hnal : ¬(tt_cnt s0 t = 0 ∧ 1 ≤ tt_cnt s_c t) := by
                      rintro ⟨-, ho⟩
                      omega
                    show (tt_pool s_c t).getD j 0 = 0
                    rw [hpfr t hrne htne hnal]
                    exact hfree t (by rwa [hsizc.2.1] at htl) hs0c j)
                  hrun hmod
                obtain ⟨hret1, hsz1, hown1, hbase1, hpool1, hcnt1, hmono1, hunm1⟩ :=
                  hLrest
                have hrefseq : clear_refs_loop s_c mm.base_va
                    (mm.base_va + mm.size - 1) r tbva entries level (idx + 1) =
                    clear_refs_loop s0 mm.base_va (mm.base_va + mm.size - 1) r tbva
                      entries level idx := by
                  rw [hfr2.1, ← hheadnil]
                have hnftrest : ∀ t, tt_cnt s0 t = 0 → 1 ≤ tt_cnt s_c t →
                    ¬ map_ft s_c s1 (clear_refs_loop s_c mm.base_va
                      (mm.base_va + mm.size - 1) r tbva entries level (idx + 1)) t := by
                  intro t hz1 hsc
                  rintro (hm | ⟨hz2, -⟩)
                  · rw [hrefseq, hheadnil] at hm
                    have := hcntpos t hm
                    omega
                  · omega
                have hmemfacts : ∀ t, t ∈ clear_refs_loop s0 mm.base_va
                    (mm.base_va + mm.size - 1) r tbva entries level idx →
                    (1 ≤ tt_cnt s0 t ∧ t ≠ tnew ∧ r ≠ some t ∧
                     ¬(tt_cnt s0 t = 0 ∧ 1 ≤ tt_cnt s_c t) ∧
                     ¬ map_ft (tt_write s0 r idx (table_desc_for tnew)) s_c
                       (clear_refs (tt_write s0 r idx (table_desc_for tnew))
                         mm.base_va (mm.base_va + mm.size - 1) (some tnew) va
                         XLAT_TABLE_ENTRIES (level + 1)) t) := by
                  intro t hm
                  have hcp1 := hcntpos t (by rwa [hheadnil] at hm)
                  have htne : t ≠ tnew := by
                    rintro rfl
                    omega
                  refine ⟨hcp1.1, htne, fun hr => hnotin t hr hm, ?_, ?_⟩
                  · rintro ⟨hz, -⟩
                    omega
                  · rw [hftc t]
                    rintro ⟨hz, -⟩
                    omega
                refine ⟨hret1, ⟨?_, ?_, ?_, ?_⟩, ?_, ?_, ?_, ?_, ?_, ?_⟩
                · rw [hsz1.1, hsizc.1]
                · rw [hsz1.2.1, hsizc.2.1]
                · rw [hsz1.2.2.1, hsizc.2.2.1]
                · intro t
                  rw [hsz1.2.2.2 t, hsizc.2.2.2 t]
                · intro j hj
                  rw [hown1 j (hj.imp (fun h => by omega) (fun h => h)), hscr j]
                  exact tt_read_write_ne s0 r idx _ j (by omega)
                · intro h
                  rw [hbase1 h, hbasec (by simp)]
                  exact tt_write_base_of_some s0 r idx _ h
                · intro t hne hnft
                  have htne : t ≠ tnew := by
                    rintro rfl
                    refine hnft (Or.inr ⟨htc0, ?_⟩)
                    have := hmono1 t
                    omega
                  have hnal : ¬(tt_cnt s0 t = 0 ∧ 1 ≤ tt_cnt s_c t) := by
                    rintro ⟨hz, ho⟩
                    refine hnft (Or.inr ⟨hz, ?_⟩)
                    have := hmono1 t
                    omega
                  have hnft2 : ¬ map_ft s_c s1 (clear_refs_loop s_c mm.base_va
                      (mm.base_va + mm.size - 1) r tbva entries level (idx + 1)) t := by
                    rintro (hm | ⟨hz2, ho2⟩)
                    · exact hnft (Or.inl (by rwa [hrefseq] at hm))
                    · have hz0 : tt_cnt s0 t = 0 := by
                        have := hmono0 t
                        omega
                      exact hnft (Or.inr ⟨hz0, ho2⟩)
                  rw [hpool1 t hne hnft2]
                  exact hpfr t hne htne hnal
                · intro t hnft
                  have htne : t ≠ tnew := by
                    rintro rfl
                    refine hnft (Or.inr ⟨htc0, ?_⟩)
                    have := hmono1 t
                    omega
                  have hnal : ¬(tt_cnt s0 t = 0 ∧ 1 ≤ tt_cnt s_c t) := by
                    rintro ⟨hz, ho⟩
                    refine hnft (Or.inr ⟨hz, ?_⟩)
                    have := hmono1 t
                    omega
                  have hnft2 : ¬ map_ft s_c s1 (clear_refs_loop s_c mm.base_va
                      (mm.base_va + mm.size - 1) r tbva entries level (idx + 1)) t := by
                    rintro (hm | ⟨hz2, ho2⟩)
                    · exact hnft (Or.inl (by rwa [hrefseq] at hm))
                    · have hz0 : tt_cnt s0 t = 0 := by
                        have := hmono0 t
                        omega
                      exact hnft (Or.inr ⟨hz0, ho2⟩)
                  rw [hcnt1 t hnft2]
                  exact hcfr t htne hnal
                · intro t
                  exact Nat.le_trans (hmono0 t) (hmono1 t)
                · intro u u2 hru hrft husz1 husz2 husz3 hubase hu2
                  rw [xlat_tables_unmap_loop.eq_def, dif_pos hlvl, dif_pos hidx] at hu2
                  dsimp only at hu2
                  have hud : tt_read u r idx = table_desc_for tnew := by
                    rw [hru idx (Nat.le_refl idx) hidx, hown1 idx (Or.inl (by omega))]
                    exact hscidx
                  rw [hud] at hu2
                  have hftnew1 : map_ft s0 s1 (clear_refs_loop s0 mm.base_va
                      (mm.base_va + mm.size - 1) r tbva entries level idx) tnew := by
                    refine Or.inr ⟨htc0, ?_⟩
                    have := hmono1 tnew
                    omega
                  have htnimg := hrft tnew hftnew1
                  have hs1tn : tt_pool s1 tnew = tt_pool s_c tnew ∧
                      tt_cnt s1 tnew = tt_cnt s_c tnew :=
                    ⟨hpool1 tnew hrneW (hnftrest tnew htc0 (by omega)),
                     hcnt1 tnew (hnftrest tnew htc0 (by omega))⟩
                  obtain ⟨rq1, rq3, rq3b, rq4, rq5, rq6, rq7⟩ := hunmc u
                    (xlat_tables_unmap_region u mm va (some tnew) XLAT_TABLE_ENTRIES
                      (level + 1) bl)
                    (fun j hj => tt_read_eq_of_pool _ _ tnew
                      (htnimg.1.trans hs1tn.1) j)
                    (fun t ht => by
                      rw [hftc t] at ht
                      have hfts1 : map_ft s0 s1 (clear_refs_loop s0 mm.base_va
                          (mm.base_va + mm.size - 1) r tbva entries level idx) t := by
                        refine Or.inr ⟨ht.1, ?_⟩
                        have := hmono1 t
                        omega
                      have hnft2 := hnftrest t ht.1 ht.2
                      exact ⟨(hrft t hfts1).1.trans (hpool1 t (by
                          intro hr
                          have := hsomecnt t hr
                          omega) hnft2),
                        (hrft t hfts1).2.trans (hcnt1 t hnft2)⟩)
                    (fun t hr => by
                      cases hr
                      exact ⟨htnimg.1.trans hs1tn.1, htnimg.2.trans hs1tn.2⟩)
                    (by rw [tt_write_tables_size]; exact husz1)
                    (by rw [tt_write_cnt_arr]; exact husz2)
                    husz3 (fun hr => Option.noConfusion hr) rfl
                  have hemp : xlat_table_is_empty (xlat_tables_unmap_region u mm va
                      (some tnew) XLAT_TABLE_ENTRIES (level + 1) bl) tnew = true := by
                    rw [is_empty_iff, (rq3b tnew rfl).2, tt_cnt_write]
                    exact htc0
                  have hu2e : xlat_tables_unmap_loop (tt_write
                      (xlat_tables_unmap_region u mm va (some tnew)
                        XLAT_TABLE_ENTRIES (level + 1) bl) r idx INVALID_DESC)
                      mm tbva r entries level bl (idx + 1)
                      (va + XLAT_BLOCK_SIZE level) = u2 := by
                    by_cases hcv : mm.base_va ≤ va ∧
                        mm.base_va + mm.size - 1 ≥ va + XLAT_BLOCK_SIZE level - 1
                    · rw [if_pos hcv, if_neg (show ¬ level = 3 by omega),
                        if_pos htytab, htod, if_pos hemp, if_neg hbr] at hu2
                      exact hu2
                    · rw [if_neg hcv, if_pos (Or.inl hvage), htod,
                        if_pos hemp, if_neg hbr] at hu2
                      exact hu2
                  have hucr : ∀ j, tt_read (xlat_tables_unmap_region u mm va
                      (some tnew) XLAT_TABLE_ENTRIES (level + 1) bl) r j =
                      tt_read u r j := by
                    refine tt_read_frame _ _ r (fun hr => rq6 (by simp)) ?_
                    intro t0 hr
                    refine rq4 t0 ?_ ?_
                    · intro he
                      injection he with he2
                      subst he2
                      have := hsomecnt tnew hr
                      omega
                    · rw [hftc t0]
                      rintro ⟨hz, -⟩
                      have := hsomecnt t0 hr
                      omega
                  have hucsz : (xlat_tables_unmap_region u mm va (some tnew)
                      XLAT_TABLE_ENTRIES (level + 1) bl).tables.size =
                      s0.tables.size := by
                    rw [rq7.2.1]
                    exact husz1
                  have hucpools : ∀ t, t < (xlat_tables_unmap_region u mm va
                      (some tnew) XLAT_TABLE_ENTRIES (level + 1) bl).tables.size →
                      (tt_pool (xlat_tables_unmap_region u mm va (some tnew)
                        XLAT_TABLE_ENTRIES (level + 1) bl) t).size =
                      XLAT_TABLE_ENTRIES := by
                    intro t ht
                    rw [rq7.2.2.2 t]
                    exact husz3 t (by rwa [hucsz, ← husz1] at ht)
                  obtain ⟨q1, q2, q3, q4, q5, q6, q7⟩ := hunm1
                    (tt_write (xlat_tables_unmap_region u mm va (some tnew)
                      XLAT_TABLE_ENTRIES (level + 1) bl) r idx INVALID_DESC) u2
                    (fun j h1 h2 => by
                      rw [tt_read_write_ne _ r idx _ j (by omega), hucr j]
                      exact hru j (by omega) h2)
                    (fun t hft => by
                      rcases hft with hm | hal
                      · rw [hrefseq] at hm
                        obtain ⟨hc1, htne, hrne, hnal, hncft⟩ := hmemfacts t hm
                        constructor
                        · rw [tt_pool_write_of_ne _ r idx _ t hrne,
                            rq4 t (fun he => htne (Option.some.inj he).symm) hncft]
                          exact (hrft t (Or.inl hm)).1
                        · rw [tt_cnt_write,
                            rq5 t (fun he => htne (Option.some.inj he).symm) hncft]
                          exact (hrft t (Or.inl hm)).2
                      · obtain ⟨hz2, ho2⟩ := hal
                        have hz0 : tt_cnt s0 t = 0 := by
                          have := hmono0 t
                          omega
                        have htne : t ≠ tnew := by
                          rintro rfl
                          omega
                        have hrne : r ≠ some t := by
                          intro hr
                          have := hsomecnt t hr
                          omega
                        have hncft : ¬ map_ft (tt_write s0 r idx
                            (table_desc_for tnew)) s_c
                            (clear_refs (tt_write s0 r idx (table_desc_for tnew))
                              mm.base_va (mm.base_va + mm.size - 1) (some tnew) va
                              XLAT_TABLE_ENTRIES (level + 1)) t := by
                          rw [hftc t]
                          rintro ⟨-, ho3⟩
                          omega
                        constructor
                        · rw [tt_pool_write_of_ne _ r idx _ t hrne,
                            rq4 t (fun he => htne (Option.some.inj he).symm) hncft]
                          exact (hrft t (Or.inr ⟨hz0, ho2⟩)).1
                        · rw [tt_cnt_write,
                            rq5 t (fun he => htne (Option.some.inj he).symm) hncft]
                          exact (hrft t (Or.inr ⟨hz0, ho2⟩)).2)
                    (by rw [tt_write_tables_size, hucsz, hsizc.2.1])
                    (by rw [tt_write_cnt_arr, rq7.2.2.1, husz2, hsizc.2.2.1])
                    (fun t ht => by
                      rw [tt_pool_write_size]
                      exact hucpools t (by rwa [tt_write_tables_size] at ht))
                    (fun hr => by
                      rw [tt_write_base_size, rq7.1]
                      exact hubase hr)
                    hu2e
                  refine ⟨?_, ?_, ?_, ?_, ?_, ?_, ?_, ?_, ?_, ?_⟩
                  · intro j h1 h2
                    rcases eq_or_ne j idx with rfl | hjne
                    · rw [q2 j (Or.inl (by omega)),
                        hulands _ INVALID_DESC hucsz hucpools
                          (fun hr => by rw [rq6 (by simp)]; exact hubase hr)]
                      exact hd0.symm
                    · rw [q1 j (by omega) h2, hscr j]
                      exact tt_read_write_ne s0 r idx _ j hjne
                  · intro j hj
                    rw [q2 j (hj.imp (fun h => by omega) (fun h => h)),
                      tt_read_write_ne _ r idx _ j (by omega)]
                    exact hucr j
                  · intro t ht
                    rcases ht with hm | ⟨hz1, ho1⟩
                    · obtain ⟨hc1, htne, hrne, hnal, hncft⟩ := hmemfacts t hm
                      have hq3 := q3 t (Or.inl (by rwa [hrefseq]))
                      constructor
                      · rw [hq3.1]
                        exact hpfr t hrne htne hnal
                      · rw [hq3.2]
                        exact hcfr t htne hnal
                    · have hrne : r ≠ some t := by
                        intro hr
                        have := hsomecnt t hr
                        omega
                      by_cases hsc : 1 ≤ tt_cnt s_c t
                      · have hq3 := rq3 t (by rw [hftc t]; exact ⟨hz1, hsc⟩)
                        have hnm : ¬ map_ft s_c s1 (clear_refs_loop s_c mm.base_va
                            (mm.base_va + mm.size - 1) r tbva entries level
                            (idx + 1)) t := hnftrest t hz1 hsc
                        have htne : t ≠ tnew ∨ t = tnew := (ne_or_eq t tnew)
                        constructor
                        · rw [q4 t hrne hnm, tt_pool_write_of_ne _ r idx _ t hrne,
                            hq3.1, tt_pool_write_of_ne s0 r idx _ t hrne]
                        · rw [q5 t hnm, tt_cnt_write, hq3.2, tt_cnt_write]
                      · have hzc : tt_cnt s_c t = 0 := by omega
                        have htne : t ≠ tnew := by
                          rintro rfl
                          omega
                        have hq3 := q3 t (Or.inr ⟨hzc, ho1⟩)
                        have hnal : ¬(tt_cnt s0 t = 0 ∧ 1 ≤ tt_cnt s_c t) := by
                          rintro ⟨-, ho3⟩
                          omega
                        constructor
                        · rw [hq3.1]
                          exact hpfr t hrne htne hnal
                        · rw [hq3.2]
                          exact hcfr t htne hnal
                  · intro t hne hnft
                    have htne : t ≠ tnew := by
                      rintro rfl
                      refine hnft (Or.inr ⟨htc0, ?_⟩)
                      have := hmono1 t
                      omega
                    have hnft2 : ¬ map_ft s_c s1 (clear_refs_loop s_c mm.base_va
                        (mm.base_va + mm.size - 1) r tbva entries level (idx + 1)) t := by
                      rintro (hm | ⟨hz2, ho2⟩)
                      · exact hnft (Or.inl (by rwa [hrefseq] at hm))
                      · have hz0 : tt_cnt s0 t = 0 := by
                          have := hmono0 t
                          omega
                        exact hnft (Or.inr ⟨hz0, ho2⟩)
                    have hncft : ¬ map_ft (tt_write s0 r idx (table_desc_for tnew))
                        s_c (clear_refs (tt_write s0 r idx (table_desc_for tnew))
                          mm.base_va (mm.base_va + mm.size - 1) (some tnew) va
                          XLAT_TABLE_ENTRIES (level + 1)) t := by
                      rw [hftc t]
                      rintro ⟨hz, ho⟩
                      refine hnft (Or.inr ⟨hz, ?_⟩)
                      have := hmono1 t
                      omega
                    rw [q4 t hne hnft2, tt_pool_write_of_ne _ r idx _ t hne]
                    exact rq4 t (fun he => htne (Option.some.inj he).symm) hncft
                  · intro t hnft
                    have htne : t ≠ tnew := by
                      rintro rfl
                      refine hnft (Or.inr ⟨htc0, ?_⟩)
                      have := hmono1 t
                      omega
                    have hnft2 : ¬ map_ft s_c s1 (clear_refs_loop s_c mm.base_va
                        (mm.base_va + mm.size - 1) r tbva entries level (idx + 1)) t := by
                      rintro (hm | ⟨hz2, ho2⟩)
                      · exact hnft (Or.inl (by rwa [hrefseq] at hm))
                      · have hz0 : tt_cnt s0 t = 0 := by
                          have := hmono0 t
                          omega
                        exact hnft (Or.inr ⟨hz0, ho2⟩)
                    have hncft : ¬ map_ft (tt_write s0 r idx (table_desc_for tnew))
                        s_c (clear_refs (tt_write s0 r idx (table_desc_for tnew))
                          mm.base_va (mm.base_va + mm.size - 1) (some tnew) va
                          XLAT_TABLE_ENTRIES (level + 1)) t := by
                      rw [hftc t]
                      rintro ⟨hz, ho⟩
                      refine hnft (Or.inr ⟨hz, ?_⟩)
                      have := hmono1 t
                      omega
                    rw [q5 t hnft2, tt_cnt_write]
                    exact rq5 t (fun he => htne (Option.some.inj he).symm) hncft
                  · intro h
                    rw [q6 h, tt_write_base_of_some _ r idx _ h]
                    exact rq6 (by simp)
                  · rw [q7.1, tt_write_base_size, rq7.1]
                  · rw [q7.2.1, tt_write_tables_size, rq7.2.1]
                  · rw [q7.2.2.1, tt_write_cnt_arr, rq7.2.2.1]
                  · intro t
                    rw [q7.2.2.2 t, tt_pool_write_size, rq7.2.2.2 t]
            · rw [if_pos hrc] at hrun
              injection hrun with heqs heqr
              subst heqs
              subst heqr
              have hstop : mm.base_va + mm.size - 1 ≤ va + XLAT_BLOCK_SIZE level := by
                omega
              refine ⟨?_, hsizc, ?_, ?_, ?_, ?_, hmono0, ?_⟩
              · have h1 : rc = mm.base_va + mm.size - 1 := by omega
                rw [h1]
                exact (Nat.min_eq_left (by omega)).symm
              · intro j hj
                rw [hscr j]
                exact tt_read_write_ne s0 r idx _ j (by omega)
              · intro h
                rw [hbasec (by simp)]
                exact tt_write_base_of_some s0 r idx _ h
              · intro t hne hnft
                have htne : t ≠ tnew := by
                  rintro rfl
                  exact hnft (Or.inr ⟨htc0, by omega⟩)
                exact hpfr t hne htne (fun h => hnft (Or.inr h))
              · intro t hnft
                have htne : t ≠ tnew := by
                  rintro rfl
                  exact hnft (Or.inr ⟨htc0, by omega⟩)
                exact hcfr t htne (fun h => hnft (Or.inr h))
              · intro u u2 hru hrft husz1 husz2 husz3 hubase hu2
                rw [xlat_tables_unmap_loop.eq_def, dif_pos hlvl, dif_pos hidx] at hu2
                dsimp only at hu2
                have hud : tt_read u r idx = table_desc_for tnew := by
                  rw [hru idx (Nat.le_refl idx) hidx]
                  exact hscidx
                rw [hud] at hu2
                have hu2e : (if xlat_table_is_empty (xlat_tables_unmap_region u mm
                      va (some tnew) XLAT_TABLE_ENTRIES (level + 1) bl) tnew = true
                    then tt_write (xlat_tables_unmap_region u mm va (some tnew)
                      XLAT_TABLE_ENTRIES (level + 1) bl) r idx INVALID_DESC
                    else xlat_tables_unmap_region u mm va (some tnew)
                      XLAT_TABLE_ENTRIES (level + 1) bl) = u2 := by
                  by_cases hcv : mm.base_va ≤ va ∧
                      mm.base_va + mm.size - 1 ≥ va + XLAT_BLOCK_SIZE level - 1
                  · rw [if_pos hcv, if_neg (show ¬ level = 3 by omega),
                      if_pos htytab, htod, if_pos hstop] at hu2
                    exact hu2
                  · rw [if_neg hcv, if_pos (Or.inl hvage), htod,
                      if_pos hstop] at hu2
                    exact hu2
                have hftnew : map_ft s0 s_c (clear_refs_loop s0 mm.base_va
                    (mm.base_va + mm.size - 1) r tbva entries level idx) tnew :=
                  Or.inr ⟨htc0, by omega⟩
                obtain ⟨rq1, rq3, rq3b, rq4, rq5, rq6, rq7⟩ := hunmc u
                  (xlat_tables_unmap_region u mm va (some tnew) XLAT_TABLE_ENTRIES
                    (level + 1) bl)
                  (fun j hj => tt_read_eq_of_pool _ _ tnew (hrft tnew hftnew).1 j)
                  (fun t ht => by
                    rw [hftc t] at ht
                    exact hrft t (Or.inr ht))
                  (fun t hr => by
                    cases hr
                    exact hrft tnew hftnew)
                  (by rw [tt_write_tables_size]; exact husz1)
                  (by rw [tt_write_cnt_arr]; exact husz2)
                  husz3 (fun hr => Option.noConfusion hr) rfl
                have hemp : xlat_table_is_empty (xlat_tables_unmap_region u mm va
                    (some tnew) XLAT_TABLE_ENTRIES (level + 1) bl) tnew = true := by
                  rw [is_empty_iff, (rq3b tnew rfl).2, tt_cnt_write]
                  exact htc0
                rw [if_pos hemp] at hu2e
                subst hu2e
                have hucr : ∀ j, tt_read (xlat_tables_unmap_region u mm va
                    (some tnew) XLAT_TABLE_ENTRIES (level + 1) bl) r j =
                    tt_read u r j := by
                  refine tt_read_frame _ _ r (fun hr => rq6 (by simp)) ?_
                  intro t0 hr
                  refine rq4 t0 ?_ ?_
                  · intro he
                    injection he with he2
                    subst he2
                    have := hsomecnt tnew hr
                    omega
                  · rw [hftc t0]
                    rintro ⟨hz, -⟩
                    have := hsomecnt t0 hr
                    omega
                have hucsz : (xlat_tables_unmap_region u mm va (some tnew)
                    XLAT_TABLE_ENTRIES (level + 1) bl).tables.size = s0.tables.size := by
                  rw [rq7.2.1]
                  exact husz1
                have hucpools : ∀ t, t < (xlat_tables_unmap_region u mm va
                    (some tnew) XLAT_TABLE_ENTRIES (level + 1) bl).tables.size →
                    (tt_pool (xlat_tables_unmap_region u mm va (some tnew)
                      XLAT_TABLE_ENTRIES (level + 1) bl) t).size =
                    XLAT_TABLE_ENTRIES := by
                  intro t ht
                  rw [rq7.2.2.2 t]
                  exact husz3 t (by rwa [hucsz, ← husz1] at ht)
                refine ⟨?_, ?_, ?_, ?_, ?_, ?_, ?_, ?_, ?_, ?_⟩
                · intro j h1 h2
                  rcases eq_or_ne j idx with rfl | hjne
                  · rw [hulands _ INVALID_DESC hucsz hucpools
                      (fun hr => by rw [rq6 (by simp)]; exact hubase hr)]
                    exact hd0.symm
                  · rw [tt_read_write_ne _ r idx _ j hjne, hucr j, hru j h1 h2,
                      hscr j]
                    exact tt_read_write_ne s0 r idx _ j hjne
                · intro j hj
                  rw [tt_read_write_ne _ r idx _ j (by omega)]
                  exact hucr j
                · intro t ht
                  rcases eq_or_ne t tnew with rfl | htne
                  · constructor
                    · rw [tt_pool_write_of_ne _ r idx _ t hrneW, (rq3b t rfl).1,
                        tt_pool_write_of_ne s0 r idx _ t hrneW]
                    · rw [tt_cnt_write, (rq3b t rfl).2, tt_cnt_write]
                  · rcases ht with hm | hal
                    · have hmem1 := hcntpos t (by rwa [hheadnil] at hm)
                      have hrne : r ≠ some t := fun hr => hnotin t hr hm
                      have hnal : ¬(tt_cnt s0 t = 0 ∧ 1 ≤ tt_cnt s_c t) := by
                        rintro ⟨hz, -⟩
                        omega
                      constructor
                      · rw [tt_pool_write_of_ne _ r idx _ t hrne,
                          rq4 t (fun he => htne (by injection he with h4; exact h4.symm))
                            (by rw [hftc t]; exact hnal),
                          (hrft t (Or.inl hm)).1]
                        exact hpfr t hrne htne hnal
                      · rw [tt_cnt_write,
                          rq5 t (fun he => htne (by injection he with h4; exact h4.symm))
                            (by rw [hftc t]; exact hnal),
                          (hrft t (Or.inl hm)).2]
                        exact hcfr t htne hnal
                    · have hal2 : tt_cnt s0 t = 0 ∧ 1 ≤ tt_cnt s_c t := hal
                      have hrne : r ≠ some t := by
                        intro hr
                        have := hsomecnt t hr
                        omega
                      have hq3 := rq3 t (by rw [hftc t]; exact hal2)
                      constructor
                      · rw [tt_pool_write_of_ne _ r idx _ t hrne, hq3.1,
                          tt_pool_write_of_ne s0 r idx _ t hrne]
                      · rw [tt_cnt_write, hq3.2, tt_cnt_write]
                · intro t hne hnft
                  have htne : t ≠ tnew := by
                    rintro rfl
                    exact hnft (Or.inr ⟨htc0, by omega⟩)
                  rw [tt_pool_write_of_ne _ r idx _ t hne]
                  exact rq4 t (fun he => htne (by injection he with h4; exact h4.symm))
                    (by rw [hftc t]; rintro ⟨hz, ho⟩; exact hnft (Or.inr ⟨hz, ho⟩))
                · intro t hnft
                  have htne : t ≠ tnew := by
                    rintro rfl
                    exact hnft (Or.inr ⟨htc0, by omega⟩)
                  rw [tt_cnt_write]
                  exact rq5 t (fun he => htne (by injection he with h4; exact h4.symm))
                    (by rw [hftc t]; rintro ⟨hz, ho⟩; exact hnft (Or.inr ⟨hz, ho⟩))
                · intro h
                  rw [tt_write_base_of_some _ r idx _ h]
                  exact rq6 (by simp)
                · rw [tt_write_base_size, rq7.1]
                · rw [tt_write_tables_size, rq7.2.1]
                · rw [tt_write_cnt_arr, rq7.2.2.1]
                · intro t
                  rw [tt_pool_write_size, rq7.2.2.2 t]
        · -- ACTION_RECURSE_INTO_TABLE
          rw [hact] at hrun
          dsimp only at hrun
          set tex := table_of_desc (tt_read s0 r idx) with htex
          have hlvlc : level + 1 ≤ XLAT_TABLE_LEVEL_MAX := by
            unfold XLAT_TABLE_LEVEL_MAX
            unfold XLAT_TABLE_LEVEL_MAX at hl3m
            omega
          have hl3 : level < 3 := by
            have h := hl3m
            unfold XLAT_TABLE_LEVEL_MAX at h
            exact h
          have hcend : XLAT_TABLE_ENTRIES * XLAT_BLOCK_SIZE (level + 1) =
              XLAT_BLOCK_SIZE level := by
            rw [bs_succ level hl3]
            unfold XLAT_TABLE_ENTRIES
            ring
          have hcondS : ((mm.base_va ≤ va + XLAT_BLOCK_SIZE level - 1 ∧
                va ≤ mm.base_va + mm.size - 1) ∧
              ¬(mm.base_va ≤ va ∧
                va + XLAT_BLOCK_SIZE level - 1 ≤ mm.base_va + mm.size - 1)) ∧
              (level < XLAT_TABLE_LEVEL_MAX ∧
               desc_type (tt_read s0 r idx) = TABLE_DESC) :=
            ⟨⟨⟨hvage, hvale⟩, hncov⟩, hl3m, hty⟩
          have hsplit2 : clear_refs_loop s0 mm.base_va (mm.base_va + mm.size - 1)
              r tbva entries level idx =
              (tex :: clear_refs s0 mm.base_va (mm.base_va + mm.size - 1)
                (some tex) va XLAT_TABLE_ENTRIES (level + 1)) ++
              clear_refs_loop s0 mm.base_va (mm.base_va + mm.size - 1) r tbva
                entries level (idx + 1) := by
            rw [hsplit, if_pos hcondS]
          have hndx := hnd
          rw [hsplit2, List.cons_append, List.nodup_cons, List.nodup_append] at hndx
          obtain ⟨htexnin, hndchild, hndrest, hdisj⟩ := hndx
          have htexninc : tex ∉ clear_refs s0 mm.base_va (mm.base_va + mm.size - 1)
              (some tex) va XLAT_TABLE_ENTRIES (level + 1) :=
            fun h => htexnin (List.mem_append_left _ h)
          have htexninr : tex ∉ clear_refs_loop s0 mm.base_va
              (mm.base_va + mm.size - 1) r tbva entries level (idx + 1) :=
            fun h => htexnin (List.mem_append_right _ h)
          have htex_mem : tex ∈ clear_refs_loop s0 mm.base_va
              (mm.base_va + mm.size - 1) r tbva entries level idx := by
            rw [hsplit2]
            exact List.mem_append_left _ (List.mem_cons_self _ _)
          have hchild_sub : ∀ t, t ∈ clear_refs s0 mm.base_va
              (mm.base_va + mm.size - 1) (some tex) va XLAT_TABLE_ENTRIES
              (level + 1) →
              t ∈ clear_refs_loop s0 mm.base_va (mm.base_va + mm.size - 1) r tbva
                entries level idx := by
            intro t h
            rw [hsplit2]
            exact List.mem_append_left _ (List.mem_cons_of_mem _ h)
          have hrest_sub : ∀ t, t ∈ clear_refs_loop s0 mm.base_va
              (mm.base_va + mm.size - 1) r tbva entries level (idx + 1) →
              t ∈ clear_refs_loop s0 mm.base_va (mm.base_va + mm.size - 1) r tbva
                entries level idx := by
            intro t h
            rw [hsplit2]
            exact List.mem_append_right _ h
          have hrne_ex : r ≠ some tex := fun hr => hnotin tex hr htex_mem
          have hcntpos : ∀ t, t ∈ clear_refs_loop s0 mm.base_va
              (mm.base_va + mm.size - 1) r tbva entries level (idx + 1) →
              1 ≤ tt_cnt s0 t ∧ t < s0.tables.size := fun t ht =>
            (clear_cnt_pos_fuel ((XLAT_TABLE_LEVEL_MAX + 1 - level) * 514 +
              (entries - (idx + 1)))).2 s0 mm.base_va (mm.base_va + mm.size - 1)
              r tbva entries level (idx + 1) (Nat.le_refl _) hrest t ht
          have hcpos_child : ∀ t, t ∈ clear_refs s0 mm.base_va
              (mm.base_va + mm.size - 1) (some tex) va XLAT_TABLE_ENTRIES
              (level + 1) →
              1 ≤ tt_cnt s0 t ∧ t < s0.tables.size := fun t ht =>
            (clear_cnt_pos_fuel ((XLAT_TABLE_LEVEL_MAX + 1 - (level + 1)) * 514 +
              XLAT_TABLE_ENTRIES + 1)).1 s0 mm.base_va (mm.base_va + mm.size - 1)
              (some tex) va XLAT_TABLE_ENTRIES (level + 1) (Nat.le_refl _) hrc t ht
          rcases hcp : xlat_tables_map_region s0 mm va (some tex)
              XLAT_TABLE_ENTRIES (level + 1) bl xn with ⟨s_c, rc⟩
          rw [hcp] at hrun
          dsimp only at hrun
          have hmodc : rc % PAGE_SIZE = PAGE_SIZE - 1 := by
            by_cases hrceq : rc = va + XLAT_BLOCK_SIZE level - 1
            · rw [hrceq]
              unfold PAGE_SIZE
              omega
            · rw [if_pos hrceq] at hrun
              injection hrun with h1 h2
              rw [h2]
              exact hmod
          have hL := ihr s0 mm va (some tex) XLAT_TABLE_ENTRIES (level + 1) bl xn
            s_c rc
            (by unfold XLAT_TABLE_LEVEL_MAX at hf; unfold XLAT_TABLE_LEVEL_MAX XLAT_TABLE_ENTRIES; omega)
            hlvlc (by omega) (by unfold XLAT_TABLE_ENTRIES; omega)
            (bs_align_succ va level hl3 hvaal) hvale
            (by rw [hcend]; exact hvage)
            hrb4 hpa4 hsz4 hszpos hxn4 hszA hszB hszC
            (fun hr => Option.noConfusion hr)
            (fun t hr => by
              cases hr
              exact ⟨htlt, rfl⟩)
            (fun hr => by omega)
            hrc
            hndchild
            (fun t hr => by
              cases hr
              exact htexninc)
            hfree hcp hmodc
          obtain ⟨hretc, hszc, hbasec, hpoolc, hcntc, hcselfc, hmonoc, hunmc⟩ := hL
          rw [hcend] at hretc
          have hscr : ∀ j, tt_read s_c r j = tt_read s0 r j := by
            refine tt_read_frame _ _ r (fun hr => hbasec (by simp)) ?_
            intro t0 hr
            have htne : t0 ≠ tex := fun he => hnotin t0 hr (by rw [he]; exact htex_mem)
            refine hpoolc t0 (fun he => htne (Option.some.inj he).symm) ?_
            intro hft
            rcases hft with hm | hz
            · exact hnotin t0 hr (hchild_sub t0 hm)
            · have := hsomecnt t0 hr
              omega
          have hscidx : tt_read s_c r idx = tt_read s0 r idx := hscr idx
          have hncov2 : ¬(mm.base_va ≤ va ∧
              mm.base_va + mm.size - 1 ≥ va + XLAT_BLOCK_SIZE level - 1) :=
            fun h => hncov ⟨h.1, h.2⟩
          by_cases hrceq : rc = va + XLAT_BLOCK_SIZE level - 1
          · rw [if_neg (not_not_intro hrceq)] at hrun
            have here : va + XLAT_BLOCK_SIZE level - 1 ≤ mm.base_va + mm.size - 1 := by
              omega
            by_cases hbr : mm.base_va + mm.size - 1 ≤ va + XLAT_BLOCK_SIZE level
            · rw [if_pos hbr] at hrun
              injection hrun with heqs heqr
              subst heqs
              subst heqr
              have hree : mm.base_va + mm.size - 1 = va + XLAT_BLOCK_SIZE level - 1 := by
                omega
              have hstop : mm.base_va + mm.size - 1 ≤ va + XLAT_BLOCK_SIZE level := hbr
              refine ⟨by omega, hszc, fun j hj => hscr j, fun h => hbasec (by simp),
                ?_, ?_, hmonoc, ?_⟩
              · intro t hne hnft
                have htne : t ≠ tex := fun he => hnft (Or.inl (by rw [he]; exact htex_mem))
                refine hpoolc t (fun he => htne (Option.some.inj he).symm) ?_
                intro hft
                rcases hft with hm | hz
                · exact hnft (Or.inl (hchild_sub t hm))
                · exact hnft (Or.inr hz)
              · intro t hnft
                have htne : t ≠ tex := fun he => hnft (Or.inl (by rw [he]; exact htex_mem))
                refine hcntc t (fun he => htne (Option.some.inj he).symm) ?_
                intro hft
                rcases hft with hm | hz
                · exact hnft (Or.inl (hchild_sub t hm))
                · exact hnft (Or.inr hz)
              · intro u u2 hru hrft husz1 husz2 husz3 hubase hu2
                rw [xlat_tables_unmap_loop.eq_def, dif_pos hlvl, dif_pos hidx] at hu2
                dsimp only at hu2
                have hud : tt_read u r idx = tt_read s0 r idx := by
                  rw [hru idx (Nat.le_refl idx) hidx]
                  exact hscidx
                rw [if_neg hncov2, if_pos (Or.inl hvage), hud, ← htex] at hu2
                obtain ⟨rq1, rq3, rq3b, rq4, rq5, rq6, rq7⟩ := hunmc u
                  (xlat_tables_unmap_region u mm va (some tex) XLAT_TABLE_ENTRIES
                    (level + 1) bl)
                  (fun j hj => tt_read_eq_of_pool _ _ tex
                    (hrft tex (Or.inl htex_mem)).1 j)
                  (fun t ht => by
                    rcases ht with hm | hal
                    · exact hrft t (Or.inl (hchild_sub t hm))
                    · exact hrft t (Or.inr hal))
                  (fun t hr => by
                    cases hr
                    exact hrft tex (Or.inl htex_mem))
                  husz1 husz2 husz3 (fun hr => Option.noConfusion hr) rfl
                have hnotemp : ¬(xlat_table_is_empty (xlat_tables_unmap_region u
                    mm va (some tex) XLAT_TABLE_ENTRIES (level + 1) bl) tex = true) := by
                  rw [is_empty_iff, (rq3b tex rfl).2]
                  have hcc : 1 ≤ tt_cnt s0 tex := hcnt1
                  omega
                rw [if_pos hstop, if_neg hnotemp] at hu2
                subst hu2
                have hucr : ∀ j, tt_read (xlat_tables_unmap_region u mm va
                    (some tex) XLAT_TABLE_ENTRIES (level + 1) bl) r j =
                    tt_read u r j := by
                  refine tt_read_frame _ _ r (fun hr => rq6 (by simp)) ?_
                  intro t0 hr
                  have htne : t0 ≠ tex := fun he => hnotin t0 hr
                    (by rw [he]; exact htex_mem)
                  refine rq4 t0 (fun he => htne (Option.some.inj he).symm) ?_
                  intro hft
                  rcases hft with hm | hz
                  · exact hnotin t0 hr (hchild_sub t0 hm)
                  · have := hsomecnt t0 hr
                    omega
                refine ⟨?_, fun j hj => hucr j, ?_, ?_, ?_, fun h => rq6 (by simp), rq7⟩
                · intro j h1 h2
                  rw [hucr j, hru j h1 h2]
                  exact hscr j
                · intro t ht
                  rcases eq_or_ne t tex with rfl | htne
                  · exact rq3b tex rfl
                  · rcases ht with hm | hal
                    · rw [hsplit2, List.cons_append] at hm
                      rcases List.mem_cons.mp hm with he | hm2
                      · exact absurd he htne
                      · rcases List.mem_append.mp hm2 with hmc | hmr
                        · exact rq3 t (Or.inl hmc)
                        · have hc1r := hcntpos t hmr
                          have hne2 : ¬(some tex = some t) :=
                            fun he => htne (Option.some.inj he).symm
                          have hncf : ¬ map_ft s0 s_c (clear_refs s0 mm.base_va
                              (mm.base_va + mm.size - 1) (some tex) va
                              XLAT_TABLE_ENTRIES (level + 1)) t := by
                            intro hft
                            rcases hft with hm3 | hz
                            · exact hdisj hm3 hmr
                            · omega
                          constructor
                          · rw [rq4 t hne2 hncf,
                              (hrft t (Or.inl (hrest_sub t hmr))).1]
                            exact hpoolc t hne2 hncf
                          · rw [rq5 t hne2 hncf,
                              (hrft t (Or.inl (hrest_sub t hmr))).2]
                            exact hcntc t hne2 hncf
                    · exact rq3 t (Or.inr hal)
                · intro t hne hnft
                  have htne : t ≠ tex := fun he => hnft (Or.inl (by rw [he]; exact htex_mem))
                  refine rq4 t (fun he => htne (Option.some.inj he).symm) ?_
                  intro hft
                  rcases hft with hm | hz
                  · exact hnft (Or.inl (hchild_sub t hm))
                  · exact hnft (Or.inr hz)
                · intro t hnft
                  have htne : t ≠ tex := fun he => hnft (Or.inl (by rw [he]; exact htex_mem))
                  refine rq5 t (fun he => htne (Option.some.inj he).symm) ?_
                  intro hft
                  rcases hft with hm | hz
                  · exact hnft (Or.inl (hchild_sub t hm))
                  · exact hnft (Or.inr hz)
            · rw [if_neg hbr] at hrun
              have hfr2 := (clear_frame_fuel
                  ((XLAT_TABLE_LEVEL_MAX + 1 - level) * 514 + (entries - (idx + 1)))).2
                s0 s_c mm.base_va (mm.base_va + mm.size - 1) r tbva entries level
                (idx + 1) (Nat.le_refl _)
                (fun j h1 h2 => hscr j)
                (fun t ht => by
                  have hcp1 := hcntpos t ht
                  have htne : t ≠ tex := fun he => htexninr (he ▸ ht)
                  have hne2 : ¬(some tex = some t) :=
                    fun he => htne (Option.some.inj he).symm
                  have hncf : ¬ map_ft s0 s_c (clear_refs s0 mm.base_va
                      (mm.base_va + mm.size - 1) (some tex) va XLAT_TABLE_ENTRIES
                      (level + 1)) t := by
                    intro hft
                    rcases hft with hm | hz
                    · exact hdisj hm ht
                    · omega
                  exact ⟨hpoolc t hne2 hncf, hcntc t hne2 hncf⟩)
                hszc.2.1
              have hLrest := ihl s_c mm tbva r entries level bl xn (idx + 1)
                (va + XLAT_BLOCK_SIZE level) s1 ret
                (by omega) hlvl hbl hent (by omega)
                (by
                  have h2 : (idx + 1) * XLAT_BLOCK_SIZE level =
                      idx * XLAT_BLOCK_SIZE level + XLAT_BLOCK_SIZE level :=
                    Nat.succ_mul _ _
                  omega)
                (by rw [Nat.add_mod_right]; exact hvaal)
                (by omega) (by omega) hrb4 hpa4 hsz4 hszpos hxn4
                (by rw [hszc.2.2.1, hszc.2.1]; exact hszA)
                (by rw [hszc.2.1]; exact hszB)
                (fun t ht => by
                  rw [hszc.2.2.2 t]
                  exact hszC t (by rwa [hszc.2.1] at ht))
                (fun hr => by rw [hszc.1]; exact hbase hr)
                (fun t hr => ⟨by rw [hszc.2.1]; exact (hsome t hr).1,
                  (hsome t hr).2⟩)
                (fun t hr => Nat.le_trans (hsomecnt t hr) (hmonoc t))
                (hfr2.2.mpr hrest)
                (by rw [hfr2.1]; exact hndrest)
                (fun t hr => by
                  rw [hfr2.1]
                  exact fun hm => hnotin t hr (hrest_sub t hm))
                (by
                  intro t htl hc0 j
                  have hc0a : tt_cnt s_c t = 0 := hc0
                  have hs0c : tt_cnt s0 t = 0 := by
                    have := hmonoc t
                    omega
                  have htne : t ≠ tex := by
                    rintro rfl
                    have hcc : 1 ≤ tt_cnt s0 tex := hcnt1
                    omega
                  have hne2 : ¬(some tex = some t) :=
                    fun he => htne (Option.some.inj he).symm
                  have hncf : ¬ map_ft s0 s_c (clear_refs s0 mm.base_va
                      (mm.base_va + mm.size - 1) (some tex) va XLAT_TABLE_ENTRIES
                      (level + 1)) t := by
                    intro hft
                    rcases hft with hm | hz
                    · have := (hcpos_child t hm).1
                      omega
                    · omega
                  show (tt_pool s_c t).getD j 0 = 0
                  rw [hpoolc t hne2 hncf]
                  exact hfree t (by rwa [hszc.2.1] at htl) hs0c j)
                hrun hmod
              obtain ⟨hret1, hsz1, hown1, hbase1, hpool1, hcntf1, hmono1, hunm1⟩ :=
                hLrest
              have hrefseq : clear_refs_loop s_c mm.base_va
                  (mm.base_va + mm.size - 1) r tbva entries level (idx + 1) =
                  clear_refs_loop s0 mm.base_va (mm.base_va + mm.size - 1) r tbva
                    entries level (idx + 1) := hfr2.1
              have htne_of : ∀ t, ¬ map_ft s0 s1 (clear_refs_loop s0 mm.base_va
                  (mm.base_va + mm.size - 1) r tbva entries level idx) t →
                  t ≠ tex :=
                fun t hnft he => hnft (Or.inl (by rw [he]; exact htex_mem))
              have hnfr_of : ∀ t, ¬ map_ft s0 s1 (clear_refs_loop s0 mm.base_va
                  (mm.base_va + mm.size - 1) r tbva entries level idx) t →
                  ¬ map_ft s_c s1 (clear_refs_loop s_c mm.base_va
                    (mm.base_va + mm.size - 1) r tbva entries level (idx + 1)) t := by
                intro t hnft hft
                rcases hft with hm | ⟨hz, ho⟩
                · exact hnft (Or.inl (hrest_sub t (by rwa [hrefseq] at hm)))
                · have hz0 : tt_cnt s0 t = 0 := by
                    have := hmonoc t
                    omega
                  exact hnft (Or.inr ⟨hz0, ho⟩)
              have hncf_of : ∀ t, ¬ map_ft s0 s1 (clear_refs_loop s0 mm.base_va
                  (mm.base_va + mm.size - 1) r tbva entries level idx) t →
                  ¬ map_ft s0 s_c (clear_refs s0 mm.base_va
                    (mm.base_va + mm.size - 1) (some tex) va XLAT_TABLE_ENTRIES
                    (level + 1)) t := by
                intro t hnft hft
                rcases hft with hm | ⟨hz, ho⟩
                · exact hnft (Or.inl (hchild_sub t hm))
                · refine hnft (Or.inr ⟨hz, ?_⟩)
                  have := hmono1 t
                  omega
              refine ⟨hret1, ⟨?_, ?_, ?_, ?_⟩, ?_, ?_, ?_, ?_, ?_, ?_⟩
              · rw [hsz1.1, hszc.1]
              · rw [hsz1.2.1, hszc.2.1]
              · rw [hsz1.2.2.1, hszc.2.2.1]
              · intro t
                rw [hsz1.2.2.2 t, hszc.2.2.2 t]
              · intro j hj
                rw [hown1 j (hj.imp (fun h => by omega) (fun h => h))]
                exact hscr j
              · intro h
                rw [hbase1 h]
                exact hbasec (by simp)
              · intro t hne hnft
                have htne := htne_of t hnft
                rw [hpool1 t hne (hnfr_of t hnft)]
                exact hpoolc t (fun he => htne (Option.some.inj he).symm)
                  (hncf_of t hnft)
              · intro t hnft
                have htne := htne_of t hnft
                rw [hcntf1 t (hnfr_of t hnft)]
                exact hcntc t (fun he => htne (Option.some.inj he).symm)
                  (hncf_of t hnft)
              · intro t
                exact Nat.le_trans (hmonoc t) (hmono1 t)
              · intro u u2 hru hrft husz1 husz2 husz3 hubase hu2
                rw [xlat_tables_unmap_loop.eq_def, dif_pos hlvl, dif_pos hidx] at hu2
                dsimp only at hu2
                have hud : tt_read u r idx = tt_read s0 r idx := by
                  rw [hru idx (Nat.le_refl idx) hidx, hown1 idx (Or.inl (by omega))]
                  exact hscidx
                rw [if_neg hncov2, if_pos (Or.inl hvage), hud, ← htex] at hu2
                have hfttex : map_ft s0 s1 (clear_refs_loop s0 mm.base_va
                    (mm.base_va + mm.size - 1) r tbva entries level idx) tex :=
                  Or.inl htex_mem
                have hnfrtex : ¬ map_ft s_c s1 (clear_refs_loop s_c mm.base_va
                    (mm.base_va + mm.size - 1) r tbva entries level (idx + 1)) tex := by
                  intro hft
                  rcases hft with hm | ⟨hz, -⟩
                  · exact htexninr (by rwa [hrefseq] at hm)
                  · have hcc : 1 ≤ tt_cnt s0 tex := hcnt1
                    have := hmonoc tex
                    omega
                have hs1tex : tt_pool s1 tex = tt_pool s_c tex ∧
                    tt_cnt s1 tex = tt_cnt s_c tex :=
                  ⟨hpool1 tex hrne_ex hnfrtex, hcntf1 tex hnfrtex⟩
                obtain ⟨rq1, rq3, rq3b, rq4, rq5, rq6, rq7⟩ := hunmc u
                  (xlat_tables_unmap_region u mm va (some tex) XLAT_TABLE_ENTRIES
                    (level + 1) bl)
                  (fun j hj => tt_read_eq_of_pool _ _ tex
                    ((hrft tex hfttex).1.trans hs1tex.1) j)
                  (fun t ht => by
                    rcases ht with hm | ⟨hz, ho⟩
                    · have houter : map_ft s0 s1 (clear_refs_loop s0 mm.base_va
                          (mm.base_va + mm.size - 1) r tbva entries level idx) t :=
                        Or.inl (hchild_sub t hm)
                      have hrne : r ≠ some t :=
                        fun hr => hnotin t hr (hchild_sub t hm)
                      have hnfr : ¬ map_ft s_c s1 (clear_refs_loop s_c mm.base_va
                          (mm.base_va + mm.size - 1) r tbva entries level
                          (idx + 1)) t := by
                        intro hft
                        rcases hft with hm2 | ⟨hz2, -⟩
                        · exact hdisj hm (by rwa [hrefseq] at hm2)
                        · have := (hcpos_child t hm).1
                          have := hmonoc t
                          omega
                      exact ⟨(hrft t houter).1.trans (hpool1 t hrne hnfr),
                        (hrft t houter).2.trans (hcntf1 t hnfr)⟩
                    · have houter : map_ft s0 s1 (clear_refs_loop s0 mm.base_va
                          (mm.base_va + mm.size - 1) r tbva entries level idx) t :=
                        Or.inr ⟨hz, by have := hmono1 t; omega⟩
                      have hrne : r ≠ some t := by
                        intro hr
                        have := hsomecnt t hr
                        omega
                      have hnfr : ¬ map_ft s_c s1 (clear_refs_loop s_c mm.base_va
                          (mm.base_va + mm.size - 1) r tbva entries level
                          (idx + 1)) t := by
                        intro hft
                        rcases hft with hm2 | ⟨hz2, -⟩
                        · have := (hcntpos t (by rwa [hrefseq] at hm2)).1
                          omega
                        · omega
                      exact ⟨(hrft t houter).1.trans (hpool1 t hrne hnfr),
                        (hrft t houter).2.trans (hcntf1 t hnfr)⟩)
                  (fun t hr => by
                    cases hr
                    exact ⟨(hrft tex hfttex).1.trans hs1tex.1,
                      (hrft tex hfttex).2.trans hs1tex.2⟩)
                  husz1 husz2 husz3 (fun hr => Option.noConfusion hr) rfl
                have hnotemp : ¬(xlat_table_is_empty (xlat_tables_unmap_region u
                    mm va (some tex) XLAT_TABLE_ENTRIES (level + 1) bl) tex = true) := by
                  rw [is_empty_iff, (rq3b tex rfl).2]
                  have hcc : 1 ≤ tt_cnt s0 tex := hcnt1
                  omega
                rw [if_neg hnotemp, if_neg hbr] at hu2
                have hucr : ∀ j, tt_read (xlat_tables_unmap_region u mm va
                    (some tex) XLAT_TABLE_ENTRIES (level + 1) bl) r j =
                    tt_read u r j := by
                  refine tt_read_frame _ _ r (fun hr => rq6 (by simp)) ?_
                  intro t0 hr
                  have htne : t0 ≠ tex := fun he => hnotin t0 hr
                    (by rw [he]; exact htex_mem)
                  refine rq4 t0 (fun he => htne (Option.some.inj he).symm) ?_
                  intro hft
                  rcases hft with hm | hz
                  · exact hnotin t0 hr (hchild_sub t0 hm)
                  · have := hsomecnt t0 hr
                    omega
                have hucsz : (xlat_tables_unmap_region u mm va (some tex)
                    XLAT_TABLE_ENTRIES (level + 1) bl).tables.size =
                    s0.tables.size := by
                  rw [rq7.2.1]
                  exact husz1
                have hucpools : ∀ t, t < (xlat_tables_unmap_region u mm va
                    (some tex) XLAT_TABLE_ENTRIES (level + 1) bl).tables.size →
                    (tt_pool (xlat_tables_unmap_region u mm va (some tex)
                      XLAT_TABLE_ENTRIES (level + 1) bl) t).size =
                    XLAT_TABLE_ENTRIES := by
                  intro t ht
                  rw [rq7.2.2.2 t]
                  exact husz3 t (by rwa [hucsz, ← husz1] at ht)
                obtain ⟨q1, q2, q3, q4, q5, q6, q7⟩ := hunm1
                  (xlat_tables_unmap_region u mm va (some tex) XLAT_TABLE_ENTRIES
                    (level + 1) bl) u2
                  (fun j h1 h2 => by
                    rw [hucr j]
                    exact hru j (by omega) h2)
                  (fun t hft => by
                    rcases hft with hm | ⟨hz, ho⟩
                    · have hmr : t ∈ clear_refs_loop s0 mm.base_va
                          (mm.base_va + mm.size - 1) r tbva entries level
                          (idx + 1) := by
                        rwa [hrefseq] at hm
                      have houter : map_ft s0 s1 (clear_refs_loop s0 mm.base_va
                          (mm.base_va + mm.size - 1) r tbva entries level idx) t :=
                        Or.inl (hrest_sub t hmr)
                      have htne : t ≠ tex := fun he => htexninr (he ▸ hmr)
                      have hne2 : ¬(some tex = some t) :=
                        fun he => htne (Option.some.inj he).symm
                      have hncf : ¬ map_ft s0 s_c (clear_refs s0 mm.base_va
                          (mm.base_va + mm.size - 1) (some tex) va
                          XLAT_TABLE_ENTRIES (level + 1)) t := by
                        intro hft2
                        rcases hft2 with hm2 | ⟨hz2, -⟩
                        · exact hdisj hm2 hmr
                        · have := (hcntpos t hmr).1
                          omega
                      exact ⟨(rq4 t hne2 hncf).trans (hrft t houter).1,
                        (rq5 t hne2 hncf).trans (hrft t houter).2⟩
                    · have hz0 : tt_cnt s0 t = 0 := by
                        have := hmonoc t
                        omega
                      have houter : map_ft s0 s1 (clear_refs_loop s0 mm.base_va
                          (mm.base_va + mm.size - 1) r tbva entries level idx) t :=
                        Or.inr ⟨hz0, ho⟩
                      have htne : t ≠ tex := by
                        rintro rfl
                        have hcc : 1 ≤ tt_cnt s0 tex := hcnt1
                        have := hmonoc tex
                        omega
                      have hne2 : ¬(some tex = some t) :=
                        fun he => htne (Option.some.inj he).symm
                      have hncf : ¬ map_ft s0 s_c (clear_refs s0 mm.base_va
                          (mm.base_va + mm.size - 1) (some tex) va
                          XLAT_TABLE_ENTRIES (level + 1)) t := by
                        intro hft2
                        rcases hft2 with hm2 | ⟨hz2, ho2⟩
                        · have := (hcpos_child t hm2).1
                          have := hmonoc t
                          omega
                        · omega
                      exact ⟨(rq4 t hne2 hncf).trans (hrft t houter).1,
                        (rq5 t hne2 hncf).trans (hrft t houter).2⟩)
                  (by rw [hucsz, hszc.2.1])
                  (by rw [rq7.2.2.1, husz2, hszc.2.2.1])
                  hucpools
                  (fun hr => by rw [rq7.1]; exact hubase hr)
                  hu2
                refine ⟨?_, ?_, ?_, ?_, ?_, ?_, ?_, ?_, ?_, ?_⟩
                · intro j h1 h2
                  rcases eq_or_ne j idx with rfl | hjne
                  · rw [q2 j (Or.inl (by omega)), hucr j]
                    exact hud
                  · rw [q1 j (by omega) h2]
                    exact hscr j
                · intro j hj
                  rw [q2 j (hj.imp (fun h => by omega) (fun h => h))]
                  exact hucr j
                · intro t ht
                  rcases eq_or_ne t tex with rfl | htne
                  · constructor
                    · rw [q4 tex hrne_ex hnfrtex]
                      exact (rq3b tex rfl).1
                    · rw [q5 tex hnfrtex]
                      exact (rq3b tex rfl).2
                  · rcases ht with hm | hal
                    · rw [hsplit2, List.cons_append] at hm
                      rcases List.mem_cons.mp hm with he | hm2
                      · exact absurd he htne
                      · rcases List.mem_append.mp hm2 with hmc | hmr
                        · have hc1c := hcpos_child t hmc
                          have hrne : r ≠ some t :=
                            fun hr => hnotin t hr (hchild_sub t hmc)
                          have hnfr : ¬ map_ft s_c s1 (clear_refs_loop s_c
                              mm.base_va (mm.base_va + mm.size - 1) r tbva entries
                              level (idx + 1)) t := by
                            intro hft
                            rcases hft with hm3 | ⟨hz2, -⟩
                            · exact hdisj hmc (by rwa [hrefseq] at hm3)
                            · have := hmonoc t
                              omega
                          constructor
                          · rw [q4 t hrne hnfr]
                            exact (rq3 t (Or.inl hmc)).1
                          · rw [q5 t hnfr]
                            exact (rq3 t (Or.inl hmc)).2
                        · have hc1r := hcntpos t hmr
                          have hne2 : ¬(some tex = some t) :=
                            fun he => htne (Option.some.inj he).symm
                          have hncf : ¬ map_ft s0 s_c (clear_refs s0 mm.base_va
                              (mm.base_va + mm.size - 1) (some tex) va
                              XLAT_TABLE_ENTRIES (level + 1)) t := by
                            intro hft
                            rcases hft with hm3 | hz
                            · exact hdisj hm3 hmr
                            · omega
                          have hq3 := q3 t (Or.inl (by rw [hrefseq]; exact hmr))
                          constructor
                          · rw [hq3.1]
                            exact hpoolc t hne2 hncf
                          · rw [hq3.2]
                            exact hcntc t hne2 hncf
                    · by_cases hsc : 1 ≤ tt_cnt s_c t
                      · have hrne : r ≠ some t := by
                          intro hr
                          have := hsomecnt t hr
                          omega
                        have hnfr : ¬ map_ft s_c s1 (clear_refs_loop s_c
                            mm.base_va (mm.base_va + mm.size - 1) r tbva entries
                            level (idx + 1)) t := by
                          intro hft
                          rcases hft with hm3 | ⟨hz2, -⟩
                          · have := (hcntpos t (by rwa [hrefseq] at hm3)).1
                            omega
                          · omega
                        constructor
                        · rw [q4 t hrne hnfr]
                          exact (rq3 t (Or.inr ⟨hal.1, hsc⟩)).1
                        · rw [q5 t hnfr]
                          exact (rq3 t (Or.inr ⟨hal.1, hsc⟩)).2
                      · have hzc : tt_cnt s_c t = 0 := by omega
                        have hne2 : ¬(some tex = some t) :=
                          fun he => htne (Option.some.inj he).symm
                        have hncf : ¬ map_ft s0 s_c (clear_refs s0 mm.base_va
                            (mm.base_va + mm.size - 1) (some tex) va
                            XLAT_TABLE_ENTRIES (level + 1)) t := by
                          intro hft
                          rcases hft with hm3 | ⟨hz2, ho2⟩
                          · have := (hcpos_child t hm3).1
                            have := hmonoc t
                            omega
                          · omega
                        have hq3 := q3 t (Or.inr ⟨hzc, hal.2⟩)
                        constructor
                        · rw [hq3.1]
                          exact hpoolc t hne2 hncf
                        · rw [hq3.2]
                          exact hcntc t hne2 hncf
                · intro t hne hnft
                  have htne := htne_of t hnft
                  rw [q4 t hne (hnfr_of t hnft)]
                  exact rq4 t (fun he => htne (Option.some.inj he).symm)
                    (hncf_of t hnft)
                · intro t hnft
                  have htne := htne_of t hnft
                  rw [q5 t (hnfr_of t hnft)]
                  exact rq5 t (fun he => htne (Option.some.inj he).symm)
                    (hncf_of t hnft)
                · intro h
                  rw [q6 h]
                  exact rq6 (by simp)
                · rw [q7.1, rq7.1]
                · rw [q7.2.1, rq7.2.1]
                · rw [q7.2.2.1, rq7.2.2.1]
                · intro t
                  rw [q7.2.2.2 t, rq7.2.2.2 t]
          · rw [if_pos hrceq] at hrun
            injection hrun with heqs heqr
            subst heqs
            subst heqr
            have hstop : mm.base_va + mm.size - 1 ≤ va + XLAT_BLOCK_SIZE level := by
              omega
            refine ⟨by omega, hszc, fun j hj => hscr j, fun h => hbasec (by simp),
              ?_, ?_, hmonoc, ?_⟩
            · intro t hne hnft
              have htne : t ≠ tex := fun he => hnft (Or.inl (by rw [he]; exact htex_mem))
              refine hpoolc t (fun he => htne (Option.some.inj he).symm) ?_
              intro hft
              rcases hft with hm | hz
              · exact hnft (Or.inl (hchild_sub t hm))
              · exact hnft (Or.inr hz)
            · intro t hnft
              have htne : t ≠ tex := fun he => hnft (Or.inl (by rw [he]; exact htex_mem))
              refine hcntc t (fun he => htne (Option.some.inj he).symm) ?_
              intro hft
              rcases hft with hm | hz
              · exact hnft (Or.inl (hchild_sub t hm))
              · exact hnft (Or.inr hz)
            · intro u u2 hru hrft husz1 husz2 husz3 hubase hu2
              rw [xlat_tables_unmap_loop.eq_def, dif_pos hlvl, dif_pos hidx] at hu2
              dsimp only at hu2
              have hud : tt_read u r idx = tt_read s0 r idx := by
                rw [hru idx (Nat.le_refl idx) hidx]
                exact hscidx
              rw [if_neg hncov2, if_pos (Or.inl hvage), hud, ← htex] at hu2
              obtain ⟨rq1, rq3, rq3b, rq4, rq5, rq6, rq7⟩ := hunmc u
                (xlat_tables_unmap_region u mm va (some tex) XLAT_TABLE_ENTRIES
                  (level + 1) bl)
                (fun j hj => tt_read_eq_of_pool _ _ tex
                  (hrft tex (Or.inl htex_mem)).1 j)
                (fun t ht => by
                  rcases ht with hm | hal
                  · exact hrft t (Or.inl (hchild_sub t hm))
                  · exact hrft t (Or.inr hal))
                (fun t hr => by
                  cases hr
                  exact hrft tex (Or.inl htex_mem))
                husz1 husz2 husz3 (fun hr => Option.noConfusion hr) rfl
              have hnotemp : ¬(xlat_table_is_empty (xlat_tables_unmap_region u
                  mm va (some tex) XLAT_TABLE_ENTRIES (level + 1) bl) tex = true) := by
                rw [is_empty_iff, (rq3b tex rfl).2]
                have hcc : 1 ≤ tt_cnt s0 tex := hcnt1
                omega
              rw [if_pos hstop, if_neg hnotemp] at hu2
              subst hu2
              have hucr : ∀ j, tt_read (xlat_tables_unmap_region u mm va
                  (some tex) XLAT_TABLE_ENTRIES (level + 1) bl) r j =
                  tt_read u r j := by
                refine tt_read_frame _ _ r (fun hr => rq6 (by simp)) ?_
                intro t0 hr
                have htne : t0 ≠ tex := fun he => hnotin t0 hr
                  (by rw [he]; exact htex_mem)
                refine rq4 t0 (fun he => htne (Option.some.inj he).symm) ?_
                intro hft
                rcases hft with hm | hz
                · exact hnotin t0 hr (hchild_sub t0 hm)
                · have := hsomecnt t0 hr
                  omega
              refine ⟨?_, fun j hj => hucr j, ?_, ?_, ?_, fun h => rq6 (by simp), rq7⟩
              · intro j h1 h2
                rw [hucr j, hru j h1 h2]
                exact hscr j
              · intro t ht
                rcases eq_or_ne t tex with rfl | htne
                · exact rq3b tex rfl
                · rcases ht with hm | hal
                  · rw [hsplit2, List.cons_append] at hm
                    rcases List.mem_cons.mp hm with he | hm2
                    · exact absurd he htne
                    · rcases List.mem_append.mp hm2 with hmc | hmr
                      · exact rq3 t (Or.inl hmc)
                      · have hc1r := hcntpos t hmr
                        have hne2 : ¬(some tex = some t) :=
                          fun he => htne (Option.some.inj he).symm
                        have hncf : ¬ map_ft s0 s_c (clear_refs s0 mm.base_va
                            (mm.base_va + mm.size - 1) (some tex) va
                            XLAT_TABLE_ENTRIES (level + 1)) t := by
                          intro hft
                          rcases hft with hm3 | hz
                          · exact hdisj hm3 hmr
                          · omega
                        constructor
                        · rw [rq4 t hne2 hncf,
                            (hrft t (Or.inl (hrest_sub t hmr))).1]
                          exact hpoolc t hne2 hncf
                        · rw [rq5 t hne2 hncf,
                            (hrft t (Or.inl (hrest_sub t hmr))).2]
                          exact hcntc t hne2 hncf
                  · exact rq3 t (Or.inr hal)
              · intro t hne hnft
                have htne : t ≠ tex := fun he => hnft (Or.inl (by rw [he]; exact htex_mem))
                refine rq4 t (fun he => htne (Option.some.inj he).symm) ?_
                intro hft
                rcases hft with hm | hz
                · exact hnft (Or.inl (hchild_sub t hm))
                · exact hnft (Or.inr hz)
              · intro t hnft
                have htne : t ≠ tex := fun he => hnft (Or.inl (by rw [he]; exact htex_mem))
                refine rq5 t (fun he => htne (Option.some.inj he).symm) ?_
                intro hft
                rcases hft with hm | hz
                · exact hnft (Or.inl (hchild_sub t hm))
                · exact hnft (Or.inr hz)


/-! ## Helper lemmas about the region list operations -/

theorem tt_state_eq_of_fields (s1 s2 : tt_state)
    (h1 : s1.base_table = s2.base_table) (h2 : s1.tables = s2.tables)
    (h3 : s1.tables_mapped_regions = s2.tables_mapped_regions) : s1 = s2 := by
  cases s1
  cases s2
  simp_all

theorem arr2_eq_of_getD (a b : Array (Array Nat)) (hsz : a.size = b.size)
    (h : ∀ j, a.getD j #[] = b.getD j #[]) : a = b := by
  apply Array.ext _ _ hsz
  intro i h1 h2
  have := h i
  rwa [arr_getD_eq, arr_getD_eq, Array.getElem?_eq_getElem h1,
    Array.getElem?_eq_getElem h2] at this

theorem mmap_cursor_phase2_append (mm : mmap_region) :
    ∀ l : List mmap_region,
      (mmap_cursor_phase2 mm l).1 ++ (mmap_cursor_phase2 mm l).2 = l := by
  intro l
  induction l with
  | nil => rfl
  | cons r rest ih =>
    rw [mmap_cursor_phase2]
    split
    · dsimp only
      rw [List.cons_append, ih]
    · rfl

theorem mmap_cursor_phase1_append (mm : mmap_region) :
    ∀ l : List mmap_region,
      (mmap_cursor_phase1 mm l).1 ++ (mmap_cursor_phase1 mm l).2 = l := by
  intro l
  induction l with
  | nil => rfl
  | cons r rest ih =>
    rw [mmap_cursor_phase1]
    split
    · dsimp only
      rw [List.cons_append, ih]
    · exact mmap_cursor_phase2_append mm (r :: rest)

theorem mmap_insert_point_append (mm : mmap_region) (l : List mmap_region) :
    (mmap_insert_point mm l).1 ++ (mmap_insert_point mm l).2 = l :=
  mmap_cursor_phase1_append mm l

theorem mmap_overlap_scan_all (base_pa base_va size attr : Nat) :
    ∀ l : List mmap_region, mmap_overlap_scan base_pa base_va size attr l = 0 →
      ∀ S ∈ l, mmap_region_overlap_check base_pa base_va size attr S = 0 := by
  intro l
  induction l with
  | nil =>
    intro h S hS
    exact absurd hS (List.not_mem_nil S)
  | cons r rest ih =>
    intro h S hS
    rw [mmap_overlap_scan] at h
    by_cases hc : mmap_region_overlap_check base_pa base_va size attr r ≠ 0
    · rw [if_pos hc] at h
      exact absurd h hc
    · rw [if_neg hc] at h
      rcases List.mem_cons.mp hS with rfl | hS2
      · exact not_not.mp hc
      · exact ih h S hS2

theorem overlap_check_dyn_ne (base_pa base_va size attr : Nat)
    (S : mmap_region)
    (hdyn : attr_bit attr MT_DYNAMIC = true)
    (h : mmap_region_overlap_check base_pa base_va size attr S = 0) :
    ¬(S.base_va = base_va ∧ S.size = size) := by
  rintro ⟨hv, hs⟩
  unfold mmap_region_overlap_check at h
  dsimp only at h
  rw [if_pos (Or.inl ⟨by omega, by omega⟩), if_pos (Or.inl hdyn)] at h
  exact absurd h (by decide)

theorem mt_dynamic_or_bit (a : Nat) :
    attr_bit (mt_dynamic_or a) MT_DYNAMIC = true := by
  unfold mt_dynamic_or
  split_ifs with h
  · exact h
  · unfold attr_bit MT_DYNAMIC at *
    simp only [decide_eq_true_eq] at *
    omega

theorem mmap_find_region_none (v n : Nat) :
    ∀ l : List mmap_region, (∀ S ∈ l, ¬(S.base_va = v ∧ S.size = n)) →
      mmap_find_region v n l = none := by
  intro l
  induction l with
  | nil => intro h; rfl
  | cons r rest ih =>
    intro h
    rw [mmap_find_region, if_neg (h r (List.mem_cons_self _ _)),
      ih (fun S hS => h S (List.mem_cons_of_mem _ hS))]

theorem mmap_find_region_concat (v n : Nat) (mc : mmap_region)
    (b : List mmap_region) (hv : mc.base_va = v) (hn : mc.size = n) :
    ∀ a : List mmap_region, (∀ S ∈ a, ¬(S.base_va = v ∧ S.size = n)) →
      mmap_find_region v n (a ++ mc :: b) = some (a, mc, b) := by
  intro a
  induction a with
  | nil =>
    intro h
    rw [List.nil_append, mmap_find_region, if_pos ⟨hv, hn⟩]
  | cons r a2 ih =>
    intro h
    rw [List.cons_append, mmap_find_region,
      if_neg (h r (List.mem_cons_self _ _)),
      ih (fun S hS => h S (List.mem_cons_of_mem _ hS))]

theorem add_check_facts (ctx : xlat_ctx) (pa va size attr gran : Nat)
    (hsz1 : 1 ≤ size) (hva64 : va < 2 ^ 64) (hsz64 : size < 2 ^ 64)
    (h : mmap_add_region_check ctx pa va size attr gran = 0) :
    pa % PAGE_SIZE = 0 ∧ va % PAGE_SIZE = 0 ∧ size % PAGE_SIZE = 0 ∧
    va + size - 1 ≤ ctx.va_max_address ∧
    mmap_overlap_scan pa va size attr ctx.mmap = 0 := by
  unfold mmap_add_region_check at h
  dsimp only at h
  by_cases h1 : ¬(pa % PAGE_SIZE = 0 ∧ va % PAGE_SIZE = 0 ∧
      size % PAGE_SIZE = 0 ∧ gran % PAGE_SIZE = 0)
  · rw [if_pos h1] at h
    exact absurd h (by decide)
  · rw [if_neg h1] at h
    by_cases h2 : pa > (2 ^ 64 + pa + size - 1) % 2 ^ 64 ∨
        va > (2 ^ 64 + va + size - 1) % 2 ^ 64
    · rw [if_pos h2] at h
      exact absurd h (by decide)
    · rw [if_neg h2] at h
      by_cases h3 : (2 ^ 64 + va + size - 1) % 2 ^ 64 > ctx.va_max_address
      · rw [if_pos h3] at h
        exact absurd h (by decide)
      · rw [if_neg h3] at h
        by_cases h4 : (2 ^ 64 + pa + size - 1) % 2 ^ 64 > ctx.pa_max_address
        · rw [if_pos h4] at h
          exact absurd h (by decide)
        · rw [if_neg h4] at h
          by_cases h5 : ctx.mmap.length ≥ ctx.mmap_num
          · rw [if_pos h5] at h
            exact absurd h (by decide)
          · rw [if_neg h5] at h
            have ha := not_not.mp h1
            push_neg at h2
            refine ⟨ha.1, ha.2.1, ha.2.2.1, ?_, h⟩
            have h2b := h2.2
            omega


/-- Claim C1: in dynamic mode, for a context with initialized translation
tables (whose table state is well formed: sizes consistent, the region's
VA range currently unmapped with consistent intermediate table
descriptors, free pool tables all invalid), a successful
`mmap_add_dynamic_region_ctx` of a region followed by a successful
`mmap_remove_dynamic_region_ctx` with exactly that region's
`(base_va, size)` restores the translation-table state exactly: every
base-table descriptor, every sub-table descriptor and every sub-table
refcount equals its value before the add. -/
theorem dynamic_add_remove_roundtrip
    (ctx ctx1 ctx2 : xlat_ctx) (mm : mmap_region)
    (hinit : ctx.initialized = true)
    (hbl3 : ctx.base_level ≤ XLAT_TABLE_LEVEL_MAX)
    (hbe1 : 1 ≤ ctx.base_table_entries)
    (hbt : ctx.tt.base_table.size = ctx.base_table_entries)
    (hgeom : ctx.va_max_address <
      ctx.base_table_entries * XLAT_BLOCK_SIZE ctx.base_level)
    (hszA : ctx.tt.tables_mapped_regions.size = ctx.tt.tables.size)
    (hszB : ctx.tt.tables.size ≤ 2 ^ 30)
    (hszC : ∀ t, t < ctx.tt.tables.size →
      (tt_pool ctx.tt t).size = XLAT_TABLE_ENTRIES)
    (hxn4 : ctx.execute_never_mask % 4 = 0)
    (hpos : ∀ S ∈ ctx.mmap, 1 ≤ S.size)
    (hva64 : mm.base_va < 2 ^ 64) (hsz64 : mm.size < 2 ^ 64)
    (hclear : range_clear ctx.tt mm.base_va (mm.base_va + mm.size - 1) none 0
      ctx.base_table_entries ctx.base_level)
    (hnd : (clear_refs ctx.tt mm.base_va (mm.base_va + mm.size - 1) none 0
      ctx.base_table_entries ctx.base_level).Nodup)
    (hfree : tt_free_empty ctx.tt)
    (hadd : mmap_add_dynamic_region_ctx ctx mm = (0, ctx1))
    (hrem : mmap_remove_dynamic_region_ctx ctx1 mm.base_va mm.size = (0, ctx2)) :
    ctx2.tt = ctx.tt := by
  by_cases hsz0 : mm.size = 0
  · -- a size-0 add is a no-op and the remove cannot find the region
    unfold mmap_add_dynamic_region_ctx at hadd
    rw [if_pos hsz0] at hadd
    injection hadd with h1 h2
    subst h2
    unfold mmap_remove_dynamic_region_ctx at hrem
    have hnone : mmap_find_region mm.base_va mm.size ctx.mmap = none := by
      refine mmap_find_region_none mm.base_va mm.size ctx.mmap ?_
      rintro S hS ⟨-, hs2⟩
      have := hpos S hS
      omega
    rw [hnone] at hrem
    dsimp only at hrem
    injection hrem with h1 h2
    exact absurd h1 (by decide)
  · have hsz1 : 1 ≤ mm.size := by omega
    unfold mmap_add_dynamic_region_ctx at hadd
    rw [if_neg hsz0] at hadd
    dsimp only at hadd
    by_cases hret : mmap_add_region_check ctx mm.base_pa mm.base_va mm.size
        (mt_dynamic_or mm.attr) mm.granularity ≠ 0
    · rw [if_pos hret] at hadd
      injection hadd with h1 h2
      exact absurd h1 hret
    · rw [if_neg hret] at hadd
      have hret0 := not_not.mp hret
      rw [hinit, if_pos rfl] at hadd
      rcases hmr : xlat_tables_map_region ctx.tt
          {mm with attr := mt_dynamic_or mm.attr} 0 none ctx.base_table_entries
          ctx.base_level ctx.base_level ctx.execute_never_mask with ⟨s1, ret1⟩
      rw [hmr] at hadd
      dsimp only at hadd
      obtain ⟨hpa4, hva4, hsz4, hvmax, hscan⟩ := add_check_facts ctx mm.base_pa
        mm.base_va mm.size (mt_dynamic_or mm.attr) mm.granularity hsz1 hva64
        hsz64 hret0
      by_cases hrets : ret1 ≠ mm.base_va + mm.size - 1
      · rw [if_pos hrets] at hadd
        split at hadd
        · injection hadd with h1 h2
          exact absurd h1 (by decide)
        · injection hadd with h1 h2
          exact absurd h1 (by decide)
      · rw [if_neg hrets] at hadd
        have hretv := not_not.mp hrets
        injection hadd with h1 h2
        have hp1sub : ∀ S ∈ (mmap_insert_point mm ctx.mmap).1, S ∈ ctx.mmap := by
          intro S hS
          rw [← mmap_insert_point_append mm ctx.mmap]
          exact List.mem_append_left _ hS
        have hfind : mmap_find_region mm.base_va mm.size
            ((mmap_insert_point mm ctx.mmap).1 ++
              {mm with attr := mt_dynamic_or mm.attr} ::
              (mmap_insert_point mm ctx.mmap).2) =
            some ((mmap_insert_point mm ctx.mmap).1,
              {mm with attr := mt_dynamic_or mm.attr},
              (mmap_insert_point mm ctx.mmap).2) :=
          mmap_find_region_concat mm.base_va mm.size
            {mm with attr := mt_dynamic_or mm.attr}
            (mmap_insert_point mm ctx.mmap).2 rfl rfl _
            (fun S hS => overlap_check_dyn_ne mm.base_pa mm.base_va mm.size
              (mt_dynamic_or mm.attr) S (mt_dynamic_or_bit mm.attr)
              (mmap_overlap_scan_all _ _ _ _ ctx.mmap hscan S (hp1sub S hS)))
        subst h2
        unfold mmap_remove_dynamic_region_ctx at hrem
        dsimp only at hrem
        rw [hfind] at hrem
        dsimp only at hrem
        rw [if_neg (not_not_intro (mt_dynamic_or_bit mm.attr)),
          if_pos rfl] at hrem
        injection hrem with h1 h2
        subst h2
        show xlat_tables_unmap_region s1 {mm with attr := mt_dynamic_or mm.attr}
          0 none ctx.base_table_entries ctx.base_level ctx.base_level = ctx.tt
        have hone := (map_unmap_fuel
            ((XLAT_TABLE_LEVEL_MAX + 1 - ctx.base_level) * 514 +
              ctx.base_table_entries + 1)).1 ctx.tt
          {mm with attr := mt_dynamic_or mm.attr} 0 none ctx.base_table_entries
          ctx.base_level ctx.base_level ctx.execute_never_mask s1 ret1
          (Nat.le_refl _) hbl3 (Nat.le_refl _) hbe1 (Nat.zero_mod _)
          (Nat.zero_le _)
          (by dsimp only; omega)
          hva4 hpa4 hsz4 hsz1 hxn4 hszA hszB hszC
          (fun h => Nat.le_of_eq hbt.symm)
          (fun t hr => Option.noConfusion hr)
          (fun h => absurd rfl h)
          hclear hnd
          (fun t hr => Option.noConfusion hr)
          hfree hmr
          (by
            rw [hretv]
            unfold PAGE_SIZE at hva4 hsz4 ⊢
            omega)
        obtain ⟨hret2, hsz2, hbase2, hpool2, hcnt2, hself2, hmono2, hunm⟩ := hone
        obtain ⟨rq1, rq3, rq3b, rq4, rq5, rq6, rq7⟩ := hunm s1
          (xlat_tables_unmap_region s1 {mm with attr := mt_dynamic_or mm.attr}
            0 none ctx.base_table_entries ctx.base_level ctx.base_level)
          (fun j hj => rfl)
          (fun t ht => ⟨rfl, rfl⟩)
          (fun t hr => Option.noConfusion hr)
          hsz2.2.1 hsz2.2.2.1
          (fun t ht => by
            rw [hsz2.2.2.2 t]
            exact hszC t (by rwa [hsz2.2.1] at ht))
          (fun h => by rw [hsz2.1]; exact Nat.le_of_eq hbt.symm)
          rfl
        have hpools : ∀ t, tt_pool (xlat_tables_unmap_region s1
            {mm with attr := mt_dynamic_or mm.attr} 0 none
            ctx.base_table_entries ctx.base_level ctx.base_level) t =
            tt_pool ctx.tt t := by
          intro t
          by_cases hft : map_ft ctx.tt s1 (clear_refs ctx.tt mm.base_va
            (mm.base_va + mm.size - 1) none 0 ctx.base_table_entries
            ctx.base_level) t
          · exact (rq3 t hft).1
          · rw [rq4 t (fun he => Option.noConfusion he) hft]
            exact hpool2 t (fun he => Option.noConfusion he) hft
        have hcnts : ∀ t, tt_cnt (xlat_tables_unmap_region s1
            {mm with attr := mt_dynamic_or mm.attr} 0 none
            ctx.base_table_entries ctx.base_level ctx.base_level) t =
            tt_cnt ctx.tt t := by
          intro t
          by_cases hft : map_ft ctx.tt s1 (clear_refs ctx.tt mm.base_va
            (mm.base_va + mm.size - 1) none 0 ctx.base_table_entries
            ctx.base_level) t
          · exact (rq3 t hft).2
          · rw [rq5 t (fun he => Option.noConfusion he) hft]
            exact hcnt2 t (fun he => Option.noConfusion he) hft
        refine tt_state_eq_of_fields _ _ ?_ ?_ ?_
        · refine arr_eq_of_getD _ _ ?_ ?_
          · rw [rq7.1, hsz2.1]
          · intro j
            by_cases hj : j < ctx.base_table_entries
            · exact rq1 j hj
            · have h3 : ctx.tt.base_table.size ≤ j := by omega
              have h4 : (xlat_tables_unmap_region s1
                  {mm with attr := mt_dynamic_or mm.attr} 0 none
                  ctx.base_table_entries ctx.base_level
                  ctx.base_level).base_table.size ≤ j := by
                rw [rq7.1, hsz2.1]
                omega
              rw [arr_getD_eq, arr_getD_eq, getElem?_neg _ _ (by omega),
                getElem?_neg _ _ (by omega)]
        · refine arr2_eq_of_getD _ _ ?_ ?_
          · rw [rq7.2.1, hsz2.2.1]
          · intro j
            exact hpools j
        · refine arr_eq_of_getD _ _ ?_ ?_
          · rw [rq7.2.2.1, hsz2.2.2.1]
          · intro j
            exact hcnts j

/-- Witness for `dynamic_add_remove_roundtrip`: on `ctx_l3` (level-3 base
table of 4 all-invalid entries, empty pool) adding the dynamic page
`mm_page` succeeds, removing `(0x1000, 0x1000)` succeeds, and the
translation-table state returns to its exact initial value. -/
theorem dynamic_add_remove_roundtrip_witness :
    (mmap_remove_dynamic_region_ctx
      (mmap_add_dynamic_region_ctx ctx_l3 mm_page).2
      mm_page.base_va mm_page.size).2.tt = ctx_l3.tt :=
  dynamic_add_remove_roundtrip ctx_l3
    (mmap_add_dynamic_region_ctx ctx_l3 mm_page).2
    (mmap_remove_dynamic_region_ctx
      (mmap_add_dynamic_region_ctx ctx_l3 mm_page).2
      mm_page.base_va mm_page.size).2
    mm_page
    rfl (by decide) (by decide) (by decide) (by decide) (by decide)
    (by decide)
    (by intro t ht; simp [ctx_l3] at ht)
    (by decide)
    (by intro S hS; simp [ctx_l3] at hS)
    (by decide) (by decide)
    (by
      rw [range_clear.eq_def, if_pos (by decide)]
      exact (clear_zero 4 ctx_l3.tt mm_page.base_va
        (mm_page.base_va + mm_page.size - 1) none 0 ctx_l3.base_table_entries
        ctx_l3.base_level 0 (by decide)
        (fun j => by
          rw [show tt_read ctx_l3.tt none j = (Array.mkArray 4 0).getD j 0 from
            rfl, arr_getD_eq, ev_getElem?_mkArray]
          split <;> rfl)
        (by decide)).1)
    (by
      rw [clear_refs.eq_def, if_pos (by decide),
        (clear_zero 4 ctx_l3.tt mm_page.base_va
          (mm_page.base_va + mm_page.size - 1) none 0 ctx_l3.base_table_entries
          ctx_l3.base_level 0 (by decide)
          (fun j => by
            rw [show tt_read ctx_l3.tt none j = (Array.mkArray 4 0).getD j 0 from
              rfl, arr_getD_eq, ev_getElem?_mkArray]
            split <;> rfl)
          (by decide)).2]
      exact List.nodup_nil)
    (by intro t ht; simp [ctx_l3] at ht)
    (by
      have h1 : (mmap_add_dynamic_region_ctx ctx_l3 mm_page).1 = 0 := by
        simp [mmap_add_dynamic_region_ctx, ctx_l3, mm_page,
          mmap_add_region_check, mmap_overlap_scan, mmap_insert_point,
          mmap_cursor_phase1, mmap_cursor_phase2, mt_dynamic_or, attr_bit,
          xlat_tables_map_region, xlat_tables_map_loop,
          xlat_tables_map_region_action, xlat_table_get_empty,
          xlat_table_inc_regions_count, tt_read, tt_write, xlat_desc,
          table_desc_for, xlat_table_addr, table_of_desc, desc_type, MT_TYPE,
          attr_bit, LOWER_ATTRS, NS, AP_RO, AP_RW, ACCESS_FLAG, OSH, ISH,
          ATTR_DEVICE_INDEX, ATTR_IWBWA_OWBWA_NTR_INDEX,
          ATTR_NON_CACHEABLE_INDEX, MT_NS, MT_RW, MT_EXECUTE_NEVER, MT_DEVICE,
          MT_MEMORY, MT_PERM_SHIFT, MT_SEC_SHIFT, MT_EXECUTE_SHIFT,
          XLAT_BLOCK_SIZE, XLAT_ADDR_SHIFT, XLAT_TABLE_LEVEL_MAX,
          XLAT_TABLE_ENTRIES, MIN_LVL_BLOCK_DESC, PAGE_SIZE, TABLE_DESC,
          PAGE_DESC, BLOCK_DESC, INVALID_DESC, MT_DYNAMIC, mmap_sentinel,
          sub64, mmap_region_overlap_check, ev_getElem?_mkArray,
          ev_getElem?_setD, ev_size_setD]
      rw [← h1])
    (by
      have h2 : (mmap_remove_dynamic_region_ctx
          (mmap_add_dynamic_region_ctx ctx_l3 mm_page).2
          mm_page.base_va mm_page.size).1 = 0 := by
        simp [mmap_remove_dynamic_region_ctx, mmap_add_dynamic_region_ctx,
          ctx_l3, mm_page, mmap_add_region_check, mmap_overlap_scan,
          mmap_insert_point, mmap_cursor_phase1, mmap_cursor_phase2,
          mt_dynamic_or, attr_bit, xlat_tables_map_region,
          xlat_tables_map_loop, xlat_tables_map_region_action,
          xlat_table_get_empty, xlat_table_inc_regions_count, tt_read,
          tt_write, xlat_desc, table_desc_for, xlat_table_addr, table_of_desc,
          desc_type, MT_TYPE, LOWER_ATTRS, NS, AP_RO, AP_RW, ACCESS_FLAG, OSH,
          ISH, ATTR_DEVICE_INDEX, ATTR_IWBWA_OWBWA_NTR_INDEX,
          ATTR_NON_CACHEABLE_INDEX, MT_NS, MT_RW, MT_EXECUTE_NEVER, MT_DEVICE,
          MT_MEMORY, MT_PERM_SHIFT, MT_SEC_SHIFT, MT_EXECUTE_SHIFT,
          XLAT_BLOCK_SIZE, XLAT_ADDR_SHIFT, XLAT_TABLE_LEVEL_MAX,
          XLAT_TABLE_ENTRIES, MIN_LVL_BLOCK_DESC, PAGE_SIZE, TABLE_DESC,
          PAGE_DESC, BLOCK_DESC, INVALID_DESC, MT_DYNAMIC, mmap_sentinel,
          sub64, mmap_region_overlap_check, mmap_find_region,
          mmap_max_va_scan, mmap_max_pa_scan, xlat_tables_unmap_region,
          xlat_tables_unmap_loop, xlat_table_is_empty,
          xlat_table_dec_regions_count, ev_getElem?_mkArray, ev_getElem?_setD,
          ev_size_setD]
      rw [← h2])

/-- Counterexample to the unamended claim C7: initializing `ctx_abc` (the
pages `mm_ra`, `mm_rb` and the covering region `mm_rc`) succeeds and leaves
sub-table 0 — the level-2 table — with mapped-regions refcount 3, yet the
descriptors of every table are identical to those of the initialization of
`ctx_ab` without `mm_rc`: the third region contributes no descriptor at
all (its range is already fully page-mapped when it is processed, so every
entry action is "none"), while its builder call still recursed into the
sub-tables and incremented their counts.  The number of regions
contributing a descriptor through sub-table 0 is therefore 2, not 3. -/
theorem refcount_exceeds_contributing_regions :
    (init_xlat_tables_ctx ctx_abc).isSome = true ∧
    (init_xlat_tables_ctx ctx_ab).isSome = true ∧
    ((init_xlat_tables_ctx ctx_abc).getD ctx_abc).tt.tables_mapped_regions.getD 0 0 = 3 ∧
    ((init_xlat_tables_ctx ctx_ab).getD ctx_ab).tt.tables_mapped_regions.getD 0 0 = 2 ∧
    ((init_xlat_tables_ctx ctx_abc).getD ctx_abc).tt.base_table =
      ((init_xlat_tables_ctx ctx_ab).getD ctx_ab).tt.base_table ∧
    ((init_xlat_tables_ctx ctx_abc).getD ctx_abc).tt.tables =
      ((init_xlat_tables_ctx ctx_ab).getD ctx_ab).tt.tables := by
  refine ⟨?_, ?_, ?_, ?_, ?_, ?_⟩ <;>
  simp [init_xlat_tables_ctx, init_xlat_tables_walk, ctx_abc, ctx_ab, ctx_ex,
    mm_ra, mm_rb, mm_rc, mmap_add_region_ctx, mmap_add_region_check,
    mmap_overlap_scan, mmap_region_overlap_check, mmap_insert_point,
    mmap_cursor_phase1, mmap_cursor_phase2, attr_bit, sub64, mmap_sentinel,
    xlat_tables_map_region, xlat_tables_map_loop,
    xlat_tables_map_region_action, xlat_table_get_empty,
    xlat_table_inc_regions_count, tt_read, tt_write, xlat_desc,
    table_desc_for, xlat_table_addr, table_of_desc, desc_type, MT_TYPE,
    LOWER_ATTRS, NS, AP_RO, AP_RW, ACCESS_FLAG, OSH, ISH, ATTR_DEVICE_INDEX,
    ATTR_IWBWA_OWBWA_NTR_INDEX, ATTR_NON_CACHEABLE_INDEX, MT_NS, MT_RW,
    MT_EXECUTE_NEVER, MT_DEVICE, MT_MEMORY, MT_PERM_SHIFT, MT_SEC_SHIFT,
    MT_EXECUTE_SHIFT, XLAT_BLOCK_SIZE, XLAT_ADDR_SHIFT, XLAT_TABLE_LEVEL_MAX,
    XLAT_TABLE_ENTRIES, MIN_LVL_BLOCK_DESC, PAGE_SIZE, TABLE_DESC, PAGE_DESC,
    BLOCK_DESC, INVALID_DESC, MT_DYNAMIC, ev_getElem?_mkArray,
    ev_getElem?_setD, ev_size_setD, ev_getElem?_modify, ev_size_modify,
    List.range, List.range.loop]

/-- Claim C7 (amended): the mapped-regions refcount of a sub-table counts
the builder calls that entered the table, not the regions that contribute
descriptors through it: every successful `xlat_tables_map_region` call on
a sub-table — whether it writes any descriptor or not — increments that
table's stored count by exactly one and never decreases any count.  (The
matching unmap decrements symmetrically, and
`refcount_exceeds_contributing_regions` shows the count can exceed the
number of regions contributing a descriptor through the table.)  The
hypotheses are the call-site invariants of the recursive builder: a
consistent table state, an aligned call window intersecting the region,
and a region range currently unmapped below this table. -/
theorem map_region_refcount_increment
    (s0 : tt_state) (mm : mmap_region) (tbva t level bl xn : Nat)
    (s1 : tt_state) (ret : Nat)
    (hlvl : level ≤ XLAT_TABLE_LEVEL_MAX)
    (hbl : bl < level)
    (htbal : tbva % XLAT_BLOCK_SIZE level = 0)
    (htble : tbva ≤ mm.base_va + mm.size - 1)
    (hrbe : mm.base_va ≤ tbva + XLAT_TABLE_ENTRIES * XLAT_BLOCK_SIZE level - 1)
    (hrb4 : mm.base_va % PAGE_SIZE = 0) (hpa4 : mm.base_pa % PAGE_SIZE = 0)
    (hsz4 : mm.size % PAGE_SIZE = 0) (hszpos : 1 ≤ mm.size)
    (hxn4 : xn % 4 = 0)
    (hszA : s0.tables_mapped_regions.size = s0.tables.size)
    (hszB : s0.tables.size ≤ 2 ^ 30)
    (hszC : ∀ u, u < s0.tables.size → (tt_pool s0 u).size = XLAT_TABLE_ENTRIES)
    (ht : t < s0.tables.size)
    (hclear : range_clear s0 mm.base_va (mm.base_va + mm.size - 1) (some t)
      tbva XLAT_TABLE_ENTRIES level)
    (hnd : (clear_refs s0 mm.base_va (mm.base_va + mm.size - 1) (some t) tbva
      XLAT_TABLE_ENTRIES level).Nodup)
    (hnotin : t ∉ clear_refs s0 mm.base_va (mm.base_va + mm.size - 1) (some t)
      tbva XLAT_TABLE_ENTRIES level)
    (hfree : tt_free_empty s0)
    (hrun : xlat_tables_map_region s0 mm tbva (some t) XLAT_TABLE_ENTRIES level
      bl xn = (s1, ret))
    (hmod : ret % PAGE_SIZE = PAGE_SIZE - 1) :
    tt_cnt s1 t = tt_cnt s0 t + 1 ∧ ∀ u, tt_cnt s0 u ≤ tt_cnt s1 u := by
  have hone := (map_unmap_fuel ((XLAT_TABLE_LEVEL_MAX + 1 - level) * 514 +
      XLAT_TABLE_ENTRIES + 1)).1 s0 mm tbva (some t) XLAT_TABLE_ENTRIES level
    bl xn s1 ret (Nat.le_refl _) hlvl (by omega)
    (by unfold XLAT_TABLE_ENTRIES; omega) htbal htble hrbe hrb4 hpa4 hsz4
    hszpos hxn4 hszA hszB hszC (fun h => Option.noConfusion h)
    (fun u hu => by cases hu; exact ⟨ht, rfl⟩)
    (fun h => hbl) hclear hnd
    (fun u hu => by cases hu; exact hnotin)
    hfree hrun hmod
  exact ⟨hone.2.2.2.2.2.1 t rfl, hone.2.2.2.2.2.2.1⟩

/-- Witness for `map_region_refcount_increment`: a level-3 builder call on
the all-invalid sub-table 0 of `st_one` that maps the page `mm_page` into
it; the table's refcount rises from 0 to 1. -/
theorem map_region_refcount_increment_witness :
    tt_cnt (xlat_tables_map_region st_one mm_page 0 (some 0)
      XLAT_TABLE_ENTRIES 3 2 0).1 0 = tt_cnt st_one 0 + 1 ∧
    ∀ u, tt_cnt st_one u ≤
      tt_cnt (xlat_tables_map_region st_one mm_page 0 (some 0)
        XLAT_TABLE_ENTRIES 3 2 0).1 u :=
  map_region_refcount_increment st_one mm_page 0 0 3 2 0
    (xlat_tables_map_region st_one mm_page 0 (some 0) XLAT_TABLE_ENTRIES 3 2 0).1
    (xlat_tables_map_region st_one mm_page 0 (some 0) XLAT_TABLE_ENTRIES 3 2 0).2
    (by decide) (by decide) (by decide) (by decide) (by decide) (by decide)
    (by decide) (by decide) (by decide) (by decide) (by decide) (by decide)
    (by
      intro u hu
      simp [st_one, Nat.lt_one_iff] at hu
      subst hu
      decide)
    (by decide)
    (by
      rw [range_clear.eq_def, if_pos (by decide)]
      exact (clear_zero 512 st_one mm_page.base_va
        (mm_page.base_va + mm_page.size - 1) (some 0) 0 XLAT_TABLE_ENTRIES 3 0
        (by decide)
        (fun j => by
          rw [show tt_read st_one (some 0) j =
            (Array.mkArray 512 0).getD j 0 from rfl, arr_getD_eq,
            ev_getElem?_mkArray]
          split <;> rfl)
        (by decide)).1)
    (by
      rw [clear_refs.eq_def, if_pos (by decide),
        (clear_zero 512 st_one mm_page.base_va
          (mm_page.base_va + mm_page.size - 1) (some 0) 0 XLAT_TABLE_ENTRIES 3 0
          (by decide)
          (fun j => by
            rw [show tt_read st_one (some 0) j =
              (Array.mkArray 512 0).getD j 0 from rfl, arr_getD_eq,
              ev_getElem?_mkArray]
            split <;> rfl)
          (by decide)).2]
      exact List.nodup_nil)
    (by
      rw [clear_refs.eq_def, if_pos (by decide),
        (clear_zero 512 st_one mm_page.base_va
          (mm_page.base_va + mm_page.size - 1) (some 0) 0 XLAT_TABLE_ENTRIES 3 0
          (by decide)
          (fun j => by
            rw [show tt_read st_one (some 0) j =
              (Array.mkArray 512 0).getD j 0 from rfl, arr_getD_eq,
              ev_getElem?_mkArray]
            split <;> rfl)
          (by decide)).2]
      exact List.not_mem_nil 0)
    (by
      intro u hu hc j
      simp [st_one, Nat.lt_one_iff] at hu
      subst hu
      rw [show (st_one.tables.getD 0 #[]).getD j 0 =
        (Array.mkArray 512 0).getD j 0 from rfl, arr_getD_eq,
        ev_getElem?_mkArray]
      split <;> rfl)
    rfl
    (by
      simp [xlat_tables_map_region, xlat_tables_map_loop,
        xlat_tables_map_region_action, xlat_table_get_empty,
        xlat_table_inc_regions_count, st_one, mm_page, tt_read, tt_write,
        xlat_desc, table_desc_for, xlat_table_addr, table_of_desc, desc_type,
        MT_TYPE, attr_bit, LOWER_ATTRS, NS, AP_RO, AP_RW, ACCESS_FLAG, OSH,
        ISH, ATTR_DEVICE_INDEX, ATTR_IWBWA_OWBWA_NTR_INDEX,
        ATTR_NON_CACHEABLE_INDEX, MT_NS, MT_RW, MT_EXECUTE_NEVER, MT_DEVICE,
        MT_MEMORY, MT_PERM_SHIFT, MT_SEC_SHIFT, MT_EXECUTE_SHIFT,
        XLAT_BLOCK_SIZE, XLAT_ADDR_SHIFT, XLAT_TABLE_LEVEL_MAX,
        XLAT_TABLE_ENTRIES, MIN_LVL_BLOCK_DESC, PAGE_SIZE, TABLE_DESC,
        PAGE_DESC, BLOCK_DESC, INVALID_DESC, MT_DYNAMIC,
        ev_getElem?_mkArray, ev_getElem?_setD, ev_size_setD,
        ev_getElem?_modify, ev_size_modify])
